import Mathlib

/-!
Authentication subsystem of the web skeleton (package `auth`).

A shallow embedding of `internal/auth/service.go`, `internal/auth/middleware.go` and
`internal/auth/models.go`, together with the parts of the libraries they call
(`golang-jwt/jwt/v5`, `encoding/json`, `gin`, `database/sql`) that decide their behaviour.

Conventions.
* A Go `string` is embedded as a `String`: the text it holds, which is valid UTF-8.
  `len` is the UTF-8 byte count.
* Go `int`, `int64`, `time.Duration` are embedded as `Int`; no arithmetic of the embedded
  code can overflow on values a 64-bit clock and counter produce.
* A `time.Time` is embedded as the number of nanoseconds since the Unix epoch.
* A Go `(T, error)` result is embedded as `Except Error T`.
-/

set_option autoImplicit false

/-! ## float64, as far as `encoding/json` and the embedded code use it -/

/-- A finite float64: the number `mant * 2 ^ exp` (a fraction when `exp` is negative). -/
structure Float64 where
  mant : Int
  exp : Int
  deriving Repr, DecidableEq

namespace Float64

/-- The least `e` such that `a / 2 ^ e < 2 ^ 53`: the number of low bits of the natural number
`a` that do not fit the 53-bit significand. The first argument bounds the search. -/
def excessBits : Nat → Nat → Nat
  | 0, _ => 0
  | fuel + 1, a => if a < 2 ^ 53 then 0 else excessBits fuel (a / 2) + 1

/-- Conversion of an integer to float64: round to nearest, ties to even, on a 53-bit
significand. This is the value `encoding/json` stores in an `interface{}` on reading back an
integer that it wrote. -/
def ofInt (n : Int) : Float64 :=
  let a := n.natAbs
  let e := excessBits a a
  let q := a / 2 ^ e
  let r := a % 2 ^ e
  let half := 2 ^ e / 2
  let q1 := if half < r ∨ (e ≠ 0 ∧ r = half ∧ q % 2 = 1) then q + 1 else q
  { mant := if n < 0 then -(q1 : Int) else (q1 : Int), exp := (e : Int) }

/-- The integer part of the number, rounding toward zero. -/
def trunc (f : Float64) : Int :=
  if 0 ≤ f.exp then f.mant * 2 ^ f.exp.toNat else Int.tdiv f.mant (2 ^ (-f.exp).toNat)

/-- Go's `int(f)` and `int64(f)`, a conversion to 64 bits: the integer part when that is an
int64. For every other value the language leaves the result to the implementation; the one
given here, -2^63, is the result on amd64. -/
def toInt (f : Float64) : Int :=
  if -9223372036854775808 ≤ f.trunc ∧ f.trunc < 9223372036854775808 then f.trunc
  else -9223372036854775808

/-- The largest integer not above the number. -/
def floor (f : Float64) : Int :=
  if 0 ≤ f.exp then f.mant * 2 ^ f.exp.toNat else f.mant / (2 ^ (-f.exp).toNat)

/-- Go's `f == 0`. -/
def isZero (f : Float64) : Bool := f.mant == 0

end Float64

/-! ## time -/

namespace time

/-- The duration `time.Second`, in nanoseconds. -/
def Second : Int := 1000000000

end time

/-! ## Errors -/

/-- The errors the embedded code returns. The first group are the sentinel errors of
`golang-jwt`, the second those of `database/sql`, the last an error built by `fmt.Errorf`. -/
inductive Error
  | tokenMalformed
  | tokenUnverifiable
  | tokenSignatureInvalid
  | tokenExpired
  | tokenNotValidYet
  | invalidType
  | invalidKeyType
  | errNoRows
  | storage (msg : String)
  | msg (text : String)
  deriving Repr, DecidableEq

deriving instance DecidableEq for Except

/-! ## encoding/json -/

namespace json

/-- A value `json.Unmarshal` stores in an `interface{}`: `nil`, `bool`, `float64`, `string`,
`[]interface{}` or `map[string]interface{}`. -/
inductive Value
  | null
  | bool (b : Bool)
  | number (f : Float64)
  | string (s : String)
  | array (xs : List Value)
  | object (fields : List (String × Value))

/-- A Go value the embedded code hands to `json.Marshal` inside a map: an `int` or `int64`,
or a `string`. -/
inductive GoValue
  | int (n : Int)
  | string (s : String)
  deriving Repr, DecidableEq

/-- What `json.Unmarshal` into an `interface{}` gives back for the text `json.Marshal` wrote:
a number comes back as a float64, a string as itself. -/
def GoValue.decoded : GoValue → Value
  | .int n => .number (Float64.ofInt n)
  | .string s => .string s

/-- The map that `json.Unmarshal` gives back for a marshalled map. -/
def decodedMap (m : List (String × GoValue)) : List (String × Value) :=
  m.map (fun kv => (kv.1, kv.2.decoded))

end json

/-! ## golang-jwt/jwt/v5 -/

namespace jwt

/-- The hash functions of the registered HMAC, RSA and ECDSA methods. -/
inductive Hash
  | SHA256
  | SHA384
  | SHA512
  deriving Repr, DecidableEq

/-- The signing methods the library registers, by family. -/
inductive SigningMethod
  | HMAC (h : Hash)
  | RSA (h : Hash)
  | RSAPSS (h : Hash)
  | ECDSA (h : Hash)
  | Ed25519
  | None
  deriving Repr, DecidableEq

namespace SigningMethod

/-- The result of `method.Alg()`. -/
def Alg : SigningMethod → String
  | .HMAC .SHA256 => "HS256"
  | .HMAC .SHA384 => "HS384"
  | .HMAC .SHA512 => "HS512"
  | .RSA .SHA256 => "RS256"
  | .RSA .SHA384 => "RS384"
  | .RSA .SHA512 => "RS512"
  | .RSAPSS .SHA256 => "PS256"
  | .RSAPSS .SHA384 => "PS384"
  | .RSAPSS .SHA512 => "PS512"
  | .ECDSA .SHA256 => "ES256"
  | .ECDSA .SHA384 => "ES384"
  | .ECDSA .SHA512 => "ES512"
  | .Ed25519 => "EdDSA"
  | .None => "none"

/-- The type assertion `method.(*jwt.SigningMethodHMAC)` succeeds. -/
def isHMAC : SigningMethod → Bool
  | .HMAC _ => true
  | _ => false

end SigningMethod

/-- The registry lookup `jwt.GetSigningMethod(alg)`; `none` for an unregistered name. -/
def GetSigningMethod (alg : String) : Option SigningMethod :=
  if alg = "HS256" then some (.HMAC .SHA256)
  else if alg = "HS384" then some (.HMAC .SHA384)
  else if alg = "HS512" then some (.HMAC .SHA512)
  else if alg = "RS256" then some (.RSA .SHA256)
  else if alg = "RS384" then some (.RSA .SHA384)
  else if alg = "RS512" then some (.RSA .SHA512)
  else if alg = "PS256" then some (.RSAPSS .SHA256)
  else if alg = "PS384" then some (.RSAPSS .SHA384)
  else if alg = "PS512" then some (.RSAPSS .SHA512)
  else if alg = "ES256" then some (.ECDSA .SHA256)
  else if alg = "ES384" then some (.ECDSA .SHA384)
  else if alg = "ES512" then some (.ECDSA .SHA512)
  else if alg = "EdDSA" then some .Ed25519
  else if alg = "none" then some .None
  else none

/-- The claims of a parsed token: `jwt.MapClaims`, a `map[string]interface{}`. -/
abbrev MapClaims := List (String × json.Value)

/-- What the parser reads off a token string of three dot-separated segments: the decoded
header and claims objects, the first two segments as they stand (the text the signature
covers), and the base64url-decoded third segment (`none` when it does not decode). -/
structure Segments where
  header : List (String × json.Value)
  claims : MapClaims
  signingString : String
  signature : Option String

/-- The primitives of the library that stay uninterpreted: the keyed hash, and the compact
serialisation (base64url over JSON) in both directions.
* `hmac h key text`: the HMAC of `text` under `key` with hash `h`;
* `signingString header claims`: `base64url(json(header)) + "." + base64url(json(claims))`;
* `join text sig`: `text + "." + base64url(sig)`;
* `decode tokenString`: the segments of a token string, `none` when it does not consist of
  three segments whose first two are base64url encodings of JSON objects. -/
structure Wire where
  hmac : Hash → String → String → String
  signingString : List (String × json.GoValue) → List (String × json.GoValue) → String
  join : String → String → String
  decode : String → Option Segments

/-- The parser reads a token that the serialiser wrote with this header, these claims and this
signature back as the segments that went in. -/
def Wire.ReadsBack (w : Wire) (header claims : List (String × json.GoValue)) (sig : String) :
    Prop :=
  w.decode (w.join (w.signingString header claims) sig) =
    some { header := json.decodedMap header, claims := json.decodedMap claims,
           signingString := w.signingString header claims, signature := some sig }

/-- A token under construction (`jwt.NewWithClaims`) . -/
structure NewToken where
  Header : List (String × json.GoValue)
  Claims : List (String × json.GoValue)
  Method : SigningMethod

/-- A parsed token (`*jwt.Token`). -/
structure Token where
  Header : List (String × json.Value)
  Claims : MapClaims
  Method : SigningMethod
  Signature : String
  Valid : Bool

/-- Creation of a token: `jwt.NewWithClaims(method, claims)`. -/
def NewWithClaims (method : SigningMethod) (claims : List (String × json.GoValue)) : NewToken :=
  { Header := [("typ", .string "JWT"), ("alg", .string method.Alg)], Claims := claims,
    Method := method }

/-- Signing, `method.Sign(signingString, key)`, with a `[]byte` key: the HMAC methods return the
keyed hash, every other method rejects the key type. -/
def SigningMethod.Sign (w : Wire) (m : SigningMethod) (signingString key : String) :
    Except Error String :=
  match m with
  | .HMAC h => .ok (w.hmac h key signingString)
  | _ => .error .invalidKeyType

/-- Verification, `method.Verify(signingString, sig, key)`, with a `[]byte` key: the HMAC methods
recompute the keyed hash and compare, every other method rejects the key type. -/
def SigningMethod.Verify (w : Wire) (m : SigningMethod) (signingString sig key : String) :
    Except Error Unit :=
  match m with
  | .HMAC h => if w.hmac h key signingString = sig then .ok () else .error .tokenSignatureInvalid
  | _ => .error .invalidKeyType

/-- Serialisation and signing: `token.SignedString(key)`. -/
def NewToken.SignedString (w : Wire) (t : NewToken) (key : String) : Except Error String :=
  let sstr := w.signingString t.Header t.Claims
  match t.Method.Sign w sstr key with
  | .error e => .error e
  | .ok sig => .ok (w.join sstr sig)

/-- Reading of a numeric date claim, `MapClaims.parseNumericDate(key)`, in whole seconds since
the epoch: absent when the key is missing or the number is zero, an error when the value is not
a number. -/
def parseNumericDate (m : MapClaims) (key : String) : Except Error (Option Int) :=
  match m.lookup key with
  | none => .ok none
  | some (.number f) => if f.isZero then .ok none else .ok (some f.floor)
  | some _ => .error .invalidType

/-- The check `Validator.verifyExpiresAt(claims, now, false)`: `now.Before(exp)`. -/
def verifyExpiresAt (claims : MapClaims) (now : Int) : Except Error Unit :=
  match parseNumericDate claims "exp" with
  | .error e => .error e
  | .ok none => .ok ()
  | .ok (some exp) => if now < exp * time.Second then .ok () else .error .tokenExpired

/-- The check `Validator.verifyNotBefore(claims, now, false)`: `!now.Before(nbf)`. -/
def verifyNotBefore (claims : MapClaims) (now : Int) : Except Error Unit :=
  match parseNumericDate claims "nbf" with
  | .error e => .error e
  | .ok none => .ok ()
  | .ok (some nbf) => if ¬ now < nbf * time.Second then .ok () else .error .tokenNotValidYet

/-- The default validator, `Validator.Validate(claims)`, at clock reading `now`: expiry and
not-before are checked; issued-at, audience, issuer and subject are not. -/
def Validate (claims : MapClaims) (now : Int) : Except Error Unit :=
  match verifyExpiresAt claims now, verifyNotBefore claims now with
  | .ok (), .ok () => .ok ()
  | .error e, _ => .error e
  | .ok (), .error e => .error e

/-- Header and claims of a token string and its signing method: `Parser.ParseUnverified`. -/
def ParseUnverified (w : Wire) (tokenString : String) : Except Error (Token × Segments) :=
  match w.decode tokenString with
  | none => .error .tokenMalformed
  | some parts =>
    match parts.header.lookup "alg" with
    | some (.string alg) =>
      match GetSigningMethod alg with
      | none => .error .tokenUnverifiable
      | some method =>
        .ok ({ Header := parts.header, Claims := parts.claims, Method := method,
               Signature := "", Valid := false }, parts)
    | _ => .error .tokenUnverifiable

/-- Parsing, verification and validation: `jwt.Parse(tokenString, keyFunc)` at clock reading
`now`. The key function is asked for the key, which is `[]byte` here. -/
def Parse (w : Wire) (now : Int) (tokenString : String)
    (keyFunc : Token → Except Error String) : Except Error Token :=
  match ParseUnverified w tokenString with
  | .error e => .error e
  | .ok (token, parts) =>
    match parts.signature with
    | none => .error .tokenMalformed
    | some sig =>
      match keyFunc token with
      | .error _ => .error .tokenUnverifiable
      | .ok key =>
        match token.Method.Verify w parts.signingString sig key with
        | .error _ => .error .tokenSignatureInvalid
        | .ok () =>
          match Validate token.Claims now with
          | .error e => .error e
          | .ok () => .ok { token with Signature := sig, Valid := true }

end jwt

/-! ## Package auth: models.go -/

namespace auth

/-- A user in the system (`User`). -/
structure User where
  ID : Int
  GoogleID : String
  Email : String
  Name : String
  Picture : String
  CreatedAt : Int
  UpdatedAt : Int
  deriving Repr, DecidableEq

/-- User information from Google OAuth (`GoogleUserInfo`). -/
structure GoogleUserInfo where
  ID : String
  Email : String
  Name : String
  Picture : String
  deriving Repr, DecidableEq

/-- The claims in a JWT token (`JWTClaims`). -/
structure JWTClaims where
  UserID : Int
  Email : String
  Name : String
  deriving Repr, DecidableEq

/-- The fields of `oauth2.Config` that `NewService` fills in. -/
structure OAuthConfig where
  ClientID : String
  ClientSecret : String
  RedirectURL : String
  Scopes : List String
  deriving Repr, DecidableEq

/-- The authentication service (`Service`), without its database handle: the store is passed
to the operations that use it. -/
structure Service where
  jwtSecret : String
  jwtExpiresIn : Int
  jwtIssuer : String
  googleConfig : OAuthConfig
  deriving Repr, DecidableEq

/-- Creation of the service: `NewService`. -/
def NewService (jwtSecret : String) (jwtExpiresIn : Int) (jwtIssuer : String)
    (googleClientID googleClientSecret googleRedirectURL : String) : Service :=
  { jwtSecret := jwtSecret, jwtExpiresIn := jwtExpiresIn, jwtIssuer := jwtIssuer,
    googleConfig :=
      { ClientID := googleClientID, ClientSecret := googleClientSecret,
        RedirectURL := googleRedirectURL,
        Scopes := ["https://www.googleapis.com/auth/userinfo.email",
                   "https://www.googleapis.com/auth/userinfo.profile"] } }

/-! ## Package auth: service.go, tokens -/

/-- The `Unix()` of a time: whole seconds since the epoch. -/
def unixSeconds (t : Int) : Int := t / time.Second

/-- The header `jwt.NewWithClaims` writes for HS256. -/
def hs256Header : List (String × json.GoValue) :=
  (jwt.NewWithClaims (.HMAC .SHA256) []).Header

/-- The claim map `GenerateJWT` builds. The clock is read twice, first for `exp` (reading
`now1`), then for `iat` (reading `now2`). -/
def Service.issuedClaims (s : Service) (now1 now2 : Int) (user : User) :
    List (String × json.GoValue) :=
  [("user_id", .int user.ID),
   ("email", .string user.Email),
   ("name", .string user.Name),
   ("exp", .int (unixSeconds (now1 + s.jwtExpiresIn))),
   ("iat", .int (unixSeconds now2)),
   ("iss", .string s.jwtIssuer)]

/-- Generation of a JWT token for a user: `Service.GenerateJWT`. -/
def Service.GenerateJWT (w : jwt.Wire) (s : Service) (now1 now2 : Int) (user : User) :
    Except Error String :=
  let claims := s.issuedClaims now1 now2 user
  let token := jwt.NewWithClaims (.HMAC .SHA256) claims
  token.SignedString w s.jwtSecret

/-- The key function `ValidateJWT` passes to `jwt.Parse`. -/
def Service.keyFunc (s : Service) (token : jwt.Token) : Except Error String :=
  if ¬ token.Method.isHMAC then
    .error (.msg "unexpected signing method")
  else
    .ok s.jwtSecret

/-- Validation of a JWT token, returning its claims: `Service.ValidateJWT`, at clock reading
`now`. The assertion `token.Claims.(jwt.MapClaims)` holds for every token `jwt.Parse`
returns, which leaves the test of `token.Valid`. -/
def Service.ValidateJWT (w : jwt.Wire) (s : Service) (now : Int) (tokenString : String) :
    Except Error JWTClaims :=
  match jwt.Parse w now tokenString s.keyFunc with
  | .error err => .error err
  | .ok token =>
    if token.Valid then
      match token.Claims.lookup "user_id" with
      | some (.number userID) =>
        match token.Claims.lookup "email" with
        | some (.string email) =>
          match token.Claims.lookup "name" with
          | some (.string name) =>
            .ok { UserID := userID.toInt, Email := email, Name := name }
          | _ => .error (.msg "invalid name in token")
        | _ => .error (.msg "invalid email in token")
      | _ => .error (.msg "invalid user_id in token")
    else
      .error (.msg "invalid token")

end auth

/-! ## gin -/

namespace gin

/-- A value kept in the key/value bag of a context (`any`): the types the handlers store, and
`other` for a value of any other type. -/
inductive Any
  | int (n : Int)
  | string (s : String)
  | bool (b : Bool)
  | other
  deriving Repr, DecidableEq

/-- A response written with `c.JSON(code, gin.H{...})`. -/
structure Response where
  code : Nat
  body : List (String × String)
  deriving Repr, DecidableEq

/-- The index `c.Abort()` moves a context to. -/
def abortIndex : Int := 63

/-- The request context (`*gin.Context`).
* `cookies`: per cookie name, the value `c.Cookie(name)` returns for it (the cookie's value,
  query-unescaped);
* `headers`: per canonical header name, the first value of the header;
* `Keys`: the key/value bag, latest binding first;
* `index`: the position in the handler chain; at `abortIndex` or above no later handler runs;
* `written`: the responses written so far. -/
structure Context where
  cookies : List (String × String)
  headers : List (String × String)
  Keys : List (String × Any)
  index : Int
  written : List Response
  deriving Repr, DecidableEq

/-- A handler (`gin.HandlerFunc`). Its first argument is what `c.Next()` does in the chain the
handler is part of: it runs the handlers that follow. -/
abbrev HandlerFunc := (Context → Context) → Context → Context

namespace Context

/-- The accessor `c.Cookie(name)`: an error when the request has no such cookie. -/
def Cookie (c : Context) (name : String) : Except Error String :=
  match c.cookies.lookup name with
  | some value => .ok value
  | none => .error (.msg "http: named cookie not present")

/-- The accessor `c.GetHeader(key)`: the empty string when the header is absent. -/
def GetHeader (c : Context) (key : String) : String :=
  match c.headers.lookup key with
  | some value => value
  | none => ""

/-- The setter `c.Set(key, value)`. -/
def Set (c : Context) (key : String) (value : Any) : Context :=
  { c with Keys := (key, value) :: c.Keys }

/-- The getter `c.Get(key)`; `none` stands for `exists = false`. -/
def Get (c : Context) (key : String) : Option Any :=
  c.Keys.lookup key

/-- The writer `c.JSON(code, obj)`. -/
def JSON (c : Context) (code : Nat) (obj : List (String × String)) : Context :=
  { c with written := c.written ++ [{ code := code, body := obj }] }

/-- The call `c.Abort()`. -/
def Abort (c : Context) : Context :=
  { c with index := abortIndex }

/-- The test `c.IsAborted()`. -/
def IsAborted (c : Context) : Bool :=
  decide (abortIndex ≤ c.index)

end Context

end gin

/-! ## net/http -/

namespace http

/-- The status `http.StatusUnauthorized`. -/
def StatusUnauthorized : Nat := 401

end http

/-! ## Package auth: service.go and middleware.go, request handling -/

namespace auth

/-- Extraction of the JWT token from cookie or Authorization header:
`Service.getTokenFromRequest`. The header test `authHeader[:7] == "Bearer "` compares the
first seven bytes with seven ASCII characters, so it holds exactly when the first seven
characters are those, and `authHeader[7:]` is then the text after them. -/
def Service.getTokenFromRequest (_s : Service) (c : gin.Context) : String :=
  let fromHeader :=
    let authHeader := c.GetHeader "Authorization"
    if authHeader ≠ "" ∧ authHeader.utf8ByteSize > 7 ∧ authHeader.take 7 = "Bearer " then
      authHeader.drop 7
    else
      ""
  match c.Cookie "auth_token" with
  | .ok token => if token ≠ "" then token else fromHeader
  | .error _ => fromHeader

/-- The context after the four `c.Set` calls with which both middlewares record the identity
of validated claims. -/
def withIdentity (c : gin.Context) (claims : JWTClaims) : gin.Context :=
  (((c.Set "user_id" (.int claims.UserID)).Set "user_email" (.string claims.Email)).Set
    "user_name" (.string claims.Name)).Set "authenticated" (.bool true)

/-- The Gin middleware that requires authentication: `Service.Middleware`, at clock reading
`now`. -/
def Service.Middleware (w : jwt.Wire) (s : Service) (now : Int) : gin.HandlerFunc :=
  fun next c =>
    let token := s.getTokenFromRequest c
    if token = "" then
      (c.JSON http.StatusUnauthorized [("error", "Authentication required")]).Abort
    else
      match s.ValidateJWT w now token with
      | .error _ => (c.JSON http.StatusUnauthorized [("error", "Invalid token")]).Abort
      | .ok claims =>
        let c := c.Set "user_id" (.int claims.UserID)
        let c := c.Set "user_email" (.string claims.Email)
        let c := c.Set "user_name" (.string claims.Name)
        let c := c.Set "authenticated" (.bool true)
        next c

/-- The Gin middleware that optionally checks for authentication:
`Service.OptionalMiddleware`, at clock reading `now`. -/
def Service.OptionalMiddleware (w : jwt.Wire) (s : Service) (now : Int) : gin.HandlerFunc :=
  fun next c =>
    let token := s.getTokenFromRequest c
    if token = "" then
      let c := c.Set "authenticated" (.bool false)
      next c
    else
      match s.ValidateJWT w now token with
      | .error _ =>
        let c := c.Set "authenticated" (.bool false)
        next c
      | .ok claims =>
        let c := c.Set "user_id" (.int claims.UserID)
        let c := c.Set "user_email" (.string claims.Email)
        let c := c.Set "user_name" (.string claims.Name)
        let c := c.Set "authenticated" (.bool true)
        next c

/-- Retrieval of the user information from the Gin context: `GetUserFromContext`, returning
`(userID, email, name, exists)`. -/
def GetUserFromContext (c : gin.Context) : Int × String × String × Bool :=
  match c.Get "user_id" with
  | none => (0, "", "", false)
  | some userIDInterface =>
    let emailInterface := c.Get "user_email"
    let nameInterface := c.Get "user_name"
    match userIDInterface with
    | .int userID =>
      let email := match emailInterface with
        | some (.string e) => e
        | _ => ""
      let name := match nameInterface with
        | some (.string n) => n
        | _ => ""
      (userID, email, name, true)
    | _ => (0, "", "", false)

end auth

/-! ## database/sql and the users table -/

namespace sql

/-- The state of the database as far as the service uses it: the rows of table `users`, in
the order a `SELECT` yields them, and the largest id the table has handed out
(`AUTOINCREMENT`). The rows are those the service inserts, so no column holds `NULL`. -/
structure DB where
  users : List auth.User
  seq : Int
  deriving Repr, DecidableEq

/-- Failures of the storage layer that do not depend on the data (a lost connection, a driver
that lacks an operation), one per operation of `CreateOrUpdateUser`: `none` when the operation
goes through, the driver's message when it fails. -/
structure Faults where
  query : Option String
  insert : Option String
  lastInsertId : Option String
  update : Option String
  deriving Repr, DecidableEq

/-- No storage failure. -/
def noFaults : Faults :=
  { query := none, insert := none, lastInsertId := none, update := none }

namespace DB

/-- The query `SELECT ... FROM users WHERE google_id = ? OR email = ?` read with
`QueryRow(...).Scan(...)`: the first row that matches, `ErrNoRows` when none does. -/
def queryUser (db : DB) (f : Faults) (googleID email : String) : Except Error auth.User :=
  match f.query with
  | some m => .error (.storage m)
  | none =>
    match db.users.find? (fun r => r.GoogleID == googleID || r.Email == email) with
    | some r => .ok r
    | none => .error .errNoRows

/-- The id the next inserted row gets: one more than the largest id in use or handed out. -/
def nextID (db : DB) : Int :=
  (db.users.foldl (fun m r => max m r.ID) db.seq) + 1

/-- The statement `INSERT INTO users (google_id, email, name, picture) VALUES (?, ?, ?, ?)` at
database clock reading `dbNow`: rejected when a row already holds the `google_id` or the
`email` (both columns are `UNIQUE`); otherwise a row with a fresh id and both timestamps at
`CURRENT_TIMESTAMP` is added. The result holds the new state and the id of the row. -/
def insertUser (db : DB) (f : Faults) (dbNow : Int) (googleID email name picture : String) :
    Except Error (DB × Int) :=
  match f.insert with
  | some m => .error (.storage m)
  | none =>
    if db.users.any (fun r => r.GoogleID == googleID || r.Email == email) then
      .error (.storage "UNIQUE constraint failed")
    else
      let id := db.nextID
      .ok ({ users := db.users ++ [{ ID := id, GoogleID := googleID, Email := email,
                                      Name := name, Picture := picture, CreatedAt := dbNow,
                                      UpdatedAt := dbNow }],
             seq := id }, id)

/-- The statement `UPDATE users SET name = ?, picture = ?, updated_at = CURRENT_TIMESTAMP
WHERE id = ?` at database clock reading `dbNow`. -/
def updateUser (db : DB) (f : Faults) (dbNow : Int) (name picture : String) (id : Int) :
    Except Error DB :=
  match f.update with
  | some m => .error (.storage m)
  | none =>
    .ok { db with users := db.users.map (fun r =>
            if r.ID = id then { r with Name := name, Picture := picture, UpdatedAt := dbNow }
            else r) }

end DB

end sql

/-! ## Package auth: service.go, users -/

namespace auth

/-- Creation or update of a user from Google OAuth info: `Service.CreateOrUpdateUser`, on
database state `db`, with the database clock at `dbNow` and the two readings `now1`, `now2` of
the process clock. The result holds the database state the call leaves behind. -/
def Service.CreateOrUpdateUser (_s : Service) (db : sql.DB) (f : sql.Faults)
    (dbNow now1 now2 : Int) (userInfo : GoogleUserInfo) : sql.DB × Except Error User :=
  match db.queryUser f userInfo.ID userInfo.Email with
  | .error .errNoRows =>
    match db.insertUser f dbNow userInfo.ID userInfo.Email userInfo.Name userInfo.Picture with
    | .error _ => (db, .error (.msg "failed to create user"))
    | .ok (db1, userID) =>
      match f.lastInsertId with
      | some _ => (db1, .error (.msg "failed to get user ID"))
      | none =>
        (db1, .ok { ID := userID, GoogleID := userInfo.ID, Email := userInfo.Email,
                    Name := userInfo.Name, Picture := userInfo.Picture, CreatedAt := now1,
                    UpdatedAt := now2 })
  | .error _ => (db, .error (.msg "failed to query user"))
  | .ok user =>
    match db.updateUser f dbNow userInfo.Name userInfo.Picture user.ID with
    | .error _ => (db, .error (.msg "failed to update user"))
    | .ok db1 =>
      (db1, .ok { user with Name := userInfo.Name, Picture := userInfo.Picture,
                            UpdatedAt := now1 })

end auth

/-! ## Package auth: service.go, users, with the storage operations logged -/

namespace sql

/-- A storage operation of `CreateOrUpdateUser`: the `SELECT`, the `INSERT`, the call of
`LastInsertId`, the `UPDATE`. -/
inductive Op
  | query
  | insert
  | lastInsertId
  | update
  deriving Repr, DecidableEq

/-- The failure the storage layer has in store for an operation. -/
def Faults.of (f : Faults) : Op → Option String
  | .query => f.query
  | .insert => f.insert
  | .lastInsertId => f.lastInsertId
  | .update => f.update

/-- No two rows share a `google_id` and no two rows share an `email`. -/
def DB.Unique (db : DB) : Prop :=
  (db.users.map (fun r => r.GoogleID)).Nodup ∧ (db.users.map (fun r => r.Email)).Nodup

end sql

namespace auth

/-- The function `Service.CreateOrUpdateUser` once more, returning in addition the storage
operations it attempts, in the order it attempts them. -/
def Service.CreateOrUpdateUserLogged (_s : Service) (db : sql.DB) (f : sql.Faults)
    (dbNow now1 now2 : Int) (userInfo : GoogleUserInfo) :
    sql.DB × Except Error User × List sql.Op :=
  match db.queryUser f userInfo.ID userInfo.Email with
  | .error .errNoRows =>
    match db.insertUser f dbNow userInfo.ID userInfo.Email userInfo.Name userInfo.Picture with
    | .error _ => (db, .error (.msg "failed to create user"), [.query, .insert])
    | .ok (db1, userID) =>
      match f.lastInsertId with
      | some _ =>
        (db1, .error (.msg "failed to get user ID"), [.query, .insert, .lastInsertId])
      | none =>
        (db1, .ok { ID := userID, GoogleID := userInfo.ID, Email := userInfo.Email,
                    Name := userInfo.Name, Picture := userInfo.Picture, CreatedAt := now1,
                    UpdatedAt := now2 }, [.query, .insert, .lastInsertId])
  | .error _ => (db, .error (.msg "failed to query user"), [.query])
  | .ok user =>
    match db.updateUser f dbNow userInfo.Name userInfo.Picture user.ID with
    | .error _ => (db, .error (.msg "failed to update user"), [.query, .update])
    | .ok db1 =>
      (db1, .ok { user with Name := userInfo.Name, Picture := userInfo.Picture,
                            UpdatedAt := now1 }, [.query, .update])

/-- One call of `CreateOrUpdateUser`: the storage failures it meets, the clock readings and
the profile. -/
structure Call where
  faults : sql.Faults
  dbNow : Int
  now1 : Int
  now2 : Int
  userInfo : GoogleUserInfo
  deriving Repr, DecidableEq

/-- The database state after a sequence of calls of `CreateOrUpdateUser`, one after the
other. -/
def Service.runCalls (s : Service) (db : sql.DB) : List Call → sql.DB
  | [] => db
  | call :: rest =>
    s.runCalls (s.CreateOrUpdateUser db call.faults call.dbNow call.now1 call.now2
      call.userInfo).1 rest

end auth

/-! ## Package auth: middleware.go -/

namespace strings

/-- The pieces of a character sequence between the occurrences of a separator character. -/
def splitChars (sep : Char) : List Char → List (List Char)
  | [] => [[]]
  | c :: cs =>
    match splitChars sep cs with
    | [] => [[c]]
    | piece :: pieces => if c = sep then [] :: piece :: pieces else (c :: piece) :: pieces

/-- The function `strings.Split(s, sep)` for a separator of one character. -/
def Split (s : String) (sep : Char) : List String :=
  (splitChars sep s.data).map String.mk

end strings

namespace auth

/-- The middleware for JWT authentication of middleware.go: `Service.AuthMiddleware`, at clock
reading `now`. The test `len(tokenParts) != 2 || tokenParts[0] != "Bearer"` is the match on a
list of two parts followed by the comparison of the first. -/
def Service.AuthMiddleware (w : jwt.Wire) (s : Service) (now : Int) : gin.HandlerFunc :=
  fun next c =>
    let authHeader := c.GetHeader "Authorization"
    if authHeader = "" then
      (c.JSON http.StatusUnauthorized [("error", "Authorization header required")]).Abort
    else
      match strings.Split authHeader ' ' with
      | [bearer, token] =>
        if bearer ≠ "Bearer" then
          (c.JSON http.StatusUnauthorized
            [("error", "Invalid authorization header format")]).Abort
        else
          match s.ValidateJWT w now token with
          | .error _ => (c.JSON http.StatusUnauthorized [("error", "Invalid token")]).Abort
          | .ok claims =>
            let c := c.Set "user_id" (.int claims.UserID)
            let c := c.Set "user_email" (.string claims.Email)
            let c := c.Set "user_name" (.string claims.Name)
            next c
      | _ =>
        (c.JSON http.StatusUnauthorized
          [("error", "Invalid authorization header format")]).Abort

/-- The middleware of middleware.go that does not require authentication but sets the user
context if available: `Service.OptionalAuthMiddleware`, at clock reading `now`. -/
def Service.OptionalAuthMiddleware (w : jwt.Wire) (s : Service) (now : Int) :
    gin.HandlerFunc :=
  fun next c =>
    let authHeader := c.GetHeader "Authorization"
    if authHeader ≠ "" then
      match strings.Split authHeader ' ' with
      | [bearer, token] =>
        if bearer = "Bearer" then
          match s.ValidateJWT w now token with
          | .ok claims =>
            let c := c.Set "user_id" (.int claims.UserID)
            let c := c.Set "user_email" (.string claims.Email)
            let c := c.Set "user_name" (.string claims.Name)
            next c
          | .error _ => next c
        else next c
      | _ => next c
    else next c

end auth

/-! ## oauth2, net/http and the provider -/

namespace http

/-- The status `http.StatusBadRequest`. -/
def StatusBadRequest : Nat := 400

/-- The status `http.StatusInternalServerError`. -/
def StatusInternalServerError : Nat := 500

/-- The status `http.StatusFound`. -/
def StatusFound : Nat := 302

/-- A response as `client.Get` returns it: the status code, and what `io.ReadAll(resp.Body)`
gives, the text of the body or a read error. -/
structure Response where
  StatusCode : Nat
  Body : Except Error String
  deriving Repr, DecidableEq

end http

namespace oauth2

/-- A request the service sends to the provider: the exchange of the authorization code at
the token endpoint, and the `GET` of the profile endpoint. -/
inductive Request
  | tokenExchange (code : String)
  | profileRequest (accessToken : String)
  deriving Repr, DecidableEq

/-- The provider and the network as one call meets them:
* `exchange code`: what `googleConfig.Exchange(ctx, code)` returns, the access token or an
  error;
* `get accessToken`: what `client.Get("https://www.googleapis.com/oauth2/v2/userinfo")`
  returns with that token as bearer, a response or a transport error. -/
structure Provider where
  exchange : String → Except Error String
  get : String → Except Error http.Response

end oauth2

/-! ## encoding/json: reading a profile -/

namespace json

/-- A text with the ASCII capitals replaced by their small letters. -/
def lowerASCII (s : String) : String := String.mk (s.data.map Char.toLower)

/-- The fields of the struct `GoogleUserInfo`, by their tags `id`, `email`, `name`,
`picture`. -/
inductive UserInfoField
  | id
  | email
  | name
  | picture
  deriving Repr, DecidableEq

/-- The field a member name of a JSON object addresses: the field whose tag is the name,
or failing that the field whose tag equals the name ignoring case. The four tags are
lower-case ASCII letters with no other letter folding to them, so both are: the name in lower
case is the tag. -/
def userInfoField (key : String) : Option UserInfoField :=
  let k := lowerASCII key
  if k = "id" then some .id
  else if k = "email" then some .email
  else if k = "name" then some .name
  else if k = "picture" then some .picture
  else none

/-- The tag of a field. -/
def UserInfoField.tag : UserInfoField → String
  | .id => "id"
  | .email => "email"
  | .name => "name"
  | .picture => "picture"

/-- The value of a field of the struct. -/
def UserInfoField.get : UserInfoField → auth.GoogleUserInfo → String
  | .id, u => u.ID
  | .email, u => u.Email
  | .name, u => u.Name
  | .picture, u => u.Picture

/-- The effect of one member of the object on the struct under construction; the flag records
a member whose value has the wrong type for its field. A string is stored, `null` leaves the
field as it is, a member that addresses no field is skipped. -/
def userInfoMember (acc : auth.GoogleUserInfo × Bool) (member : String × Value) :
    auth.GoogleUserInfo × Bool :=
  match userInfoField member.1 with
  | none => acc
  | some field =>
    match member.2 with
    | .string v =>
      match field with
      | .id => ({ acc.1 with ID := v }, acc.2)
      | .email => ({ acc.1 with Email := v }, acc.2)
      | .name => ({ acc.1 with Name := v }, acc.2)
      | .picture => ({ acc.1 with Picture := v }, acc.2)
    | .null => acc
    | _ => (acc.1, true)

/-- The text a field of the struct holds after `json.Unmarshal` read an object into the zero
struct, in the words of the documentation of `encoding/json`: the value of the last member of
the object that addresses the field and is a string; the empty string when there is none. -/
def lastString (field : UserInfoField) (members : List (String × Value)) : String :=
  ((members.filterMap (fun m =>
    if userInfoField m.1 = some field then
      match m.2 with
      | .string v => some v
      | _ => none
    else none)).getLast?).getD ""

/-- The decoding `json.Unmarshal(body, &userInfo)` into a zero `GoogleUserInfo`, given the
reading `readJSON` of a text as a JSON value (`none` when the text is not JSON): a syntax
error for a text that is not JSON, a type error for a value that is neither an object nor
`null` or for an object with a member of the wrong type, and otherwise the struct with the
members stored in the order they appear. -/
def UnmarshalUserInfo (readJSON : String → Option Value) (body : String) :
    Except Error auth.GoogleUserInfo :=
  match readJSON body with
  | none => .error (.msg "invalid character")
  | some .null => .ok { ID := "", Email := "", Name := "", Picture := "" }
  | some (.object members) =>
    let r := members.foldl userInfoMember
      ({ ID := "", Email := "", Name := "", Picture := "" }, false)
    if r.2 then .error (.msg "json: cannot unmarshal") else .ok r.1
  | some _ => .error (.msg "json: cannot unmarshal")

end json

/-! ## Package auth: service.go, the code exchange -/

namespace auth

/-- The exchange of an authorization code for user info: `Service.ExchangeCodeForToken`,
against the provider `p`. The result comes with the requests the call sent to the provider, in
the order it sent them. -/
def Service.ExchangeCodeForToken (_s : Service) (p : oauth2.Provider)
    (readJSON : String → Option json.Value) (code : String) :
    Except Error GoogleUserInfo × List oauth2.Request :=
  match p.exchange code with
  | .error _ => (.error (.msg "failed to exchange code for token"), [.tokenExchange code])
  | .ok token =>
    match p.get token with
    | .error _ =>
      (.error (.msg "failed to get user info"), [.tokenExchange code, .profileRequest token])
    | .ok resp =>
      match resp.Body with
      | .error _ =>
        (.error (.msg "failed to read response body"),
          [.tokenExchange code, .profileRequest token])
      | .ok body =>
        match json.UnmarshalUserInfo readJSON body with
        | .error _ =>
          (.error (.msg "failed to unmarshal user info"),
            [.tokenExchange code, .profileRequest token])
        | .ok userInfo => (.ok userInfo, [.tokenExchange code, .profileRequest token])

end auth

/-! ## Package handlers: auth.go -/

namespace Float64

/-- The number `f * 2 ^ e`. -/
def scale (f : Float64) (e : Int) : Float64 :=
  { mant := f.mant, exp := f.exp + e }

/-- The sum `a + b` of float64: the exact sum, written at the smaller exponent, rounded to
nearest, ties to even, on a 53-bit significand. -/
def add (a b : Float64) : Float64 :=
  (ofInt (a.mant * 2 ^ (a.exp - min a.exp b.exp).toNat +
      b.mant * 2 ^ (b.exp - min a.exp b.exp).toNat)).scale (min a.exp b.exp)

/-- The number of doublings of `n` that bring `n / d` to 2^52 or above. The first argument
bounds the search. -/
def upShift : Nat → Nat → Nat → Nat
  | 0, _, _ => 0
  | fuel + 1, n, d => if d * 2 ^ 52 ≤ n then 0 else upShift fuel (2 * n) d + 1

/-- The number of doublings of `d` that bring `n / d` below 2^53. The first argument bounds
the search. -/
def downShift : Nat → Nat → Nat → Nat
  | 0, _, _ => 0
  | fuel + 1, n, d => if n < d * 2 ^ 53 then 0 else downShift fuel n (2 * d) + 1

/-- The quotient `n / d` of two positive natural numbers as a float64: the quotient scaled to
a significand of 53 bits, rounded to nearest, ties to even. -/
def divNat (n d : Nat) : Float64 :=
  let up := upShift (d + 53) n d
  let down := downShift n n d
  let q := n * 2 ^ up / (d * 2 ^ down)
  let r := n * 2 ^ up % (d * 2 ^ down)
  let q1 := if d * 2 ^ down < 2 * r ∨ (2 * r = d * 2 ^ down ∧ q % 2 = 1) then q + 1 else q
  { mant := (q1 : Int), exp := (down : Int) - (up : Int) }

/-- The quotient `a / b` of float64 for a divisor that is not zero (the quotient by zero is
an infinity or not a number, which this type does not hold). -/
def div (a b : Float64) : Float64 :=
  if a.mant = 0 ∨ b.mant = 0 then { mant := 0, exp := 0 }
  else
    let q := (divNat a.mant.natAbs b.mant.natAbs).scale (a.exp - b.exp)
    if (a.mant < 0) = (b.mant < 0) then q else { mant := -q.mant, exp := q.exp }

end Float64

namespace time

/-- The duration in seconds as a float64, `Duration.Seconds`: the whole seconds and the
remaining nanoseconds are converted apart, the latter divided by 1e9, and added. -/
def Seconds (d : Int) : Float64 :=
  Float64.add (Float64.ofInt (Int.tdiv d Second))
    (Float64.div (Float64.ofInt (Int.tmod d Second)) (Float64.ofInt 1000000000))

end time

namespace handlers

/-- The handler of the authentication requests (`AuthHandler`): of its configuration, the
token lifetime `config.Auth.JWTExpiresIn`; its service. The database is passed to the
operations. -/
structure AuthHandler where
  JWTExpiresIn : Int
  authSvc : auth.Service
  deriving Repr, DecidableEq

/-- A collaborator call of `GoogleCallback`. -/
inductive Step
  | ExchangeCodeForToken
  | CreateOrUpdateUser
  | GenerateJWT
  deriving Repr, DecidableEq

/-- What a handler does to the response: `c.JSON(code, obj)`,
`c.SetCookie(name, value, maxAge, path, domain, secure, httpOnly)` (the value as `c.Cookie`
reads it back) and `c.Redirect(code, location)`. -/
inductive Effect
  | JSON (code : Nat) (obj : List (String × String))
  | SetCookie (name value : String) (maxAge : Int) (path domain : String)
      (secure httpOnly : Bool)
  | Redirect (code : Nat) (location : String)
  deriving Repr, DecidableEq

/-- The clock readings of one callback: the database clock and the two readings of
`CreateOrUpdateUser`, the two readings of `GenerateJWT`. -/
structure Clock where
  dbNow : Int
  now1 : Int
  now2 : Int
  now3 : Int
  now4 : Int
  deriving Repr, DecidableEq

/-- What one run of a handler leaves behind: the effects on the response in the order they
happen, the database state, the collaborator calls in the order they happen, and the requests
sent to the provider. -/
structure Outcome where
  effects : List Effect
  db : sql.DB
  steps : List Step
  requests : List oauth2.Request
  deriving Repr, DecidableEq

/-- The handler of the Google OAuth callback: `AuthHandler.GoogleCallback`, for a request
whose query parameter `code` is `code` (what `c.Query("code")` returns). -/
def AuthHandler.GoogleCallback (h : AuthHandler) (w : jwt.Wire) (p : oauth2.Provider)
    (readJSON : String → Option json.Value) (db : sql.DB) (f : sql.Faults) (clock : Clock)
    (code : String) : Outcome :=
  if code = "" then
    { effects := [.JSON http.StatusBadRequest [("error", "Authorization code not provided")]],
      db := db, steps := [], requests := [] }
  else
    match h.authSvc.ExchangeCodeForToken p readJSON code with
    | (.error _, requests) =>
      { effects := [.JSON http.StatusInternalServerError
          [("error", "Failed to get user info")]],
        db := db, steps := [.ExchangeCodeForToken], requests := requests }
    | (.ok userInfo, requests) =>
      match h.authSvc.CreateOrUpdateUser db f clock.dbNow clock.now1 clock.now2 userInfo with
      | (db1, .error _) =>
        { effects := [.JSON http.StatusInternalServerError
            [("error", "Failed to create/update user")]],
          db := db1, steps := [.ExchangeCodeForToken, .CreateOrUpdateUser],
          requests := requests }
      | (db1, .ok user) =>
        match h.authSvc.GenerateJWT w clock.now3 clock.now4 user with
        | .error _ =>
          { effects := [.JSON http.StatusInternalServerError
              [("error", "Failed to generate token")]],
            db := db1,
            steps := [.ExchangeCodeForToken, .CreateOrUpdateUser, .GenerateJWT],
            requests := requests }
        | .ok token =>
          { effects := [.SetCookie "auth_token" token (time.Seconds h.JWTExpiresIn).toInt "/" ""
                          false true,
                        .Redirect http.StatusFound "/dashboard"],
            db := db1,
            steps := [.ExchangeCodeForToken, .CreateOrUpdateUser, .GenerateJWT],
            requests := requests }

end handlers

/-! ## encoding/base64 and the compact serialisation -/

namespace base64

/-- The alphabet of `base64.RawURLEncoding`. -/
def urlAlphabet : List Char :=
  "ABCDEFGHIJKLMNOPQRSTUVWXYZabcdefghijklmnopqrstuvwxyz0123456789-_".data

/-- The six-bit value of a character of the alphabet. -/
def urlIndex (c : Char) : Option Nat :=
  let i := urlAlphabet.indexOf c
  if i < 64 then some i else none

/-- The six-bit values of a text, `none` when a character is outside the alphabet. -/
def urlIndices : List Char → Option (List Nat)
  | [] => some []
  | c :: cs =>
    match urlIndex c, urlIndices cs with
    | some i, some rest => some (i :: rest)
    | _, _ => none

/-- The bytes of a sequence of six-bit values: four values give three bytes; a last group of
three gives two bytes and one of two gives one byte, the bits left over being dropped without
a check (the decoding is not strict); a last group of one is an error. -/
def decodeGroups : List Nat → Option (List Nat)
  | a :: b :: c :: d :: rest =>
    match decodeGroups rest with
    | some tail => some ((a * 4 + b / 16) :: ((b % 16) * 16 + c / 4) :: ((c % 4) * 64 + d) :: tail)
    | none => none
  | [a, b, c] => some [a * 4 + b / 16, (b % 16) * 16 + c / 4]
  | [a, b] => some [a * 4 + b / 16]
  | [_] => none
  | [] => some []

/-- The decoding `base64.RawURLEncoding.DecodeString(s)`: carriage returns and line feeds are
skipped. -/
def RawURLDecode (s : String) : Option (List Nat) :=
  match urlIndices (s.data.filter (fun c => c ≠ '\r' ∧ c ≠ '\n')) with
  | some values => decodeGroups values
  | none => none

/-- The six-bit values of a sequence of bytes. -/
def encodeGroups : List Nat → List Nat
  | a :: b :: c :: rest =>
    (a / 4) :: ((a % 4) * 16 + b / 16) :: ((b % 16) * 4 + c / 64) :: (c % 64) ::
      encodeGroups rest
  | [a, b] => [a / 4, (a % 4) * 16 + b / 16, (b % 16) * 4]
  | [a] => [a / 4, (a % 4) * 16]
  | [] => []

/-- The encoding `base64.RawURLEncoding.EncodeToString(bytes)`. -/
def RawURLEncode (bytes : List Nat) : String :=
  String.mk ((encodeGroups bytes).map (fun i => urlAlphabet.getD i 'A'))

/-- A byte string written as a text with one character per byte. -/
def bytesToString (bytes : List Nat) : String :=
  String.mk (bytes.map Char.ofNat)

/-- The bytes of a byte string written with one character per byte. -/
def stringToBytes (s : String) : List Nat :=
  s.data.map (fun c => c.toNat % 256)

end base64

namespace jwt

/-- The reading of a token string by `Parser.ParseUnverified` and `Parser.DecodeSegment`: the
string is split at the dots and must have three segments; the first two are read as JSON
objects by `readObject` (base64url then JSON, `none` when either fails); the third is
base64url-decoded, the signature being a byte string with one character per byte. -/
def compactDecode (readObject : String → Option (List (String × json.Value)))
    (tokenString : String) : Option Segments :=
  match strings.Split tokenString '.' with
  | [h, c, sg] =>
    match readObject h, readObject c with
    | some header, some claims =>
      some { header := header, claims := claims, signingString := h ++ "." ++ c,
             signature := (base64.RawURLDecode sg).map base64.bytesToString }
    | _, _ => none
  | _ => none

/-- The joining of signing string and signature by `Token.SignedString`. -/
def compactJoin (text sig : String) : String :=
  text ++ "." ++ base64.RawURLEncode (base64.stringToBytes sig)

end jwt

/-! ## Package auth: calls of CreateOrUpdateUser running at the same time -/

namespace auth

/-- Where a call of `CreateOrUpdateUser` stands between its storage statements: before the
`SELECT`; after a `SELECT` that found no row, before the `INSERT`; after a `SELECT` that
returned a row, before the `UPDATE`; returned. -/
inductive Progress
  | start
  | inserting
  | updating (user : User)
  | finished (result : Except Error User)
  deriving Repr, DecidableEq

/-- The call has returned. -/
def Progress.isFinished : Progress → Bool
  | .finished _ => true
  | _ => false

/-- A moment at which one of the calls executes its next storage statement: which call, the
storage failures it meets and the clock readings. -/
structure Tick where
  call : Nat
  faults : sql.Faults
  dbNow : Int
  now1 : Int
  now2 : Int
  deriving Repr, DecidableEq

/-- The database and the calls in progress. -/
structure Concurrent where
  db : sql.DB
  calls : List Progress
  deriving Repr, DecidableEq

/-- The next storage statement of one call, executed on its own against the database: the
branches of `CreateOrUpdateUser`, cut at its storage statements. -/
def Service.advance (_s : Service) (userInfo : GoogleUserInfo) (t : Tick) (db : sql.DB) :
    Progress → sql.DB × Progress
  | .start =>
    match db.queryUser t.faults userInfo.ID userInfo.Email with
    | .error .errNoRows => (db, .inserting)
    | .error _ => (db, .finished (.error (.msg "failed to query user")))
    | .ok user => (db, .updating user)
  | .inserting =>
    match db.insertUser t.faults t.dbNow userInfo.ID userInfo.Email userInfo.Name
        userInfo.Picture with
    | .error _ => (db, .finished (.error (.msg "failed to create user")))
    | .ok (db1, userID) =>
      match t.faults.lastInsertId with
      | some _ => (db1, .finished (.error (.msg "failed to get user ID")))
      | none =>
        (db1, .finished (.ok { ID := userID, GoogleID := userInfo.ID,
                               Email := userInfo.Email, Name := userInfo.Name,
                               Picture := userInfo.Picture, CreatedAt := t.now1,
                               UpdatedAt := t.now2 }))
  | .updating user =>
    match db.updateUser t.faults t.dbNow userInfo.Name userInfo.Picture user.ID with
    | .error _ => (db, .finished (.error (.msg "failed to update user")))
    | .ok db1 =>
      (db1, .finished (.ok { user with Name := userInfo.Name, Picture := userInfo.Picture,
                                       UpdatedAt := t.now1 }))
  | .finished result => (db, .finished result)

/-- One step of the interleaving: the call named by the tick executes its next storage
statement; a tick for a call that does not exist changes nothing. -/
def Service.step (s : Service) (userInfo : GoogleUserInfo) (st : Concurrent) (t : Tick) :
    Concurrent :=
  match st.calls.get? t.call with
  | none => st
  | some p =>
    let r := s.advance userInfo t st.db p
    { db := r.1, calls := st.calls.set t.call r.2 }

/-- An interleaving: the ticks of a schedule, one after the other. -/
def Service.interleave (s : Service) (userInfo : GoogleUserInfo) (st : Concurrent)
    (schedule : List Tick) : Concurrent :=
  schedule.foldl (s.step userInfo) st

/-- The number of rows with a given `google_id`. -/
def countGoogleID (db : sql.DB) (googleID : String) : Nat :=
  (db.users.filter (fun r => r.GoogleID = googleID)).length

/-- No row holds the `google_id` or the `email` of the profile. -/
def NoRow (db : sql.DB) (userInfo : GoogleUserInfo) : Prop :=
  ∀ r ∈ db.users, r.GoogleID ≠ userInfo.ID ∧ r.Email ≠ userInfo.Email

/-- The last row holds the `google_id` and the `email` of the profile, and no other row holds
either. -/
def OneRow (db : sql.DB) (userInfo : GoogleUserInfo) : Prop :=
  ∃ pre row, db.users = pre ++ [row] ∧
    (∀ r ∈ pre, r.GoogleID ≠ userInfo.ID ∧ r.Email ≠ userInfo.Email) ∧
    row.GoogleID = userInfo.ID ∧ row.Email = userInfo.Email

/-- The call has got a row from its `SELECT`, or has returned. -/
def Progress.pastLookup : Progress → Bool
  | .updating _ => true
  | .finished _ => true
  | _ => false

/-- The invariant of the interleavings of calls with one new profile: the table holds no row
for the profile or exactly one, and exactly one as soon as a call has got a row or has
returned. -/
def Concurrent.Consistent (st : Concurrent) (userInfo : GoogleUserInfo) : Prop :=
  (NoRow st.db userInfo ∨ OneRow st.db userInfo) ∧
  ∀ p ∈ st.calls, p.pastLookup = true → OneRow st.db userInfo

end auth

/-! ## Package config: config.go -/

namespace config

/-- The server settings (`ServerConfig`). `Port` is a Go `int`. -/
structure ServerConfig where
  Host : String
  Port : Int
  deriving Repr, DecidableEq

/-- The authentication settings (`AuthConfig`). -/
structure AuthConfig where
  JWTSecret : String
  JWTExpiresIn : Int
  JWTIssuer : String
  GoogleClientID : String
  GoogleClientSecret : String
  GoogleRedirectURL : String
  SessionSecret : String
  RequireAuth : Bool
  deriving Repr, DecidableEq

/-- The application settings (`Config`), without the database settings, which
`validateConfig` does not read. -/
structure Config where
  Server : ServerConfig
  Auth : AuthConfig
  Debug : Bool
  LogLevel : String
  deriving Repr, DecidableEq

/-- The check of a loaded configuration: `validateConfig`. The result is the Go `error`,
`none` for `nil`. -/
def validateConfig (config : Config) : Option Error :=
  if config.Server.Port ≤ 0 ∨ config.Server.Port > 65535 then
    some (.msg ("invalid server port: " ++ toString config.Server.Port))
  else if config.Auth.RequireAuth then
    if config.Auth.JWTSecret = "" ∨ config.Auth.JWTSecret = "your-secret-key" then
      some (.msg "JWT secret must be set when authentication is required")
    else if config.Auth.GoogleClientID = "" ∨ config.Auth.GoogleClientSecret = "" then
      some (.msg "Google OAuth credentials must be set when authentication is required")
    else
      none
  else
    none

end config

/-! ## Go strings as bytes, fmt, crypto/rand -/

namespace strings

/-- The bytes of one character in UTF-8. -/
def utf8EncodeChar (c : Char) : List Nat :=
  if c.toNat < 128 then [c.toNat]
  else if c.toNat < 2048 then [192 + c.toNat / 64, 128 + c.toNat % 64]
  else if c.toNat < 65536 then
    [224 + c.toNat / 4096, 128 + c.toNat / 64 % 64, 128 + c.toNat % 64]
  else
    [240 + c.toNat / 262144, 128 + c.toNat / 4096 % 64, 128 + c.toNat / 64 % 64,
     128 + c.toNat % 64]

/-- The bytes of a Go string (`[]byte(s)`): the UTF-8 encoding of its text. -/
def bytes (s : String) : List Nat :=
  (s.data.map utf8EncodeChar).flatten

/-- The Go string with the given bytes, for bytes below 128 (ASCII text). -/
def fromASCII (b : List Nat) : String :=
  String.mk (b.map Char.ofNat)

/-- The result of `strings.Cut(s, sep)` for a one-byte separator: the text before the first
separator and the text after it; without a separator `s` and the empty string. -/
def Cut (sep : Nat) : List Nat → List Nat × List Nat
  | [] => ([], [])
  | b :: s => if b = sep then ([], s) else ((Cut sep s).1.cons b, (Cut sep s).2)

/-- The pieces of `s` between the occurrences of a one-byte separator: what repeated
`strings.Cut` yields. -/
def pieces (sep : Nat) : List Nat → List (List Nat)
  | [] => [[]]
  | b :: s =>
    if b = sep then [] :: pieces sep s
    else
      match pieces sep s with
      | [] => [[b]]
      | p :: ps => (b :: p) :: ps

end strings

namespace rand

/-- The call `rand.Read(b)` of crypto/rand on a slice of `n` bytes: it fills the slice;
`source i` stands for the i-th byte the generator of the system delivers. -/
def Read (source : Nat → Nat) (n : Nat) : List Nat :=
  (List.range n).map (fun i => source i % 256)

end rand

namespace fmt

/-- The digits `%x` writes. -/
def ldigits : List Char := "0123456789abcdef".data

/-- The digit of a value below 16. -/
def hexDigit (n : Nat) : Char := ldigits.getD n '0'

/-- The text `fmt.Sprintf("%x", b)` of a byte slice: two lowercase digits per byte. -/
def hex (b : List Nat) : String :=
  String.mk (b.map (fun x => [hexDigit (x / 16), hexDigit (x % 16)])).flatten

end fmt

/-! ## net/url: query strings, on the bytes of the strings -/

namespace url

/-- The byte `"0123456789ABCDEF"[n]` for `n` below 16. -/
def upperhex (n : Nat) : Nat := if n < 10 then 48 + n else 55 + n

/-- The test `ishex`: one of 0-9, a-f, A-F. -/
def ishex (c : Nat) : Bool :=
  (48 ≤ c ∧ c ≤ 57) ∨ (97 ≤ c ∧ c ≤ 102) ∨ (65 ≤ c ∧ c ≤ 70)

/-- The value `unhex` of a hexadecimal digit. -/
def unhex (c : Nat) : Nat :=
  if 48 ≤ c ∧ c ≤ 57 then c - 48
  else if 97 ≤ c ∧ c ≤ 102 then c - 97 + 10
  else if 65 ≤ c ∧ c ≤ 70 then c - 65 + 10
  else 0

/-- The test `shouldEscape(c, encodeQueryComponent)`: letters, digits and `-` `_` `.` `~`
stay, every other byte is escaped. -/
def shouldEscape (c : Nat) : Bool :=
  if (97 ≤ c ∧ c ≤ 122) ∨ (65 ≤ c ∧ c ≤ 90) ∨ (48 ≤ c ∧ c ≤ 57) then false
  else if c = 45 ∨ c = 95 ∨ c = 46 ∨ c = 126 then false
  else true

/-- The escaping `QueryEscape`: a space (32) becomes `+` (43), a byte to escape becomes `%`
(37) and its two uppercase hexadecimal digits. -/
def QueryEscape : List Nat → List Nat
  | [] => []
  | c :: s =>
    if c = 32 then 43 :: QueryEscape s
    else if shouldEscape c then 37 :: upperhex (c / 16) :: upperhex (c % 16) :: QueryEscape s
    else c :: QueryEscape s

/-- The unescaping `QueryUnescape`: `%XX` becomes the byte XX, `+` a space; a `%` that is not
followed by two hexadecimal digits is an error. -/
def QueryUnescape : List Nat → Except Error (List Nat)
  | [] => .ok []
  | c :: s =>
    if c = 37 then
      match s with
      | h :: l :: rest =>
        if ishex h ∧ ishex l then
          match QueryUnescape rest with
          | .ok t => .ok ((unhex h * 16 + unhex l) :: t)
          | .error e => .error e
        else .error (.msg "invalid URL escape")
      | _ => .error (.msg "invalid URL escape")
    else
      match QueryUnescape s with
      | .ok t => .ok ((if c = 43 then 32 else c) :: t)
      | .error e => .error e

/-- The map `url.Values`, as a list with one entry per key. -/
abbrev Values := List (List Nat × List (List Nat))

namespace Values

/-- The test `v.Has(key)`. -/
def Has (v : Values) (key : List Nat) : Bool :=
  (v.lookup key).isSome

/-- The setter `v.Set(key, value)`: the key gets the one value. -/
def Set (v : Values) (key value : List Nat) : Values :=
  (key, [value]) :: v.filter (fun p => p.1 ≠ key)

/-- The adder `v.Add(key, value)`: the value is appended to those of the key. -/
def Add : Values → List Nat → List Nat → Values
  | [], key, value => [(key, [value])]
  | (k, xs) :: v, key, value =>
    if k = key then (k, xs ++ [value]) :: v else (k, xs) :: Add v key value

end Values

/-- The order of Go strings: bytewise lexicographic. -/
def less : List Nat → List Nat → Bool
  | [], [] => false
  | [], _ :: _ => true
  | _ :: _, [] => false
  | a :: s, b :: t => if a < b then true else if b < a then false else less s t

/-- One key put in its place in a sorted list of keys. -/
def insertKey (k : List Nat) : List (List Nat) → List (List Nat)
  | [] => [k]
  | x :: xs => if less x k then x :: insertKey k xs else k :: x :: xs

/-- The keys as `slices.Sort` orders them. -/
def sortKeys : List (List Nat) → List (List Nat)
  | [] => []
  | k :: ks => insertKey k (sortKeys ks)

/-- The pairs `v.Encode()` writes, in its order: keys sorted, the values of a key in their
order. -/
def Values.pairs (v : Values) : List (List Nat × List Nat) :=
  ((sortKeys (v.map Prod.fst)).map
    (fun k => ((v.lookup k).getD []).map (fun x => (k, x)))).flatten

/-- The text written for a list of pairs: `key=value`, escaped, with `&` (38) between the
pairs and `=` (61) inside. -/
def encodePairs : List (List Nat × List Nat) → List Nat
  | [] => []
  | [p] => QueryEscape p.1 ++ 61 :: QueryEscape p.2
  | p :: q :: rest => QueryEscape p.1 ++ 61 :: QueryEscape p.2 ++ 38 :: encodePairs (q :: rest)

/-- The encoding `v.Encode()` ("bar=baz&foo=quux"), sorted by key. -/
def Values.Encode (v : Values) : List Nat :=
  encodePairs v.pairs

/-- One turn of the loop of `parseQuery`, on the piece before the next `&`: a piece with a
semicolon (59) sets the error, an empty piece is skipped, otherwise the piece is cut at the
first `=`, both sides are unescaped and the pair is added; the first unescaping error is
kept. -/
def parsePiece (acc : Values × Option Error) (piece : List Nat) : Values × Option Error :=
  if 59 ∈ piece then (acc.1, some (.msg "invalid semicolon separator in query"))
  else if piece = [] then acc
  else
    match QueryUnescape (strings.Cut 61 piece).1 with
    | .error e => (acc.1, if acc.2 = none then some e else acc.2)
    | .ok key =>
      match QueryUnescape (strings.Cut 61 piece).2 with
      | .error e => (acc.1, if acc.2 = none then some e else acc.2)
      | .ok value => (acc.1.Add key value, acc.2)

/-- The parser `url.ParseQuery`: the values found, and the first error met. -/
def ParseQuery (query : List Nat) : Values × Option Error :=
  (strings.pieces 38 query).foldl parsePiece ([], none)

/-- The field `RawQuery` of `url.Parse(u)`: the text after the first `?` (63) of the part
before the first `#` (35). -/
def RawQuery (u : List Nat) : List Nat :=
  (strings.Cut 63 (strings.Cut 35 u).1).2

/-- The query parameters of a URL: `ParseQuery` of its `RawQuery`. -/
def Query (u : String) : Values × Option Error :=
  ParseQuery (RawQuery (strings.bytes u))

end url

/-! ## golang.org/x/oauth2: the authorization URL -/

namespace google

/-- The field `AuthURL` of `google.Endpoint`. -/
def EndpointAuthURL : String := "https://accounts.google.com/o/oauth2/auth"

end google

namespace oauth2

/-- An option of `AuthCodeURL`, made by `SetAuthURLParam(key, value)`. -/
structure AuthCodeOption where
  key : String
  value : String
  deriving Repr, DecidableEq

/-- The option `oauth2.AccessTypeOffline`. -/
def AccessTypeOffline : AuthCodeOption := { key := "access_type", value := "offline" }

/-- The parameters `AuthCodeURL` puts in the query: response_type and client_id always,
redirect_uri, scope and state when not empty, then those of the options. -/
def authCodeValues (c : auth.OAuthConfig) (state : String) (opts : List AuthCodeOption) :
    url.Values :=
  let v : url.Values :=
    [(strings.bytes "response_type", [strings.bytes "code"]),
     (strings.bytes "client_id", [strings.bytes c.ClientID])]
  let v := if c.RedirectURL ≠ "" then
    v.Set (strings.bytes "redirect_uri") (strings.bytes c.RedirectURL) else v
  let v := if c.Scopes.length > 0 then
    v.Set (strings.bytes "scope") (strings.bytes (" ".intercalate c.Scopes)) else v
  let v := if state ≠ "" then v.Set (strings.bytes "state") (strings.bytes state) else v
  opts.foldl (fun v opt => v.Set (strings.bytes opt.key) (strings.bytes opt.value)) v

/-- The URL `c.AuthCodeURL(state, opts...)` for the endpoint `authURL`: the endpoint, `?`
(or `&` when the endpoint has a query already) and the encoded parameters. -/
def AuthCodeURL (authURL : String) (c : auth.OAuthConfig) (state : String)
    (opts : List AuthCodeOption) : String :=
  authURL ++ (if '?' ∈ authURL.data then "&" else "?") ++
    strings.fromASCII (authCodeValues c state opts).Encode

end oauth2

namespace auth

/-- The state of an authorization request: `Service.generateRandomState`, 32 bytes of
crypto/rand written in hexadecimal. -/
def Service.generateRandomState (_s : Service) (source : Nat → Nat) : String :=
  fmt.hex (rand.Read source 32)

/-- The Google OAuth authorization URL: `Service.GetGoogleAuthURL`. -/
def Service.GetGoogleAuthURL (s : Service) (source : Nat → Nat) : String :=
  oauth2.AuthCodeURL google.EndpointAuthURL s.googleConfig (s.generateRandomState source)
    [oauth2.AccessTypeOffline]

end auth

/-! ## Sample data -/

namespace Sample

/-- A wire whose serialiser writes the one signing string `text` and whose parser knows the
token strings of `table`. The keyed hash is kept symbolic: it lists the key and the text. -/
def wire (text : String) (table : List (String × jwt.Segments)) : jwt.Wire :=
  { hmac := fun _ key msg => "mac(" ++ key ++ "," ++ msg ++ ")",
    signingString := fun _ _ => text,
    join := fun msg sig => msg ++ "." ++ sig,
    decode := fun t => table.lookup t }

/-- A service with a one-hour token lifetime. -/
def service : auth.Service :=
  auth.NewService "k" (3600 * time.Second) "webui" "client" "secret" "http://localhost/cb"

/-- A user with a small id. -/
def alice : auth.User :=
  { ID := 7, GoogleID := "g-7", Email := "alice@example.com", Name := "Alice", Picture := "",
    CreatedAt := 0, UpdatedAt := 0 }

/-- Another user. -/
def bob : auth.User :=
  { ID := 8, GoogleID := "g-8", Email := "bob@example.com", Name := "Bob", Picture := "",
    CreatedAt := 0, UpdatedAt := 0 }

/-- A user whose id needs 54 bits. -/
def bigUser : auth.User :=
  { ID := 9007199254740993, GoogleID := "g-big", Email := "big@example.com", Name := "Big",
    Picture := "", CreatedAt := 0, UpdatedAt := 0 }

/-- A clock reading: 2025-11-04 08:53:20 UTC and half a second. -/
def t0 : Int := 1762246400 * time.Second + 500000000

/-- What the parser reads off the token with signing string `text` that `service` issues for
`user` at the clock reading `now`. -/
def issuedParts (text : String) (now : Int) (user : auth.User) : jwt.Segments :=
  { header := json.decodedMap auth.hs256Header,
    claims := json.decodedMap (service.issuedClaims now now user),
    signingString := text,
    signature := some ("mac(k," ++ text ++ ")") }

/-- The wire that knows the token issued for `user` at `now`. -/
def wireFor (now : Int) (user : auth.User) : jwt.Wire :=
  wire "h.c" [("h.c.mac(k,h.c)", issuedParts "h.c" now user)]

/-- The wire that knows a token of `alice` and a token of `bob`, both issued at `t0`. -/
def wireAB : jwt.Wire :=
  wire "h.a" [("h.a.mac(k,h.a)", issuedParts "h.a" t0 alice),
              ("h.b.mac(k,h.b)", issuedParts "h.b" t0 bob)]

/-- The wire that knows an unsigned token: header alg `none`, the claims of a token of `alice`,
and an empty signature. -/
def wireNone : jwt.Wire :=
  wire "n.c" [("n.c.",
    { header := [("alg", .string "none"), ("typ", .string "JWT")],
      claims := json.decodedMap (service.issuedClaims t0 t0 alice),
      signingString := "n.c",
      signature := some "" })]

/-- The wire that knows a token signed with the key of `service`, without expiry, whose
user_id claim is the string "7" instead of a number. -/
def wireStringID : jwt.Wire :=
  wire "h.s" [("h.s.mac(k,h.s)",
    { header := json.decodedMap auth.hs256Header,
      claims := [("user_id", .string "7"), ("email", .string "alice@example.com"),
                 ("name", .string "Alice")],
      signingString := "h.s",
      signature := some "mac(k,h.s)" })]

/-- A request with the token of `alice` in the cookie and the token of `bob` in the
Authorization header. -/
def requestAB : gin.Context :=
  { cookies := [("auth_token", "h.a.mac(k,h.a)")],
    headers := [("Authorization", "Bearer h.b.mac(k,h.b)")],
    Keys := [], index := 0, written := [] }

/-- A request without cookie and without Authorization header. -/
def requestBare : gin.Context :=
  { cookies := [], headers := [], Keys := [], index := 0, written := [] }

/-- A database with the rows of `alice` and `bob`. -/
def db : sql.DB :=
  { users := [alice, bob], seq := 8 }

/-- The profile of a person not yet in `db`. -/
def carolInfo : auth.GoogleUserInfo :=
  { ID := "g-9", Email := "carol@example.com", Name := "Carol", Picture := "c.png" }

/-- A later profile of `bob`: same Google id, new name and picture. -/
def bobInfo : auth.GoogleUserInfo :=
  { ID := "g-8", Email := "bob@example.com", Name := "Robert", Picture := "r.png" }

/-- The row of `bob` after the login with `bobInfo` at database clock reading 100. -/
def bobRenamed : auth.User :=
  { ID := 8, GoogleID := "g-8", Email := "bob@example.com", Name := "Robert",
    Picture := "r.png", CreatedAt := 0, UpdatedAt := 100 }

/-- The database `db` after the login with `bobInfo` at database clock reading 100. -/
def dbRenamed : sql.DB :=
  { users := [alice, bobRenamed], seq := 8 }

end Sample

/-! ## Sample data, continued -/

namespace Sample

/-- A request with the token of `alice` in the cookie and no Authorization header. -/
def requestCookieOnly : gin.Context :=
  { cookies := [("auth_token", "h.a.mac(k,h.a)")], headers := [], Keys := [], index := 0,
    written := [] }

/-- The row of carol after her first login at database clock reading 100. -/
def carolRow (updatedAt : Int) : auth.User :=
  { ID := 9, GoogleID := "g-9", Email := "carol@example.com", Name := "Carol",
    Picture := "c.png", CreatedAt := 100, UpdatedAt := updatedAt }

/-- The database `db` with the row of carol. -/
def dbCarol (updatedAt : Int) : sql.DB :=
  { users := [alice, bob, carolRow updatedAt], seq := 9 }

/-- A service whose token lifetime is one second and a half. -/
def serviceShort : auth.Service :=
  auth.NewService "k" 1500000000 "webui" "client" "secret" "http://localhost/cb"

end Sample

namespace Sample

/-- A provider that exchanges the code "code" for the access token "at" and answers the
profile request made with "at" by 200 and the text "body". -/
def provider : oauth2.Provider :=
  { exchange := fun code =>
      if code = "code" then .ok "at" else .error (.msg "oauth2: cannot fetch token"),
    get := fun accessToken =>
      if accessToken = "at" then .ok { StatusCode := 200, Body := .ok "body" }
      else .error (.msg "Get: connection refused") }

/-- A reading of JSON texts that knows the text "body": the profile of carol. -/
def readJSON (text : String) : Option json.Value :=
  if text = "body" then
    some (.object [("id", .string "g-9"), ("email", .string "carol@example.com"),
                   ("verified_email", .bool true), ("name", .string "Carol"),
                   ("picture", .string "c.png")])
  else none

/-- The handler over `service`, configured with the same lifetime of one hour. -/
def handler : handlers.AuthHandler :=
  { JWTExpiresIn := 3600 * time.Second, authSvc := service }

/-- The clock readings of a callback at `t0`. -/
def clock : handlers.Clock :=
  { dbNow := 100, now1 := 101, now2 := 102, now3 := t0, now4 := t0 }

/-- The user `CreateOrUpdateUser` returns for carol with the id `id`. -/
def carolUser (id : Int) : auth.User :=
  { ID := id, GoogleID := "g-9", Email := "carol@example.com", Name := "Carol",
    Picture := "c.png", CreatedAt := 101, UpdatedAt := 102 }

/-- An empty table whose counter stands at 2^53. -/
def dbBig : sql.DB :=
  { users := [], seq := 9007199254740992 }

end Sample

namespace Sample

/-- A keyed hash of 32 bytes, kept symbolic: key and text, padded with dots. -/
def mac32 (key msg : String) : String :=
  String.mk ((key ++ ":" ++ msg ++ "................................").data.take 32)

/-- A wire with the compact serialisation: token strings are split at the dots, the signature
segment is base64url, and the segments "h" and "c" are read as the HS256 header and as the
claims of the token issued for `alice` at `t0`. -/
def compactWire : jwt.Wire :=
  { hmac := fun _ key msg => mac32 key msg,
    signingString := fun _ _ => "h.c",
    join := jwt.compactJoin,
    decode := jwt.compactDecode (fun seg =>
      if seg = "h" then some (json.decodedMap auth.hs256Header)
      else if seg = "c" then some (json.decodedMap (service.issuedClaims t0 t0 alice))
      else none) }

end Sample

namespace Sample

/-- The wire that knows, besides the token `service` issues for `alice` at `t0`, two altered
strings: one read with the signing text "h.x" (claims of `bob`) and the signature of the
issued token, one read with the signing text of the issued token and another signature. -/
def wireTampered : jwt.Wire :=
  wire "h.c" [("h.c.mac(k,h.c)", issuedParts "h.c" t0 alice),
              ("h.x.mac(k,h.c)",
                { header := json.decodedMap auth.hs256Header,
                  claims := json.decodedMap (service.issuedClaims t0 t0 bob),
                  signingString := "h.x",
                  signature := some "mac(k,h.c)" }),
              ("h.c.mac(k,h.d)",
                { header := json.decodedMap auth.hs256Header,
                  claims := json.decodedMap (service.issuedClaims t0 t0 alice),
                  signingString := "h.c",
                  signature := some "mac(k,h.d)" })]

end Sample

namespace Sample

/-- A tick of a call, without storage failure. -/
def tick (call : Nat) (dbNow : Int) : auth.Tick :=
  { call := call, faults := sql.noFaults, dbNow := dbNow, now1 := dbNow + 1,
    now2 := dbNow + 2 }

/-- Two calls whose lookups both run before either insert. -/
def schedule : List auth.Tick :=
  [tick 0 100, tick 1 110, tick 0 120, tick 1 130]

end Sample

namespace Sample

/-- A service made from a configuration in which GOOGLE_REDIRECT_URL is not set. -/
def serviceNoRedirect : auth.Service :=
  auth.NewService "k" (3600 * time.Second) "webui" "client" "secret" ""

/-- A generator that delivers the bytes 3, 10, 17, ... -/
def source : Nat → Nat := fun i => 7 * i + 3

/-- A service whose token lifetime is 16777216.999999999 seconds. -/
def serviceLong : auth.Service :=
  auth.NewService "k" 16777216999999999 "webui" "client" "secret" "http://localhost/cb"

/-- The handler of a configuration with that lifetime. -/
def handlerLong : handlers.AuthHandler :=
  { JWTExpiresIn := 16777216999999999, authSvc := serviceLong }

/-- A provider that exchanges the code "code" for the access token "at" and refuses the
profile request with the status 401 and the text "denied"; the code "code2" gets the access
token "at2", whose profile request is answered by 200 and the text "twice". -/
def providerDenied : oauth2.Provider :=
  { exchange := fun code =>
      if code = "code" then .ok "at"
      else if code = "code2" then .ok "at2"
      else .error (.msg "oauth2: cannot fetch token"),
    get := fun accessToken =>
      if accessToken = "at" then .ok { StatusCode := 401, Body := .ok "denied" }
      else if accessToken = "at2" then .ok { StatusCode := 200, Body := .ok "twice" }
      else .error (.msg "Get: connection refused") }

/-- A reading of JSON texts that knows the text "denied", the error object of the provider,
and the text "twice", the object with the members id "a" and ID "b". -/
def readJSONDenied (text : String) : Option json.Value :=
  if text = "denied" then
    some (.object [("error", .object [("code", .number (Float64.ofInt 401)),
                                     ("message", .string "Invalid Credentials"),
                                     ("status", .string "UNAUTHENTICATED")])])
  else if text = "twice" then
    some (.object [("id", .string "a"), ("ID", .string "b")])
  else none

end Sample

/-! ## Lemmas: float64 -/

namespace Float64

theorem excessBits_of_lt (fuel a : Nat) (h : a < 2 ^ 53) : excessBits fuel a = 0 := by
  cases fuel with
  | zero => rfl
  | succ k => simp only [excessBits, if_pos h]

theorem ofInt_of_lt (n : Int) (h : n.natAbs < 2 ^ 53) : ofInt n = { mant := n, exp := 0 } := by
  have he : excessBits n.natAbs n.natAbs = 0 := excessBits_of_lt _ _ h
  have hq : (if n < 0 then -((n.natAbs : Nat) : Int) else ((n.natAbs : Nat) : Int)) = n := by
    split <;> omega
  simp only [ofInt, he, pow_zero, Nat.div_one, Nat.mod_one, Nat.lt_irrefl, ne_eq,
    not_true_eq_false, false_and, or_self, if_false, Nat.cast_zero]
  have h12 : ¬ ((1 : Nat) / 2 < 0 ∨ False) := by simp
  rw [if_neg h12, hq]

theorem toInt_ofInt (n : Int) (h : n.natAbs ≤ 2 ^ 53) : (ofInt n).toInt = n := by
  rcases Nat.lt_or_ge n.natAbs (2 ^ 53) with hlt | hge
  · rw [ofInt_of_lt n hlt]
    have ht : ({ mant := n, exp := 0 } : Float64).trunc = n := by simp [trunc]
    have hn : (2 : Nat) ^ 53 = 9007199254740992 := by norm_num
    unfold toInt
    rw [ht, if_pos (by omega)]
  · have h2 : n = 2 ^ 53 ∨ n = -(2 ^ 53) := by omega
    rcases h2 with rfl | rfl <;> decide

theorem floor_ofInt (n : Int) (h : n.natAbs ≤ 2 ^ 53) : (ofInt n).floor = n := by
  rcases Nat.lt_or_ge n.natAbs (2 ^ 53) with hlt | hge
  · rw [ofInt_of_lt n hlt]; simp [floor]
  · have h2 : n = 2 ^ 53 ∨ n = -(2 ^ 53) := by omega
    rcases h2 with rfl | rfl <;> decide

theorem isZero_ofInt (n : Int) (h : n.natAbs ≤ 2 ^ 53) : (ofInt n).isZero = decide (n = 0) := by
  rcases Nat.lt_or_ge n.natAbs (2 ^ 53) with hlt | hge
  · rw [ofInt_of_lt n hlt]; by_cases h0 : n = 0 <;> simp [isZero, h0]
  · have h2 : n = 2 ^ 53 ∨ n = -(2 ^ 53) := by omega
    rcases h2 with rfl | rfl <;> decide

end Float64

/-! ## Lemmas: tokens -/

namespace auth

theorem GenerateJWT_eq (w : jwt.Wire) (s : Service) (now1 now2 : Int) (user : User) :
    s.GenerateJWT w now1 now2 user =
      .ok (w.join (w.signingString hs256Header (s.issuedClaims now1 now2 user))
        (w.hmac .SHA256 s.jwtSecret
          (w.signingString hs256Header (s.issuedClaims now1 now2 user)))) := by
  rfl

theorem lookup_alg_hs256 :
    List.lookup "alg" (json.decodedMap hs256Header) = some (.string "HS256") := by
  rfl

theorem GetSigningMethod_hs256 : jwt.GetSigningMethod "HS256" = some (.HMAC .SHA256) := by
  rfl

theorem lookup_issued_user_id (s : Service) (now1 now2 : Int) (user : User) :
    List.lookup "user_id" (json.decodedMap (s.issuedClaims now1 now2 user)) =
      some (.number (Float64.ofInt user.ID)) := by
  rfl

theorem lookup_issued_email (s : Service) (now1 now2 : Int) (user : User) :
    List.lookup "email" (json.decodedMap (s.issuedClaims now1 now2 user)) =
      some (.string user.Email) := by
  rfl

theorem lookup_issued_name (s : Service) (now1 now2 : Int) (user : User) :
    List.lookup "name" (json.decodedMap (s.issuedClaims now1 now2 user)) =
      some (.string user.Name) := by
  rfl

theorem lookup_issued_exp (s : Service) (now1 now2 : Int) (user : User) :
    List.lookup "exp" (json.decodedMap (s.issuedClaims now1 now2 user)) =
      some (.number (Float64.ofInt (unixSeconds (now1 + s.jwtExpiresIn)))) := by
  rfl

theorem lookup_issued_nbf (s : Service) (now1 now2 : Int) (user : User) :
    List.lookup "nbf" (json.decodedMap (s.issuedClaims now1 now2 user)) = none := by
  rfl

/-- The validator on the claims of an issued token. -/
theorem Validate_issued (s : Service) (now1 now2 now : Int) (user : User)
    (hexp : (unixSeconds (now1 + s.jwtExpiresIn)).natAbs ≤ 2 ^ 53) :
    jwt.Validate (json.decodedMap (s.issuedClaims now1 now2 user)) now =
      if unixSeconds (now1 + s.jwtExpiresIn) = 0 ∨
          now < unixSeconds (now1 + s.jwtExpiresIn) * time.Second then .ok ()
      else .error .tokenExpired := by
  simp only [jwt.Validate, jwt.verifyExpiresAt, jwt.verifyNotBefore, jwt.parseNumericDate,
    lookup_issued_exp, lookup_issued_nbf, Float64.isZero_ofInt _ hexp,
    Float64.floor_ofInt _ hexp]
  by_cases h0 : unixSeconds (now1 + s.jwtExpiresIn) = 0
  · simp [h0]
  · by_cases h1 : now < unixSeconds (now1 + s.jwtExpiresIn) * time.Second
    · simp [h0, h1]
    · simp [h0, h1]

/-- Validation of a token the service issued, as a function of the clock: the user's identity
with the id passed through float64 while the token has not expired, `tokenExpired` after. -/
theorem ValidateJWT_issued (w : jwt.Wire) (s : Service) (now1 now2 now : Int) (user : User)
    (hexp : (unixSeconds (now1 + s.jwtExpiresIn)).natAbs ≤ 2 ^ 53)
    (hw : w.ReadsBack hs256Header (s.issuedClaims now1 now2 user)
      (w.hmac .SHA256 s.jwtSecret
        (w.signingString hs256Header (s.issuedClaims now1 now2 user)))) :
    s.ValidateJWT w now
        (w.join (w.signingString hs256Header (s.issuedClaims now1 now2 user))
          (w.hmac .SHA256 s.jwtSecret
            (w.signingString hs256Header (s.issuedClaims now1 now2 user)))) =
      if unixSeconds (now1 + s.jwtExpiresIn) = 0 ∨
          now < unixSeconds (now1 + s.jwtExpiresIn) * time.Second then
        .ok { UserID := (Float64.ofInt user.ID).toInt, Email := user.Email, Name := user.Name }
      else .error .tokenExpired := by
  unfold jwt.Wire.ReadsBack at hw
  simp only [Service.ValidateJWT, jwt.Parse, jwt.ParseUnverified, hw, lookup_alg_hs256,
    GetSigningMethod_hs256, Service.keyFunc, jwt.SigningMethod.isHMAC,
    jwt.SigningMethod.Verify, Validate_issued s now1 now2 now user hexp]
  by_cases h : unixSeconds (now1 + s.jwtExpiresIn) = 0 ∨
      now < unixSeconds (now1 + s.jwtExpiresIn) * time.Second
  · simp [h, lookup_issued_user_id, lookup_issued_email, lookup_issued_name]
  · simp [h]

end auth

namespace jwt

/-- A token that `Parse` returns is marked valid and carries the claims the parser decoded. -/
theorem Parse_ok (w : Wire) (now : Int) (tokenString : String)
    (keyFunc : Token → Except Error String) (token : Token)
    (h : Parse w now tokenString keyFunc = .ok token) :
    token.Valid = true ∧ ∃ parts, w.decode tokenString = some parts ∧
      token.Claims = parts.claims := by
  simp only [Parse, ParseUnverified] at h
  cases hd : w.decode tokenString with
  | none => simp [hd] at h
  | some parts =>
    refine ⟨?_, parts, rfl, ?_⟩
    all_goals
      simp only [hd] at h
      split at h
      · cases h
      · rename_i tok parts1 heq
        split at heq
        · split at heq
          · cases heq
          · cases heq
            split at h
            · cases h
            · split at h
              · cases h
              · split at h
                · cases h
                · split at h
                  · cases h
                  · cases h; rfl
        · cases heq

/-- A token whose header names a method outside the HMAC family does not get past the key
function. -/
theorem Parse_non_HMAC (w : Wire) (now : Int) (tokenString : String)
    (keyFunc : Token → Except Error String) (parts : Segments) (alg : String)
    (hkey : ∀ token, token.Method.isHMAC = false → ∃ e, keyFunc token = .error e)
    (hdec : w.decode tokenString = some parts)
    (halg : parts.header.lookup "alg" = some (.string alg))
    (hfam : ∀ h, GetSigningMethod alg ≠ some (.HMAC h)) :
    Parse w now tokenString keyFunc = .error .tokenUnverifiable ∨
      Parse w now tokenString keyFunc = .error .tokenMalformed := by
  cases hm : GetSigningMethod alg with
  | none =>
    left
    simp only [Parse, ParseUnverified, hdec, halg, hm]
  | some m =>
    cases hs : parts.signature with
    | none =>
      right
      simp only [Parse, ParseUnverified, hdec, halg, hm, hs]
    | some sig =>
      have hnot : m.isHMAC = false := by
        cases m with
        | HMAC h => exact absurd hm (hfam h)
        | _ => rfl
      obtain ⟨e, he⟩ := hkey (⟨parts.header, parts.claims, m, "", false⟩ : Token) hnot
      left
      simp only [Parse, ParseUnverified, hdec, halg, hm, hs, he]

end jwt

/-! ## Lemmas: request handling -/

namespace auth

theorem getTokenFromRequest_cookie (s : Service) (c : gin.Context) (token : String)
    (hc : c.Cookie "auth_token" = .ok token) (hne : token ≠ "") :
    s.getTokenFromRequest c = token := by
  simp only [Service.getTokenFromRequest, hc]
  rw [if_pos hne]

theorem Middleware_of_valid (w : jwt.Wire) (s : Service) (now : Int) (c : gin.Context)
    (claims : JWTClaims) (hne : s.getTokenFromRequest c ≠ "")
    (hv : s.ValidateJWT w now (s.getTokenFromRequest c) = .ok claims)
    (next : gin.Context → gin.Context) :
    s.Middleware w now next c = next (withIdentity c claims) := by
  simp only [Service.Middleware, if_neg hne, hv, withIdentity]

theorem OptionalMiddleware_of_valid (w : jwt.Wire) (s : Service) (now : Int) (c : gin.Context)
    (claims : JWTClaims) (hne : s.getTokenFromRequest c ≠ "")
    (hv : s.ValidateJWT w now (s.getTokenFromRequest c) = .ok claims)
    (next : gin.Context → gin.Context) :
    s.OptionalMiddleware w now next c = next (withIdentity c claims) := by
  simp only [Service.OptionalMiddleware, if_neg hne, hv, withIdentity]

theorem Middleware_no_token (w : jwt.Wire) (s : Service) (now : Int) (c : gin.Context)
    (h : s.getTokenFromRequest c = "") (next : gin.Context → gin.Context) :
    s.Middleware w now next c =
      (c.JSON http.StatusUnauthorized [("error", "Authentication required")]).Abort := by
  simp only [Service.Middleware, if_pos h]

theorem Middleware_invalid (w : jwt.Wire) (s : Service) (now : Int) (c : gin.Context)
    (e : Error) (hne : s.getTokenFromRequest c ≠ "")
    (hv : s.ValidateJWT w now (s.getTokenFromRequest c) = .error e)
    (next : gin.Context → gin.Context) :
    s.Middleware w now next c =
      (c.JSON http.StatusUnauthorized [("error", "Invalid token")]).Abort := by
  simp only [Service.Middleware, if_neg hne, hv]

theorem OptionalMiddleware_no_token (w : jwt.Wire) (s : Service) (now : Int) (c : gin.Context)
    (h : s.getTokenFromRequest c = "") (next : gin.Context → gin.Context) :
    s.OptionalMiddleware w now next c = next (c.Set "authenticated" (.bool false)) := by
  simp only [Service.OptionalMiddleware, if_pos h]

theorem OptionalMiddleware_invalid (w : jwt.Wire) (s : Service) (now : Int) (c : gin.Context)
    (e : Error) (hne : s.getTokenFromRequest c ≠ "")
    (hv : s.ValidateJWT w now (s.getTokenFromRequest c) = .error e)
    (next : gin.Context → gin.Context) :
    s.OptionalMiddleware w now next c = next (c.Set "authenticated" (.bool false)) := by
  simp only [Service.OptionalMiddleware, if_neg hne, hv]

/-- A context that gained a written response differs from every context that did not. -/
theorem written_append_ne (c d : gin.Context) (code : Nat) (body : List (String × String))
    (h : d.written = c.written) : (c.JSON code body).Abort ≠ d := by
  intro heq
  have hw : ((c.JSON code body).Abort).written = d.written := by rw [heq]
  rw [h] at hw
  have hl := congrArg List.length hw
  simp [gin.Context.JSON, gin.Context.Abort] at hl

theorem GetUserFromContext_withIdentity (c : gin.Context) (claims : JWTClaims) :
    GetUserFromContext (withIdentity c claims) =
      (claims.UserID, claims.Email, claims.Name, true) := by
  rfl

theorem Get_authenticated_withIdentity (c : gin.Context) (claims : JWTClaims) :
    (withIdentity c claims).Get "authenticated" = some (.bool true) := by
  rfl

end auth

/-! ## Lemmas: users -/

namespace sql

theorem foldl_max_ge_init (l : List auth.User) (init : Int) :
    init ≤ l.foldl (fun m r => max m r.ID) init := by
  induction l generalizing init with
  | nil => exact le_refl _
  | cons a t ih => exact le_trans (le_max_left _ _) (ih (max init a.ID))

theorem foldl_max_ge_mem (l : List auth.User) (init : Int) (r : auth.User) (hr : r ∈ l) :
    r.ID ≤ l.foldl (fun m r => max m r.ID) init := by
  induction l generalizing init with
  | nil => cases hr
  | cons a t ih =>
    rcases List.mem_cons.mp hr with rfl | hmem
    · exact le_trans (le_max_right _ _) (foldl_max_ge_init t _)
    · exact ih _ hmem

/-- The id of the next row is above every id in use. -/
theorem lt_nextID (db : DB) (r : auth.User) (hr : r ∈ db.users) : r.ID < db.nextID := by
  have := foldl_max_ge_mem db.users db.seq r hr
  simp only [DB.nextID]
  omega

end sql

/-! ## Claims -/

/-- C1 (as amended). Round trip: for every service (any secret, lifetime and issuer) and every
user whose ID is at most 2^53 in absolute value, with the expiry second within 2^53 of the
epoch and a serialisation that reads back what it wrote, `GenerateJWT` returns a token string
and `ValidateJWT` on it, at any time before the expiry second of the token, returns no error
and claims with UserID = user.ID, Email = user.Email, Name = user.Name. -/
theorem auth.round_trip (w : jwt.Wire) (s : auth.Service) (now1 now2 now : Int)
    (user : auth.User)
    (hid : user.ID.natAbs ≤ 2 ^ 53)
    (hexp : (auth.unixSeconds (now1 + s.jwtExpiresIn)).natAbs ≤ 2 ^ 53)
    (hw : w.ReadsBack auth.hs256Header (s.issuedClaims now1 now2 user)
      (w.hmac .SHA256 s.jwtSecret
        (w.signingString auth.hs256Header (s.issuedClaims now1 now2 user))))
    (hnow : now < auth.unixSeconds (now1 + s.jwtExpiresIn) * time.Second) :
    ∃ tokenString, s.GenerateJWT w now1 now2 user = .ok tokenString ∧
      s.ValidateJWT w now tokenString =
        .ok { UserID := user.ID, Email := user.Email, Name := user.Name } := by
  refine ⟨_, auth.GenerateJWT_eq w s now1 now2 user, ?_⟩
  rw [auth.ValidateJWT_issued w s now1 now2 now user hexp hw, if_pos (Or.inr hnow),
    Float64.toInt_ofInt _ hid]

/-- Witness of C1: the sample service issues a token for the sample user, and validation one
second later returns the user's identity. -/
theorem auth.round_trip_witness :
    ∃ tokenString,
      Sample.service.GenerateJWT (Sample.wireFor Sample.t0 Sample.alice) Sample.t0 Sample.t0 Sample.alice = .ok tokenString ∧
      Sample.service.ValidateJWT (Sample.wireFor Sample.t0 Sample.alice) (Sample.t0 + time.Second) tokenString =
        .ok { UserID := 7, Email := "alice@example.com", Name := "Alice" } :=
  auth.round_trip (Sample.wireFor Sample.t0 Sample.alice)
    Sample.service Sample.t0 Sample.t0 (Sample.t0 + time.Second) Sample.alice
    (by decide) (by decide) (by rfl) (by decide)

/-- Counterexample to C1 as stated: for the user with ID 2^53 + 1 the token is issued and
validates before its expiry, but the claims carry UserID 2^53, not the user's ID. -/
theorem auth.round_trip_fails_above_2_pow_53 :
    Sample.bigUser.ID = 9007199254740993 ∧
    (Sample.wireFor Sample.t0 Sample.bigUser).ReadsBack auth.hs256Header
      (Sample.service.issuedClaims Sample.t0 Sample.t0 Sample.bigUser) "mac(k,h.c)" ∧
    Sample.t0 + time.Second <
      auth.unixSeconds (Sample.t0 + Sample.service.jwtExpiresIn) * time.Second ∧
    Sample.service.GenerateJWT (Sample.wireFor Sample.t0 Sample.bigUser) Sample.t0 Sample.t0 Sample.bigUser = .ok "h.c.mac(k,h.c)" ∧
    Sample.service.ValidateJWT (Sample.wireFor Sample.t0 Sample.bigUser) (Sample.t0 + time.Second) "h.c.mac(k,h.c)" =
      .ok { UserID := 9007199254740992, Email := "big@example.com", Name := "Big" } :=
  ⟨by decide, by rfl, by decide, by decide, by decide⟩

/-- C2. Extraction precedence: for every request whose auth_token cookie holds a non-empty
token A that validates to `claims`, and whose Authorization header is `Bearer B` with B
different from A, `getTokenFromRequest` returns A, and `Middleware` and `OptionalMiddleware`
both run the rest of the chain on the context with the identity of A attached, on which
`GetUserFromContext` returns that identity, whatever B is. -/
theorem auth.cookie_precedes_header (w : jwt.Wire) (s : auth.Service) (now : Int)
    (c : gin.Context) (A B : String) (claims : auth.JWTClaims)
    (hcookie : c.Cookie "auth_token" = .ok A) (hA : A ≠ "")
    (_hheader : c.GetHeader "Authorization" = "Bearer " ++ B) (_hAB : B ≠ A)
    (hvalid : s.ValidateJWT w now A = .ok claims) :
    s.getTokenFromRequest c = A ∧
    (∀ next, s.Middleware w now next c = next (auth.withIdentity c claims)) ∧
    (∀ next, s.OptionalMiddleware w now next c = next (auth.withIdentity c claims)) ∧
    auth.GetUserFromContext (auth.withIdentity c claims) =
      (claims.UserID, claims.Email, claims.Name, true) := by
  have ht := auth.getTokenFromRequest_cookie s c A hcookie hA
  refine ⟨ht, ?_, ?_, auth.GetUserFromContext_withIdentity c claims⟩
  · intro next
    exact auth.Middleware_of_valid w s now c claims (by rw [ht]; exact hA) (by rw [ht]; exact hvalid)
      next
  · intro next
    exact auth.OptionalMiddleware_of_valid w s now c claims (by rw [ht]; exact hA)
      (by rw [ht]; exact hvalid) next

/-- Witness of C2: a request with the token of alice in the cookie and the token of bob in the
Authorization header is authenticated as alice. -/
theorem auth.cookie_precedes_header_witness :
    Sample.service.getTokenFromRequest Sample.requestAB = "h.a.mac(k,h.a)" ∧
    (∀ next, Sample.service.Middleware Sample.wireAB (Sample.t0 + time.Second) next
      Sample.requestAB =
        next (auth.withIdentity Sample.requestAB
          { UserID := 7, Email := "alice@example.com", Name := "Alice" })) ∧
    (∀ next, Sample.service.OptionalMiddleware Sample.wireAB (Sample.t0 + time.Second) next
      Sample.requestAB =
        next (auth.withIdentity Sample.requestAB
          { UserID := 7, Email := "alice@example.com", Name := "Alice" })) ∧
    auth.GetUserFromContext (auth.withIdentity Sample.requestAB
        { UserID := 7, Email := "alice@example.com", Name := "Alice" }) =
      (7, "alice@example.com", "Alice", true) :=
  auth.cookie_precedes_header Sample.wireAB Sample.service (Sample.t0 + time.Second)
    Sample.requestAB "h.a.mac(k,h.a)" "h.b.mac(k,h.b)"
    { UserID := 7, Email := "alice@example.com", Name := "Alice" }
    (by decide) (by decide) (by decide) (by decide) (by decide)

/-- C3. Required mode gate: for every request context, `Middleware` answers with one 401
response and aborts, without running the rest of the chain and with the key/value bag
untouched, if and only if no token is extracted or `ValidateJWT` of the extracted token returns
an error; in every other case it runs the rest of the chain once, on the context with the
identity attached, having written nothing and not aborted. -/
theorem auth.Middleware_gate (w : jwt.Wire) (s : auth.Service) (now : Int) (c : gin.Context) :
    ((∃ body, ∀ next, s.Middleware w now next c = (c.JSON 401 body).Abort) ↔
      (s.getTokenFromRequest c = "" ∨
        ∃ e, s.ValidateJWT w now (s.getTokenFromRequest c) = .error e)) ∧
    ((s.getTokenFromRequest c = "" ∨
        ∃ e, s.ValidateJWT w now (s.getTokenFromRequest c) = .error e) ∨
      ∃ claims, s.ValidateJWT w now (s.getTokenFromRequest c) = .ok claims ∧
        ∀ next, s.Middleware w now next c = next (auth.withIdentity c claims)) ∧
    (∀ body, ((c.JSON 401 body).Abort).IsAborted = true ∧
      ((c.JSON 401 body).Abort).written = c.written ++ [{ code := 401, body := body }] ∧
      ((c.JSON 401 body).Abort).Keys = c.Keys) ∧
    (∀ claims, (auth.withIdentity c claims).written = c.written ∧
      (auth.withIdentity c claims).index = c.index) := by
  refine ⟨⟨?_, ?_⟩, ?_, ?_, ?_⟩
  · rintro ⟨body, hb⟩
    by_cases h0 : s.getTokenFromRequest c = ""
    · exact Or.inl h0
    · right
      cases hv : s.ValidateJWT w now (s.getTokenFromRequest c) with
      | error e => exact ⟨e, rfl⟩
      | ok claims =>
        exfalso
        have h1 := hb id
        rw [auth.Middleware_of_valid w s now c claims h0 hv id] at h1
        exact auth.written_append_ne c (auth.withIdentity c claims) 401 body rfl h1.symm
  · rintro (h0 | ⟨e, he⟩)
    · exact ⟨_, fun next => auth.Middleware_no_token w s now c h0 next⟩
    · by_cases h0 : s.getTokenFromRequest c = ""
      · exact ⟨_, fun next => auth.Middleware_no_token w s now c h0 next⟩
      · exact ⟨_, fun next => auth.Middleware_invalid w s now c e h0 he next⟩
  · by_cases h0 : s.getTokenFromRequest c = ""
    · exact Or.inl (Or.inl h0)
    · cases hv : s.ValidateJWT w now (s.getTokenFromRequest c) with
      | error e => exact Or.inl (Or.inr ⟨e, rfl⟩)
      | ok claims =>
        exact Or.inr ⟨claims, rfl, fun next => auth.Middleware_of_valid w s now c claims h0 hv next⟩
  · intro body
    exact ⟨by simp [gin.Context.IsAborted, gin.Context.Abort], rfl, rfl⟩
  · intro claims
    exact ⟨rfl, rfl⟩

/-- C4. Optional mode never blocks: for every request context, `OptionalMiddleware` runs the
rest of the chain exactly once, on a context to which it has written no response and which it
has not aborted; when no token is extracted or `ValidateJWT` fails, that context is the
incoming one with the single binding authenticated = false added, so that on a context which
held no user_id before `GetUserFromContext` returns (0, "", "", false). -/
theorem auth.OptionalMiddleware_never_blocks (w : jwt.Wire) (s : auth.Service) (now : Int)
    (c : gin.Context) (hfresh : c.Get "user_id" = none) :
    (∃ c1, (∀ next, s.OptionalMiddleware w now next c = next c1) ∧
      c1.written = c.written ∧ c1.index = c.index ∧
      c1.cookies = c.cookies ∧ c1.headers = c.headers) ∧
    ((s.getTokenFromRequest c = "" ∨
        ∃ e, s.ValidateJWT w now (s.getTokenFromRequest c) = .error e) →
      (∀ next, s.OptionalMiddleware w now next c =
        next (c.Set "authenticated" (.bool false))) ∧
      (c.Set "authenticated" (.bool false)).Keys = ("authenticated", .bool false) :: c.Keys ∧
      (c.Set "authenticated" (.bool false)).Get "authenticated" = some (.bool false) ∧
      auth.GetUserFromContext (c.Set "authenticated" (.bool false)) = (0, "", "", false)) := by
  have hget : auth.GetUserFromContext (c.Set "authenticated" (.bool false)) =
      (0, "", "", false) := by
    have h1 : (c.Set "authenticated" (.bool false)).Get "user_id" = none := by
      simpa [gin.Context.Set, gin.Context.Get, List.lookup] using hfresh
    simp only [auth.GetUserFromContext, h1]
  constructor
  · by_cases h0 : s.getTokenFromRequest c = ""
    · exact ⟨_, fun next => auth.OptionalMiddleware_no_token w s now c h0 next, rfl, rfl, rfl,
        rfl⟩
    · cases hv : s.ValidateJWT w now (s.getTokenFromRequest c) with
      | error e =>
        exact ⟨_, fun next => auth.OptionalMiddleware_invalid w s now c e h0 hv next, rfl, rfl,
          rfl, rfl⟩
      | ok claims =>
        exact ⟨_, fun next => auth.OptionalMiddleware_of_valid w s now c claims h0 hv next, rfl,
          rfl, rfl, rfl⟩
  · rintro (h0 | ⟨e, he⟩)
    · exact ⟨fun next => auth.OptionalMiddleware_no_token w s now c h0 next, rfl, rfl, hget⟩
    · by_cases h0 : s.getTokenFromRequest c = ""
      · exact ⟨fun next => auth.OptionalMiddleware_no_token w s now c h0 next, rfl, rfl, hget⟩
      · exact ⟨fun next => auth.OptionalMiddleware_invalid w s now c e h0 he next, rfl, rfl,
          hget⟩

/-- Witness of C4: a request without cookie and header passes through `OptionalMiddleware`
with the marker authenticated = false and no identity. -/
theorem auth.OptionalMiddleware_never_blocks_witness :
    (∀ next, Sample.service.OptionalMiddleware Sample.wireAB Sample.t0 next
      Sample.requestBare = next (Sample.requestBare.Set "authenticated" (.bool false))) ∧
    (Sample.requestBare.Set "authenticated" (.bool false)).Keys =
      ("authenticated", .bool false) :: Sample.requestBare.Keys ∧
    (Sample.requestBare.Set "authenticated" (.bool false)).Get "authenticated" =
      some (.bool false) ∧
    auth.GetUserFromContext (Sample.requestBare.Set "authenticated" (.bool false)) =
      (0, "", "", false) :=
  (auth.OptionalMiddleware_never_blocks Sample.wireAB Sample.service Sample.t0
    Sample.requestBare (by decide)).2 (Or.inl (by decide))

/-- C5. Identity propagation: whenever a token is extracted for which `ValidateJWT` returns
claims, `Middleware` and `OptionalMiddleware` both pass to the rest of the chain a context
in which authenticated = true and on which `GetUserFromContext` returns
(claims.UserID, claims.Email, claims.Name, true). -/
theorem auth.identity_propagation (w : jwt.Wire) (s : auth.Service) (now : Int)
    (c : gin.Context) (claims : auth.JWTClaims)
    (htoken : s.getTokenFromRequest c ≠ "")
    (hvalid : s.ValidateJWT w now (s.getTokenFromRequest c) = .ok claims) :
    ∃ c1, (∀ next, s.Middleware w now next c = next c1) ∧
      (∀ next, s.OptionalMiddleware w now next c = next c1) ∧
      c1.Get "authenticated" = some (.bool true) ∧
      auth.GetUserFromContext c1 = (claims.UserID, claims.Email, claims.Name, true) :=
  ⟨auth.withIdentity c claims,
    fun next => auth.Middleware_of_valid w s now c claims htoken hvalid next,
    fun next => auth.OptionalMiddleware_of_valid w s now c claims htoken hvalid next,
    auth.Get_authenticated_withIdentity c claims,
    auth.GetUserFromContext_withIdentity c claims⟩

/-- Witness of C5: the request with the token of alice in the cookie reaches the rest of the
chain with the identity of alice. -/
theorem auth.identity_propagation_witness :
    ∃ c1, (∀ next, Sample.service.Middleware Sample.wireAB (Sample.t0 + time.Second) next
        Sample.requestAB = next c1) ∧
      (∀ next, Sample.service.OptionalMiddleware Sample.wireAB (Sample.t0 + time.Second) next
        Sample.requestAB = next c1) ∧
      c1.Get "authenticated" = some (.bool true) ∧
      auth.GetUserFromContext c1 = (7, "alice@example.com", "Alice", true) :=
  auth.identity_propagation Sample.wireAB Sample.service (Sample.t0 + time.Second)
    Sample.requestAB { UserID := 7, Email := "alice@example.com", Name := "Alice" }
    (by decide) (by decide)

/-- C6 (as amended). Expiry: for every user and lifetime L, with the expiry second
e = floor((t + L) / 1s) after the epoch and at most 2^53, the token that `GenerateJWT` issues
at time t is accepted by `ValidateJWT` at every time before the whole second e, and rejected
with the error `tokenExpired` (no claims) at every time from e on, hence at every time after
t + L. -/
theorem auth.expiry (w : jwt.Wire) (s : auth.Service) (now1 now2 : Int) (user : auth.User)
    (hpos : 0 < auth.unixSeconds (now1 + s.jwtExpiresIn))
    (hexp : auth.unixSeconds (now1 + s.jwtExpiresIn) ≤ 2 ^ 53)
    (hw : w.ReadsBack auth.hs256Header (s.issuedClaims now1 now2 user)
      (w.hmac .SHA256 s.jwtSecret
        (w.signingString auth.hs256Header (s.issuedClaims now1 now2 user)))) :
    ∃ tokenString, s.GenerateJWT w now1 now2 user = .ok tokenString ∧
      (∀ now, now < auth.unixSeconds (now1 + s.jwtExpiresIn) * time.Second →
        ∃ claims, s.ValidateJWT w now tokenString = .ok claims) ∧
      (∀ now, auth.unixSeconds (now1 + s.jwtExpiresIn) * time.Second ≤ now →
        s.ValidateJWT w now tokenString = .error .tokenExpired) ∧
      (∀ now, now1 + s.jwtExpiresIn < now →
        s.ValidateJWT w now tokenString = .error .tokenExpired) := by
  have hb : (auth.unixSeconds (now1 + s.jwtExpiresIn)).natAbs ≤ 2 ^ 53 := by omega
  have hfloor : auth.unixSeconds (now1 + s.jwtExpiresIn) * time.Second ≤
      now1 + s.jwtExpiresIn := by
    simp only [auth.unixSeconds, time.Second]
    omega
  have hrej : ∀ now, auth.unixSeconds (now1 + s.jwtExpiresIn) * time.Second ≤ now →
      s.ValidateJWT w now
        (w.join (w.signingString auth.hs256Header (s.issuedClaims now1 now2 user))
          (w.hmac .SHA256 s.jwtSecret
            (w.signingString auth.hs256Header (s.issuedClaims now1 now2 user)))) =
        .error .tokenExpired := by
    intro now hnow
    rw [auth.ValidateJWT_issued w s now1 now2 now user hb hw, if_neg]
    rintro (h0 | hlt)
    · omega
    · omega
  refine ⟨_, auth.GenerateJWT_eq w s now1 now2 user, ?_, hrej, ?_⟩
  · intro now hnow
    rw [auth.ValidateJWT_issued w s now1 now2 now user hb hw, if_pos (Or.inr hnow)]
    exact ⟨_, rfl⟩
  · intro now hnow
    exact hrej now (by omega)

/-- Witness of C6: the token issued at `t0` with a lifetime of one hour is accepted one second
later and rejected at the whole second in which `t0` plus one hour falls. -/
theorem auth.expiry_witness :
    ∃ tokenString,
      Sample.service.GenerateJWT (Sample.wireFor Sample.t0 Sample.alice) Sample.t0 Sample.t0
        Sample.alice = .ok tokenString ∧
      (∃ claims, Sample.service.ValidateJWT (Sample.wireFor Sample.t0 Sample.alice)
        (Sample.t0 + time.Second) tokenString = .ok claims) ∧
      Sample.service.ValidateJWT (Sample.wireFor Sample.t0 Sample.alice)
        (1762250000 * time.Second) tokenString = .error .tokenExpired := by
  obtain ⟨tok, hgen, hbefore, hafter, _⟩ :=
    auth.expiry (Sample.wireFor Sample.t0 Sample.alice) Sample.service Sample.t0 Sample.t0
      Sample.alice (by decide) (by decide) (by rfl)
  exact ⟨tok, hgen, hbefore (Sample.t0 + time.Second) (by decide),
    hafter (1762250000 * time.Second) (by decide)⟩

/-- Counterexample to C6 as stated: the token issued at `t0` (half a second past a whole
second) with a lifetime of one hour is rejected 0.2 s after the whole second of its expiry,
which is 0.3 s before `t0` plus one hour. -/
theorem auth.expiry_is_whole_second :
    1762250000 * time.Second + 200000000 < Sample.t0 + Sample.service.jwtExpiresIn ∧
    (Sample.wireFor Sample.t0 Sample.alice).ReadsBack auth.hs256Header
      (Sample.service.issuedClaims Sample.t0 Sample.t0 Sample.alice) "mac(k,h.c)" ∧
    Sample.service.GenerateJWT (Sample.wireFor Sample.t0 Sample.alice) Sample.t0 Sample.t0
      Sample.alice = .ok "h.c.mac(k,h.c)" ∧
    Sample.service.ValidateJWT (Sample.wireFor Sample.t0 Sample.alice)
      (1762250000 * time.Second + 200000000) "h.c.mac(k,h.c)" = .error .tokenExpired :=
  ⟨by decide, by rfl, by decide, by decide⟩

/-- C7. Algorithm-family check: for every token string whose header names a signing method
that is not of the HMAC family (none, RS256, ES256, ..., or an unregistered name),
`ValidateJWT` returns an error and no claims, whatever the payload, the signature, the clock
and the service are; the key function does not return the secret for such a token, and for any
token it returns a key only when the method is of the HMAC family. -/
theorem auth.rejects_non_HMAC (w : jwt.Wire) (s : auth.Service) (now : Int)
    (tokenString : String) (parts : jwt.Segments) (alg : String)
    (hdec : w.decode tokenString = some parts)
    (halg : parts.header.lookup "alg" = some (.string alg))
    (hfam : ∀ h, jwt.GetSigningMethod alg ≠ some (.HMAC h)) :
    (∃ e, s.ValidateJWT w now tokenString = .error e) ∧
    (∀ token rest, jwt.ParseUnverified w tokenString = .ok (token, rest) →
      ∃ e, s.keyFunc token = .error e) ∧
    (∀ token key, s.keyFunc token = .ok key →
      (∃ h, token.Method = .HMAC h) ∧ key = s.jwtSecret) := by
  have hkey : ∀ token : jwt.Token, token.Method.isHMAC = false →
      ∃ e, s.keyFunc token = .error e := by
    intro token hm
    exact ⟨.msg "unexpected signing method", by simp [auth.Service.keyFunc, hm]⟩
  refine ⟨?_, ?_, ?_⟩
  · rcases jwt.Parse_non_HMAC w now tokenString s.keyFunc parts alg hkey hdec halg hfam with
      h | h
    · exact ⟨.tokenUnverifiable, by simp only [auth.Service.ValidateJWT, h]⟩
    · exact ⟨.tokenMalformed, by simp only [auth.Service.ValidateJWT, h]⟩
  · intro token rest hp
    apply hkey
    simp only [jwt.ParseUnverified, hdec, halg] at hp
    cases hm : jwt.GetSigningMethod alg with
    | none => simp [hm] at hp
    | some m =>
      simp only [hm, Except.ok.injEq, Prod.mk.injEq] at hp
      rw [← hp.1]
      cases m with
      | HMAC h => exact absurd hm (hfam h)
      | _ => rfl
  · intro token key hk
    simp only [auth.Service.keyFunc] at hk
    cases hm : token.Method with
    | HMAC h =>
      simp [hm, jwt.SigningMethod.isHMAC] at hk
      exact ⟨⟨h, rfl⟩, hk.symm⟩
    | _ => simp [hm, jwt.SigningMethod.isHMAC] at hk

/-- Witness of C7: the unsigned token with header alg `none` and the claims of alice is
rejected. -/
theorem auth.rejects_non_HMAC_witness :
    ∃ e, Sample.service.ValidateJWT Sample.wireNone (Sample.t0 + time.Second) "n.c." =
      .error e :=
  (auth.rejects_non_HMAC Sample.wireNone Sample.service (Sample.t0 + time.Second) "n.c."
    { header := [("alg", .string "none"), ("typ", .string "JWT")],
      claims := json.decodedMap (Sample.service.issuedClaims Sample.t0 Sample.t0 Sample.alice),
      signingString := "n.c",
      signature := some "" } "none" (by rfl) (by rfl) (by intro h; cases h <;> decide)).1

/-- C8. Claim shape check: for every token string that `jwt.Parse` accepts (well formed,
correctly signed, unexpired), `ValidateJWT` returns claims exactly when the token's user_id
claim is present and a number and its email and name claims are present and strings; the
claims returned carry those two strings, and the integer part of that number when it is an
int64; when one of the three is missing or of another shape it returns an error and no
claims. -/
theorem auth.claim_shape_check (w : jwt.Wire) (s : auth.Service) (now : Int)
    (tokenString : String) (token : jwt.Token)
    (hparse : jwt.Parse w now tokenString s.keyFunc = .ok token) :
    (∃ parts, w.decode tokenString = some parts ∧ token.Claims = parts.claims) ∧
    ((∃ claims, s.ValidateJWT w now tokenString = .ok claims) ↔
      ∃ userID email name, token.Claims.lookup "user_id" = some (.number userID) ∧
        token.Claims.lookup "email" = some (.string email) ∧
        token.Claims.lookup "name" = some (.string name)) ∧
    (∀ claims, s.ValidateJWT w now tokenString = .ok claims →
      token.Claims.lookup "email" = some (.string claims.Email) ∧
      token.Claims.lookup "name" = some (.string claims.Name) ∧
      ∃ userID, token.Claims.lookup "user_id" = some (.number userID) ∧
        (-9223372036854775808 ≤ userID.trunc → userID.trunc < 9223372036854775808 →
          claims.UserID = userID.trunc)) ∧
    ((¬ ∃ userID email name, token.Claims.lookup "user_id" = some (.number userID) ∧
        token.Claims.lookup "email" = some (.string email) ∧
        token.Claims.lookup "name" = some (.string name)) →
      ∃ e, s.ValidateJWT w now tokenString = .error e) := by
  obtain ⟨hvalid, hparts⟩ := jwt.Parse_ok w now tokenString s.keyFunc token hparse
  have hiff : ∀ claims, s.ValidateJWT w now tokenString = .ok claims ↔
      ∃ userID, token.Claims.lookup "user_id" = some (.number userID) ∧
        token.Claims.lookup "email" = some (.string claims.Email) ∧
        token.Claims.lookup "name" = some (.string claims.Name) ∧
        claims.UserID = userID.toInt := by
    intro claims
    simp only [auth.Service.ValidateJWT, hparse, hvalid, if_true]
    constructor
    · intro h
      split at h
      · rename_i userID hu
        split at h
        · rename_i email he
          split at h
          · rename_i name hn
            cases h
            exact ⟨userID, hu, he, hn, rfl⟩
          · cases h
        · cases h
      · cases h
    · rintro ⟨userID, hu, he, hn, hid⟩
      simp only [hu, he, hn]
      cases claims
      simp_all
  refine ⟨hparts, ⟨?_, ?_⟩, ?_, ?_⟩
  · rintro ⟨claims, hv⟩
    obtain ⟨userID, hu, he, hn, _⟩ := (hiff claims).mp hv
    exact ⟨userID, claims.Email, claims.Name, hu, he, hn⟩
  · rintro ⟨userID, email, name, hu, he, hn⟩
    exact ⟨{ UserID := userID.toInt, Email := email, Name := name },
      (hiff _).mpr ⟨userID, hu, he, hn, rfl⟩⟩
  · intro claims hv
    obtain ⟨userID, hu, he, hn, hid⟩ := (hiff claims).mp hv
    refine ⟨he, hn, userID, hu, ?_⟩
    intro hlo hhi
    rw [hid, Float64.toInt, if_pos ⟨hlo, hhi⟩]
  · intro hnot
    cases hv : s.ValidateJWT w now tokenString with
    | error e => exact ⟨e, rfl⟩
    | ok claims =>
      exfalso
      obtain ⟨userID, hu, he, hn, _⟩ := (hiff claims).mp hv
      exact hnot ⟨userID, claims.Email, claims.Name, hu, he, hn⟩

/-- Witness of C8: a token signed with the service's key whose user_id claim is the string
"7" is rejected. -/
theorem auth.claim_shape_check_witness :
    ∃ e, Sample.service.ValidateJWT Sample.wireStringID Sample.t0 "h.s.mac(k,h.s)" =
      .error e :=
  (auth.claim_shape_check Sample.wireStringID Sample.service Sample.t0 "h.s.mac(k,h.s)"
    { Header := json.decodedMap auth.hs256Header,
      Claims := [("user_id", .string "7"), ("email", .string "alice@example.com"),
                 ("name", .string "Alice")],
      Method := .HMAC .SHA256, Signature := "mac(k,h.s)", Valid := true }
    (by rfl)).2.2.2 (by
      rintro ⟨userID, email, name, hu, _, _⟩
      simp [List.lookup] at hu)

/-- C9. Resolve, create branch: for every database state and every profile such that no stored
user has google_id = profile.ID and none has email = profile.Email, a `CreateOrUpdateUser`
call whose lookup, insert and id retrieval succeed appends exactly one row, with a fresh id
and the profile's id, email, name and picture, leaves every existing row as it was, and
returns a User whose ID is the id of the new row and whose GoogleID, Email, Name and Picture
are the profile's. -/
theorem auth.CreateOrUpdateUser_creates (s : auth.Service) (db : sql.DB) (f : sql.Faults)
    (dbNow now1 now2 : Int) (userInfo : auth.GoogleUserInfo)
    (hquery : f.query = none) (hinsert : f.insert = none) (hlast : f.lastInsertId = none)
    (hid : ∀ r ∈ db.users, r.GoogleID ≠ userInfo.ID)
    (hemail : ∀ r ∈ db.users, r.Email ≠ userInfo.Email) :
    ∃ row user,
      s.CreateOrUpdateUser db f dbNow now1 now2 userInfo =
        ({ users := db.users ++ [row], seq := row.ID }, .ok user) ∧
      (∀ r ∈ db.users, r.ID < row.ID) ∧
      row.GoogleID = userInfo.ID ∧ row.Email = userInfo.Email ∧
      row.Name = userInfo.Name ∧ row.Picture = userInfo.Picture ∧
      row.CreatedAt = dbNow ∧ row.UpdatedAt = dbNow ∧
      user.ID = row.ID ∧ user.GoogleID = userInfo.ID ∧ user.Email = userInfo.Email ∧
      user.Name = userInfo.Name ∧ user.Picture = userInfo.Picture := by
  have hnone : db.users.find? (fun r => r.GoogleID == userInfo.ID || r.Email == userInfo.Email)
      = none := by
    rw [List.find?_eq_none]
    intro r hr
    simp [hid r hr, hemail r hr]
  have hany : db.users.any (fun r => r.GoogleID == userInfo.ID || r.Email == userInfo.Email)
      = false := by
    rw [List.any_eq_false]
    intro r hr
    simp [hid r hr, hemail r hr]
  refine ⟨{ ID := db.nextID, GoogleID := userInfo.ID, Email := userInfo.Email,
            Name := userInfo.Name, Picture := userInfo.Picture, CreatedAt := dbNow,
            UpdatedAt := dbNow },
          { ID := db.nextID, GoogleID := userInfo.ID, Email := userInfo.Email,
            Name := userInfo.Name, Picture := userInfo.Picture, CreatedAt := now1,
            UpdatedAt := now2 }, ?_, ?_, rfl, rfl, rfl, rfl, rfl, rfl, rfl, rfl, rfl, rfl, rfl⟩
  · simp [auth.Service.CreateOrUpdateUser, sql.DB.queryUser, sql.DB.insertUser, hquery,
      hinsert, hlast, hnone, hany]
  · intro r hr
    exact sql.lt_nextID db r hr

/-- Witness of C9: the profile of carol, unknown to the sample database, gets the new row 9. -/
theorem auth.CreateOrUpdateUser_creates_witness :
    ∃ row user,
      Sample.service.CreateOrUpdateUser Sample.db sql.noFaults 100 101 102 Sample.carolInfo =
        ({ users := Sample.db.users ++ [row], seq := row.ID }, .ok user) ∧
      (∀ r ∈ Sample.db.users, r.ID < row.ID) ∧
      row.GoogleID = "g-9" ∧ row.Email = "carol@example.com" ∧
      row.Name = "Carol" ∧ row.Picture = "c.png" ∧
      row.CreatedAt = 100 ∧ row.UpdatedAt = 100 ∧
      user.ID = row.ID ∧ user.GoogleID = "g-9" ∧ user.Email = "carol@example.com" ∧
      user.Name = "Carol" ∧ user.Picture = "c.png" :=
  auth.CreateOrUpdateUser_creates Sample.service Sample.db sql.noFaults 100 101 102
    Sample.carolInfo rfl rfl rfl (by decide) (by decide)

/-- C10. Resolve, update branch leaves keys untouched: for every database state with unique
ids and every profile such that some stored user has google_id = profile.ID or
email = profile.Email, a successful `CreateOrUpdateUser` call inserts no row, changes only the
name, picture and updated_at of the one row the lookup matched (its id, google_id, email and
created_at, and every other row, stay as they were), and returns a User with the matched
row's id, google_id and email and the profile's name and picture. -/
theorem auth.CreateOrUpdateUser_updates (s : auth.Service) (db db1 : sql.DB) (f : sql.Faults)
    (dbNow now1 now2 : Int) (userInfo : auth.GoogleUserInfo) (user : auth.User)
    (hkey : (db.users.map (fun r => r.ID)).Nodup)
    (hmatch : ∃ r ∈ db.users, r.GoogleID = userInfo.ID ∨ r.Email = userInfo.Email)
    (hok : s.CreateOrUpdateUser db f dbNow now1 now2 userInfo = (db1, .ok user)) :
    ∃ row ∈ db.users, (row.GoogleID = userInfo.ID ∨ row.Email = userInfo.Email) ∧
      db1.users = db.users.map (fun r =>
        if r = row then
          { ID := r.ID, GoogleID := r.GoogleID, Email := r.Email, Name := userInfo.Name,
            Picture := userInfo.Picture, CreatedAt := r.CreatedAt, UpdatedAt := dbNow }
        else r) ∧
      db1.users.length = db.users.length ∧
      db1.seq = db.seq ∧
      user.ID = row.ID ∧ user.GoogleID = row.GoogleID ∧ user.Email = row.Email ∧
      user.Name = userInfo.Name ∧ user.Picture = userInfo.Picture := by
  obtain ⟨r0, hr0, hm0⟩ := hmatch
  have hsome : (db.users.find?
      (fun r => r.GoogleID == userInfo.ID || r.Email == userInfo.Email)).isSome = true := by
    rw [List.find?_isSome]
    exact ⟨r0, hr0, by rcases hm0 with h | h <;> simp [h]⟩
  obtain ⟨row, hrow⟩ := Option.isSome_iff_exists.mp hsome
  have hmem : row ∈ db.users := List.mem_of_find?_eq_some hrow
  have hp := List.find?_some hrow
  have hrm : row.GoogleID = userInfo.ID ∨ row.Email = userInfo.Email := by
    simpa using hp
  have hmap : db.users.map (fun r =>
        if r.ID = row.ID then
          { r with Name := userInfo.Name, Picture := userInfo.Picture, UpdatedAt := dbNow }
        else r) =
      db.users.map (fun r =>
        if r = row then
          { ID := r.ID, GoogleID := r.GoogleID, Email := r.Email, Name := userInfo.Name,
            Picture := userInfo.Picture, CreatedAt := r.CreatedAt, UpdatedAt := dbNow }
        else r) := by
    apply List.map_congr_left
    intro a ha
    by_cases h : a = row
    · subst h; simp
    · have h2 : a.ID ≠ row.ID := fun hid => h (List.inj_on_of_nodup_map hkey ha hmem hid)
      simp [h, h2]
  cases hq : f.query with
  | some m => simp [auth.Service.CreateOrUpdateUser, sql.DB.queryUser, hq] at hok
  | none =>
    cases hu : f.update with
    | some m =>
      simp [auth.Service.CreateOrUpdateUser, sql.DB.queryUser, sql.DB.updateUser, hq, hu, hrow]
        at hok
    | none =>
      simp only [auth.Service.CreateOrUpdateUser, sql.DB.queryUser, sql.DB.updateUser, hq, hu,
        hrow, Prod.mk.injEq, Except.ok.injEq] at hok
      obtain ⟨hdb, huser⟩ := hok
      refine ⟨row, hmem, hrm, ?_, ?_, ?_, ?_, ?_, ?_, ?_, ?_⟩
      · rw [← hdb]; exact hmap
      · rw [← hdb]; simp
      · rw [← hdb]
      · rw [← huser]
      · rw [← huser]
      · rw [← huser]
      · rw [← huser]
      · rw [← huser]

/-- Witness of C10: a later login of bob renames row 8 and leaves the row of alice alone. -/
theorem auth.CreateOrUpdateUser_updates_witness :
    ∃ row ∈ Sample.db.users, (row.GoogleID = "g-8" ∨ row.Email = "bob@example.com") ∧
      Sample.dbRenamed.users = Sample.db.users.map (fun r =>
        if r = row then
          { ID := r.ID, GoogleID := r.GoogleID, Email := r.Email, Name := "Robert",
            Picture := "r.png", CreatedAt := r.CreatedAt, UpdatedAt := 100 }
        else r) ∧
      Sample.dbRenamed.users.length = Sample.db.users.length ∧
      Sample.dbRenamed.seq = Sample.db.seq ∧
      (8 : Int) = row.ID ∧ "g-8" = row.GoogleID ∧ "bob@example.com" = row.Email ∧
      "Robert" = "Robert" ∧ "r.png" = "r.png" :=
  auth.CreateOrUpdateUser_updates Sample.service Sample.db Sample.dbRenamed sql.noFaults
    100 101 102 Sample.bobInfo
    { ID := 8, GoogleID := "g-8", Email := "bob@example.com", Name := "Robert",
      Picture := "r.png", CreatedAt := 0, UpdatedAt := 101 }
    (by decide) ⟨Sample.bob, by decide, Or.inl rfl⟩ (by decide)

/-! ## Lemmas: the outcomes of CreateOrUpdateUser -/

namespace auth

/-- The row `INSERT` adds for a profile. -/
theorem insertUser_eq (db : sql.DB) (f : sql.Faults) (dbNow : Int) (g e n p : String)
    (hf : f.insert = none)
    (hnone : db.users.find? (fun r => r.GoogleID == g || r.Email == e) = none) :
    db.insertUser f dbNow g e n p =
      .ok ({ users := db.users ++ [{ ID := db.nextID, GoogleID := g, Email := e, Name := n,
                                      Picture := p, CreatedAt := dbNow, UpdatedAt := dbNow }],
             seq := db.nextID }, db.nextID) := by
  have hany : db.users.any (fun r => r.GoogleID == g || r.Email == e) = false := by
    rw [List.any_eq_false]
    exact List.find?_eq_none.mp hnone
  simp [sql.DB.insertUser, hf, hany]

/-- The five ways a call of `CreateOrUpdateUser` can go. -/
theorem CreateOrUpdateUser_cases (s : Service) (db : sql.DB) (f : sql.Faults)
    (dbNow now1 now2 : Int) (info : GoogleUserInfo) :
    (∃ m, f.query = some m ∧
      s.CreateOrUpdateUser db f dbNow now1 now2 info =
        (db, .error (.msg "failed to query user"))) ∨
    (∃ m, f.query = none ∧ f.insert = some m ∧
      db.users.find? (fun r => r.GoogleID == info.ID || r.Email == info.Email) = none ∧
      s.CreateOrUpdateUser db f dbNow now1 now2 info =
        (db, .error (.msg "failed to create user"))) ∨
    (f.query = none ∧ f.insert = none ∧
      db.users.find? (fun r => r.GoogleID == info.ID || r.Email == info.Email) = none ∧
      ((∃ m, f.lastInsertId = some m ∧
        s.CreateOrUpdateUser db f dbNow now1 now2 info =
          ({ users := db.users ++
                [{ ID := db.nextID, GoogleID := info.ID, Email := info.Email,
                   Name := info.Name, Picture := info.Picture, CreatedAt := dbNow,
                   UpdatedAt := dbNow }],
             seq := db.nextID },
            .error (.msg "failed to get user ID"))) ∨
       (f.lastInsertId = none ∧
        s.CreateOrUpdateUser db f dbNow now1 now2 info =
          ({ users := db.users ++
                [{ ID := db.nextID, GoogleID := info.ID, Email := info.Email,
                   Name := info.Name, Picture := info.Picture, CreatedAt := dbNow,
                   UpdatedAt := dbNow }],
             seq := db.nextID },
            .ok { ID := db.nextID, GoogleID := info.ID, Email := info.Email,
                  Name := info.Name, Picture := info.Picture, CreatedAt := now1,
                  UpdatedAt := now2 })))) ∨
    (∃ m row, f.query = none ∧ f.update = some m ∧
      db.users.find? (fun r => r.GoogleID == info.ID || r.Email == info.Email) = some row ∧
      s.CreateOrUpdateUser db f dbNow now1 now2 info =
        (db, .error (.msg "failed to update user"))) ∨
    (∃ row, f.query = none ∧ f.update = none ∧
      db.users.find? (fun r => r.GoogleID == info.ID || r.Email == info.Email) = some row ∧
      s.CreateOrUpdateUser db f dbNow now1 now2 info =
        ({ users := db.users.map (fun r =>
              if r.ID = row.ID then
                { r with Name := info.Name, Picture := info.Picture, UpdatedAt := dbNow }
              else r),
           seq := db.seq },
          .ok { ID := row.ID, GoogleID := row.GoogleID, Email := row.Email,
                Name := info.Name, Picture := info.Picture, CreatedAt := row.CreatedAt,
                UpdatedAt := now1 })) := by
  cases hq : f.query with
  | some m =>
    left
    exact ⟨m, rfl, by simp [Service.CreateOrUpdateUser, sql.DB.queryUser, hq]⟩
  | none =>
    right
    cases hfind : db.users.find? (fun r => r.GoogleID == info.ID || r.Email == info.Email) with
    | none =>
      cases hi : f.insert with
      | some m =>
        left
        exact ⟨m, rfl, rfl, rfl, by
          simp [Service.CreateOrUpdateUser, sql.DB.queryUser, sql.DB.insertUser, hq, hfind, hi]⟩
      | none =>
        right; left
        refine ⟨rfl, rfl, rfl, ?_⟩
        have hins := insertUser_eq db f dbNow info.ID info.Email info.Name info.Picture hi hfind
        cases hl : f.lastInsertId with
        | some m =>
          left
          exact ⟨m, rfl, by
            simp [Service.CreateOrUpdateUser, sql.DB.queryUser, hq, hfind, hins, hl]⟩
        | none =>
          right
          exact ⟨rfl, by
            simp [Service.CreateOrUpdateUser, sql.DB.queryUser, hq, hfind, hins, hl]⟩
    | some row =>
      right; right
      cases hu : f.update with
      | some m =>
        left
        exact ⟨m, row, rfl, rfl, rfl, by
          simp [Service.CreateOrUpdateUser, sql.DB.queryUser, sql.DB.updateUser, hq, hfind, hu]⟩
      | none =>
        right
        exact ⟨row, rfl, rfl, rfl, by
          simp [Service.CreateOrUpdateUser, sql.DB.queryUser, sql.DB.updateUser, hq, hfind, hu]⟩

end auth

/-! ## Lemmas: uniqueness of google_id and email -/

namespace sql

theorem Unique_append (db : DB) (row : auth.User)
    (h : db.Unique)
    (hnone : db.users.find? (fun r => r.GoogleID == row.GoogleID || r.Email == row.Email)
      = none) (seq : Int) :
    ({ users := db.users ++ [row], seq := seq } : DB).Unique := by
  have hno := List.find?_eq_none.mp hnone
  obtain ⟨hg, he⟩ := h
  constructor
  · simp only [List.map_append, List.map_cons, List.map_nil]
    apply List.Nodup.append hg (List.nodup_singleton _)
    intro x hx hx2
    obtain ⟨r, hr, rfl⟩ := List.mem_map.mp hx
    have := hno r hr
    simp only [List.mem_singleton] at hx2
    simp [hx2] at this
  · simp only [List.map_append, List.map_cons, List.map_nil]
    apply List.Nodup.append he (List.nodup_singleton _)
    intro x hx hx2
    obtain ⟨r, hr, rfl⟩ := List.mem_map.mp hx
    have := hno r hr
    simp only [List.mem_singleton] at hx2
    simp [hx2] at this

theorem Unique_map (db : DB) (g : auth.User → auth.User) (seq : Int)
    (h : db.Unique) (hg : ∀ r, (g r).GoogleID = r.GoogleID) (he : ∀ r, (g r).Email = r.Email) :
    ({ users := db.users.map g, seq := seq } : DB).Unique := by
  obtain ⟨h1, h2⟩ := h
  constructor
  · have : (db.users.map g).map (fun r => r.GoogleID) = db.users.map (fun r => r.GoogleID) := by
      rw [List.map_map]
      exact List.map_congr_left (fun r _ => hg r)
    simpa [this] using h1
  · have : (db.users.map g).map (fun r => r.Email) = db.users.map (fun r => r.Email) := by
      rw [List.map_map]
      exact List.map_congr_left (fun r _ => he r)
    simpa [this] using h2

end sql

namespace auth

/-- In a list without repeated keys at most one entry has a given key. -/
theorem filter_key_length_le_one (l : List User) (key : User → String) (a : String)
    (h : (l.map key).Nodup) : (l.filter (fun r => key r = a)).length ≤ 1 := by
  induction l with
  | nil => simp
  | cons x t ih =>
    simp only [List.map_cons, List.nodup_cons] at h
    by_cases hx : key x = a
    · have ht : t.filter (fun r => decide (key r = a)) = [] := by
        rw [List.filter_eq_nil_iff]
        intro r hr hra
        apply h.1
        have hra2 : key r = a := by simpa using hra
        rw [hx, ← hra2]
        exact List.mem_map_of_mem key hr
      simp [List.filter_cons, hx, ht]
    · simp only [List.filter_cons, hx, decide_False]
      exact ih h.2

/-- One call keeps google_id and email unique. -/
theorem CreateOrUpdateUser_Unique (s : Service) (db : sql.DB) (f : sql.Faults)
    (dbNow now1 now2 : Int) (info : GoogleUserInfo) (h : db.Unique) :
    (s.CreateOrUpdateUser db f dbNow now1 now2 info).1.Unique := by
  rcases CreateOrUpdateUser_cases s db f dbNow now1 now2 info with
    ⟨m, _, hr⟩ | ⟨m, _, _, _, hr⟩ | ⟨_, _, hfind, hr⟩ | ⟨m, row, _, _, _, hr⟩ |
    ⟨row, _, _, _, hr⟩
  · rw [hr]; exact h
  · rw [hr]; exact h
  · have hu := sql.Unique_append db
      { ID := db.nextID, GoogleID := info.ID, Email := info.Email, Name := info.Name,
        Picture := info.Picture, CreatedAt := dbNow, UpdatedAt := dbNow } h hfind db.nextID
    rcases hr with ⟨m, _, hr⟩ | ⟨_, hr⟩
    · rw [hr]; exact hu
    · rw [hr]; exact hu
  · rw [hr]; exact h
  · rw [hr]
    apply sql.Unique_map db _ db.seq h
    · intro r; split <;> rfl
    · intro r; split <;> rfl

theorem runCalls_Unique (s : Service) (calls : List Call) (db : sql.DB) (h : db.Unique) :
    (s.runCalls db calls).Unique := by
  induction calls generalizing db with
  | nil => exact h
  | cons call rest ih =>
    exact ih _ (CreateOrUpdateUser_Unique s db call.faults call.dbNow call.now1 call.now2
      call.userInfo h)

end auth

/-! ## Claims, continued -/

/-- C11. Uniqueness invariant: if in a database state no two users share a google_id and no
two users share an email, the same holds after any `CreateOrUpdateUser` call run on its own,
whether it succeeds or fails and whatever storage failures it meets; hence every state reached
from the empty table by a sequence of calls, one after the other, holds at most one user per
google_id and at most one per email. -/
theorem auth.uniqueness_invariant :
    (∀ (s : auth.Service) (db : sql.DB) (f : sql.Faults) (dbNow now1 now2 : Int)
        (info : auth.GoogleUserInfo),
      db.Unique → (s.CreateOrUpdateUser db f dbNow now1 now2 info).1.Unique) ∧
    (∀ (s : auth.Service) (seq : Int) (calls : List auth.Call),
      (s.runCalls { users := [], seq := seq } calls).Unique ∧
      ∀ g e : String,
        ((s.runCalls { users := [], seq := seq } calls).users.filter
          (fun r => r.GoogleID = g)).length ≤ 1 ∧
        ((s.runCalls { users := [], seq := seq } calls).users.filter
          (fun r => r.Email = e)).length ≤ 1) := by
  refine ⟨fun s db f dbNow now1 now2 info h =>
    auth.CreateOrUpdateUser_Unique s db f dbNow now1 now2 info h, ?_⟩
  intro s seq calls
  have hu : (s.runCalls { users := [], seq := seq } calls).Unique :=
    auth.runCalls_Unique s calls _ ⟨List.nodup_nil, List.nodup_nil⟩
  exact ⟨hu, fun g e =>
    ⟨auth.filter_key_length_le_one _ (fun r => r.GoogleID) g hu.1,
     auth.filter_key_length_le_one _ (fun r => r.Email) e hu.2⟩⟩

/-- What a successful call leaves behind: the lookup for the same profile now returns a row
with the id, google_id and email of the returned user, and every row with that id has the
name and the picture of the profile. -/
theorem CreateOrUpdateUser_ok_state (s : auth.Service) (db db1 : sql.DB) (f : sql.Faults)
    (dbNow now1 now2 : Int) (info : auth.GoogleUserInfo) (u : auth.User)
    (h : s.CreateOrUpdateUser db f dbNow now1 now2 info = (db1, .ok u)) :
    (∃ row, db1.users.find? (fun r => r.GoogleID == info.ID || r.Email == info.Email)
        = some row ∧ row.ID = u.ID ∧ row.GoogleID = u.GoogleID ∧ row.Email = u.Email) ∧
    (∀ r ∈ db1.users, r.ID = u.ID → r.Name = info.Name ∧ r.Picture = info.Picture) ∧
    u.Name = info.Name ∧ u.Picture = info.Picture := by
  rcases auth.CreateOrUpdateUser_cases s db f dbNow now1 now2 info with
    ⟨m, _, hr⟩ | ⟨m, _, _, _, hr⟩ | ⟨_, _, hfind, hr⟩ | ⟨m, row, _, _, _, hr⟩ |
    ⟨row, _, _, hfind, hr⟩
  · rw [hr] at h; simp at h
  · rw [hr] at h; simp at h
  · rcases hr with ⟨m, _, hr⟩ | ⟨_, hr⟩
    · rw [hr] at h; simp at h
    · rw [hr] at h
      simp only [Prod.mk.injEq, Except.ok.injEq] at h
      obtain ⟨hdb, hu⟩ := h
      subst hdb; subst hu
      refine ⟨⟨{ ID := db.nextID, GoogleID := info.ID, Email := info.Email,
                  Name := info.Name, Picture := info.Picture, CreatedAt := dbNow,
                  UpdatedAt := dbNow }, ?_, rfl, rfl, rfl⟩, ?_, rfl, rfl⟩
      · simp [List.find?_append, hfind]
      · intro r hr hid
        rcases List.mem_append.mp hr with hold | hnew
        · have := sql.lt_nextID db r hold
          simp only at hid
          omega
        · simp only [List.mem_singleton] at hnew
          subst hnew
          exact ⟨rfl, rfl⟩
  · rw [hr] at h; simp at h
  · rw [hr] at h
    simp only [Prod.mk.injEq, Except.ok.injEq] at h
    obtain ⟨hdb, hu⟩ := h
    subst hdb; subst hu
    refine ⟨⟨{ ID := row.ID, GoogleID := row.GoogleID, Email := row.Email,
                Name := info.Name, Picture := info.Picture, CreatedAt := row.CreatedAt,
                UpdatedAt := dbNow }, ?_, rfl, rfl, rfl⟩, ?_, rfl, rfl⟩
    · rw [List.find?_map]
      have hp : ((fun r : auth.User => r.GoogleID == info.ID || r.Email == info.Email) ∘
          (fun r : auth.User =>
            if r.ID = row.ID then
              { r with Name := info.Name, Picture := info.Picture, UpdatedAt := dbNow }
            else r)) =
          (fun r : auth.User => r.GoogleID == info.ID || r.Email == info.Email) := by
        funext r
        simp only [Function.comp]
        split <;> rfl
      rw [hp, hfind]
      simp only [Option.map_some', if_true]
    · intro r hr hid
      obtain ⟨r0, _, rfl⟩ := List.mem_map.mp hr
      by_cases h0 : r0.ID = row.ID
      · simp [h0]
      · simp only [h0, if_false] at hid

/-- C12. Resolution idempotence: for every database state and profile, two consecutive
successful `CreateOrUpdateUser` calls with the same profile return Users with the same ID
(and google_id, email, name and picture); the second call inserts no row and leaves the table
as it was except for the updated_at of the row with that id, whose name and picture already
were the profile's. -/
theorem auth.resolution_idempotent (s : auth.Service) (db db1 db2 : sql.DB)
    (f1 f2 : sql.Faults) (dbNowA nowA1 nowA2 dbNowB nowB1 nowB2 : Int)
    (info : auth.GoogleUserInfo) (u1 u2 : auth.User)
    (h1 : s.CreateOrUpdateUser db f1 dbNowA nowA1 nowA2 info = (db1, .ok u1))
    (h2 : s.CreateOrUpdateUser db1 f2 dbNowB nowB1 nowB2 info = (db2, .ok u2)) :
    u2.ID = u1.ID ∧ u2.GoogleID = u1.GoogleID ∧ u2.Email = u1.Email ∧
    u2.Name = u1.Name ∧ u2.Picture = u1.Picture ∧
    db2.users.length = db1.users.length ∧ db2.seq = db1.seq ∧
    (∃ row ∈ db1.users, row.ID = u1.ID ∧ row.Name = info.Name ∧
      row.Picture = info.Picture) ∧
    db2.users = db1.users.map (fun r =>
      if r.ID = u1.ID then
        { ID := r.ID, GoogleID := r.GoogleID, Email := r.Email, Name := r.Name,
          Picture := r.Picture, CreatedAt := r.CreatedAt, UpdatedAt := dbNowB }
      else r) := by
  obtain ⟨⟨row1, hfind1, hid1, hg1, he1⟩, hsame, hn1, hp1⟩ :=
    CreateOrUpdateUser_ok_state s db db1 f1 dbNowA nowA1 nowA2 info u1 h1
  have hmem1 : row1 ∈ db1.users := List.mem_of_find?_eq_some hfind1
  rcases auth.CreateOrUpdateUser_cases s db1 f2 dbNowB nowB1 nowB2 info with
    ⟨m, _, hr⟩ | ⟨m, _, _, _, hr⟩ | ⟨_, _, hfind, hr⟩ | ⟨m, row, _, _, _, hr⟩ |
    ⟨row, _, _, hfind, hr⟩
  · rw [hr] at h2; simp at h2
  · rw [hr] at h2; simp at h2
  · rw [hfind] at hfind1; cases hfind1
  · rw [hr] at h2; simp at h2
  · rw [hfind] at hfind1
    cases hfind1
    rw [hr] at h2
    simp only [Prod.mk.injEq, Except.ok.injEq] at h2
    obtain ⟨hdb, hu⟩ := h2
    subst hdb; subst hu
    refine ⟨hid1, hg1, he1, hn1.symm, hp1.symm, by simp, rfl,
      ⟨row1, hmem1, hid1, hsame row1 hmem1 hid1⟩, ?_⟩
    apply List.map_congr_left
    intro r hr
    by_cases hid : r.ID = row1.ID
    · have hid2 : r.ID = u1.ID := by rw [hid, hid1]
      obtain ⟨hn, hp⟩ := hsame r hr hid2
      simp only [if_pos hid, if_pos hid2, hn, hp]
    · have hid2 : ¬ r.ID = u1.ID := by rw [← hid1]; exact hid
      simp only [if_neg hid, if_neg hid2]

/-- The logged function returns the database state and the result of `CreateOrUpdateUser`. -/
theorem CreateOrUpdateUserLogged_eq (s : auth.Service) (db : sql.DB) (f : sql.Faults)
    (dbNow now1 now2 : Int) (info : auth.GoogleUserInfo) :
    ((s.CreateOrUpdateUserLogged db f dbNow now1 now2 info).1,
      (s.CreateOrUpdateUserLogged db f dbNow now1 now2 info).2.1) =
      s.CreateOrUpdateUser db f dbNow now1 now2 info := by
  simp only [auth.Service.CreateOrUpdateUserLogged, auth.Service.CreateOrUpdateUser]
  split
  · split
    · rfl
    · split <;> rfl
  · rfl
  · split <;> rfl

/-- C13. Storage errors are surfaced: in `CreateOrUpdateUser`, if the lookup fails with an
error other than 'no rows', the call returns an error and no User, leaves the table as it
was and attempts no insert or update; if the insert (a uniqueness rejection included) or the
update fails, the call returns an error and no User and leaves the table as it was; a User is
returned only when every storage operation the call attempted went through; and no storage
operation is attempted more than once. -/
theorem auth.storage_errors_surfaced (s : auth.Service) (db : sql.DB) (f : sql.Faults)
    (dbNow now1 now2 : Int) (info : auth.GoogleUserInfo) :
    ((s.CreateOrUpdateUserLogged db f dbNow now1 now2 info).1,
      (s.CreateOrUpdateUserLogged db f dbNow now1 now2 info).2.1) =
      s.CreateOrUpdateUser db f dbNow now1 now2 info ∧
    (∀ e, db.queryUser f info.ID info.Email = .error e → e ≠ .errNoRows →
      (s.CreateOrUpdateUserLogged db f dbNow now1 now2 info).1 = db ∧
      (∃ e1, (s.CreateOrUpdateUserLogged db f dbNow now1 now2 info).2.1 = .error e1) ∧
      (s.CreateOrUpdateUserLogged db f dbNow now1 now2 info).2.2 = [.query]) ∧
    (∀ e, db.queryUser f info.ID info.Email = .error .errNoRows →
      db.insertUser f dbNow info.ID info.Email info.Name info.Picture = .error e →
      (s.CreateOrUpdateUserLogged db f dbNow now1 now2 info).1 = db ∧
      (∃ e1, (s.CreateOrUpdateUserLogged db f dbNow now1 now2 info).2.1 = .error e1) ∧
      (s.CreateOrUpdateUserLogged db f dbNow now1 now2 info).2.2 = [.query, .insert]) ∧
    (∀ row e, db.queryUser f info.ID info.Email = .ok row →
      db.updateUser f dbNow info.Name info.Picture row.ID = .error e →
      (s.CreateOrUpdateUserLogged db f dbNow now1 now2 info).1 = db ∧
      (∃ e1, (s.CreateOrUpdateUserLogged db f dbNow now1 now2 info).2.1 = .error e1) ∧
      (s.CreateOrUpdateUserLogged db f dbNow now1 now2 info).2.2 = [.query, .update]) ∧
    (∀ user, (s.CreateOrUpdateUserLogged db f dbNow now1 now2 info).2.1 = .ok user →
      ∀ op ∈ (s.CreateOrUpdateUserLogged db f dbNow now1 now2 info).2.2, f.of op = none) ∧
    (s.CreateOrUpdateUserLogged db f dbNow now1 now2 info).2.2.Nodup := by
  refine ⟨CreateOrUpdateUserLogged_eq s db f dbNow now1 now2 info, ?_, ?_, ?_, ?_, ?_⟩
  · intro e he hne
    cases e <;>
      first
        | exact absurd rfl hne
        | simp [auth.Service.CreateOrUpdateUserLogged, he]
  · intro e hq hi
    simp [auth.Service.CreateOrUpdateUserLogged, hq, hi]
  · intro row e hq hu
    simp [auth.Service.CreateOrUpdateUserLogged, hq, hu]
  · intro user hok op hop
    cases hq : f.query with
    | some m =>
      simp [auth.Service.CreateOrUpdateUserLogged, sql.DB.queryUser, hq] at hok
    | none =>
      cases hfind : db.users.find?
          (fun r => r.GoogleID == info.ID || r.Email == info.Email) with
      | none =>
        cases hi : f.insert with
        | some m =>
          simp [auth.Service.CreateOrUpdateUserLogged, sql.DB.queryUser, sql.DB.insertUser,
            hq, hfind, hi] at hok
        | none =>
          have hins := auth.insertUser_eq db f dbNow info.ID info.Email info.Name info.Picture
            hi hfind
          cases hl : f.lastInsertId with
          | some m =>
            simp [auth.Service.CreateOrUpdateUserLogged, sql.DB.queryUser, hq, hfind, hins, hl]
              at hok
          | none =>
            simp only [auth.Service.CreateOrUpdateUserLogged, sql.DB.queryUser, hq, hfind,
              hins, hl, List.mem_cons, List.mem_singleton, List.not_mem_nil, or_false] at hop
            rcases hop with rfl | rfl | rfl
            · exact hq
            · exact hi
            · exact hl
      | some row =>
        cases hu : f.update with
        | some m =>
          simp [auth.Service.CreateOrUpdateUserLogged, sql.DB.queryUser, sql.DB.updateUser,
            hq, hfind, hu] at hok
        | none =>
          simp only [auth.Service.CreateOrUpdateUserLogged, sql.DB.queryUser,
            sql.DB.updateUser, hq, hfind, hu, List.mem_cons, List.mem_singleton,
            List.not_mem_nil, or_false] at hop
          rcases hop with rfl | rfl
          · exact hq
          · exact hu
  · simp only [auth.Service.CreateOrUpdateUserLogged]
    split
    · split
      · simp
      · split <;> simp
    · simp
    · split <;> simp

/-- Witness of C12: carol logs in twice; the first call creates row 9, the second returns
id 9 again and only moves the updated_at of that row from 100 to 200. -/
theorem auth.resolution_idempotent_witness :
    (9 : Int) = 9 ∧ "g-9" = "g-9" ∧ "carol@example.com" = "carol@example.com" ∧
    "Carol" = "Carol" ∧ "c.png" = "c.png" ∧
    (Sample.dbCarol 200).users.length = (Sample.dbCarol 100).users.length ∧
    (Sample.dbCarol 200).seq = (Sample.dbCarol 100).seq ∧
    (∃ row ∈ (Sample.dbCarol 100).users, row.ID = 9 ∧ row.Name = "Carol" ∧
      row.Picture = "c.png") ∧
    (Sample.dbCarol 200).users = (Sample.dbCarol 100).users.map (fun r =>
      if r.ID = 9 then
        { ID := r.ID, GoogleID := r.GoogleID, Email := r.Email, Name := r.Name,
          Picture := r.Picture, CreatedAt := r.CreatedAt, UpdatedAt := 200 }
      else r) :=
  auth.resolution_idempotent Sample.service Sample.db (Sample.dbCarol 100) (Sample.dbCarol 200)
    sql.noFaults sql.noFaults 100 101 102 200 201 202 Sample.carolInfo
    { ID := 9, GoogleID := "g-9", Email := "carol@example.com", Name := "Carol",
      Picture := "c.png", CreatedAt := 101, UpdatedAt := 102 }
    { ID := 9, GoogleID := "g-9", Email := "carol@example.com", Name := "Carol",
      Picture := "c.png", CreatedAt := 100, UpdatedAt := 201 }
    (by decide) (by decide)

/-- C14 (as amended). Issued claims: for every user and service, `GenerateJWT` returns the
serialised token with header typ JWT, alg HS256, signed with HMAC-SHA256 under the secret,
whose claim set is exactly user_id, email, name, exp, iat, iss with user_id = user.ID,
email = user.Email, name = user.Name, iss = the configured issuer, iat = the whole seconds of
the second clock reading and exp = the whole seconds of the first clock reading plus the
lifetime; exp = iat + the lifetime in seconds when the lifetime is a whole number of seconds
and both clock readings fall in the same second. -/
theorem auth.issued_claims (w : jwt.Wire) (s : auth.Service) (now1 now2 : Int)
    (user : auth.User) :
    s.GenerateJWT w now1 now2 user =
      .ok (w.join
        (w.signingString [("typ", .string "JWT"), ("alg", .string "HS256")]
          (s.issuedClaims now1 now2 user))
        (w.hmac .SHA256 s.jwtSecret
          (w.signingString [("typ", .string "JWT"), ("alg", .string "HS256")]
            (s.issuedClaims now1 now2 user)))) ∧
    (s.issuedClaims now1 now2 user).map (fun kv => kv.1) =
      ["user_id", "email", "name", "exp", "iat", "iss"] ∧
    (s.issuedClaims now1 now2 user).lookup "user_id" = some (.int user.ID) ∧
    (s.issuedClaims now1 now2 user).lookup "email" = some (.string user.Email) ∧
    (s.issuedClaims now1 now2 user).lookup "name" = some (.string user.Name) ∧
    (s.issuedClaims now1 now2 user).lookup "iss" = some (.string s.jwtIssuer) ∧
    (s.issuedClaims now1 now2 user).lookup "iat" = some (.int (now2 / time.Second)) ∧
    (s.issuedClaims now1 now2 user).lookup "exp" =
      some (.int ((now1 + s.jwtExpiresIn) / time.Second)) ∧
    (s.jwtExpiresIn % time.Second = 0 → now1 / time.Second = now2 / time.Second →
      (now1 + s.jwtExpiresIn) / time.Second =
        now2 / time.Second + s.jwtExpiresIn / time.Second) := by
  refine ⟨rfl, rfl, rfl, rfl, rfl, rfl, rfl, rfl, ?_⟩
  intro hwhole hsame
  simp only [time.Second] at *
  omega

/-- Counterexample to C14 as stated: with a lifetime of 1.5 s and the clock at 0.6 s past a
whole second, the issued token has exp = iat + 2, which is neither the lifetime nor its whole
seconds. -/
theorem auth.issued_exp_is_not_iat_plus_lifetime :
    Sample.serviceShort.jwtExpiresIn = 1500000000 ∧
    (Sample.serviceShort.issuedClaims (Sample.t0 + 100000000) (Sample.t0 + 100000000)
      Sample.alice).lookup "iat" = some (.int 1762246400) ∧
    (Sample.serviceShort.issuedClaims (Sample.t0 + 100000000) (Sample.t0 + 100000000)
      Sample.alice).lookup "exp" = some (.int 1762246402) ∧
    (1762246402 - 1762246400) * time.Second ≠ Sample.serviceShort.jwtExpiresIn ∧
    (1762246402 : Int) ≠ 1762246400 + Sample.serviceShort.jwtExpiresIn / time.Second := by
  decide

/-- Counterexample to C17 as stated: on a request that carries the valid token of alice in
the auth_token cookie and no Authorization header, `AuthMiddleware` answers 401 "Authorization
header required" and aborts without running the rest of the chain, and
`OptionalAuthMiddleware` runs the rest of the chain on the untouched context, without
identity; `Middleware` of service.go authenticates the same request as alice. -/
theorem auth.AuthMiddleware_ignores_cookie :
    Sample.service.ValidateJWT Sample.wireAB (Sample.t0 + time.Second) "h.a.mac(k,h.a)" =
      .ok { UserID := 7, Email := "alice@example.com", Name := "Alice" } ∧
    Sample.requestCookieOnly.Cookie "auth_token" = .ok "h.a.mac(k,h.a)" ∧
    Sample.requestCookieOnly.GetHeader "Authorization" = "" ∧
    (∀ next, Sample.service.AuthMiddleware Sample.wireAB (Sample.t0 + time.Second) next
      Sample.requestCookieOnly =
        (Sample.requestCookieOnly.JSON 401 [("error", "Authorization header required")]).Abort) ∧
    (∀ next, Sample.service.OptionalAuthMiddleware Sample.wireAB (Sample.t0 + time.Second) next
      Sample.requestCookieOnly = next Sample.requestCookieOnly) ∧
    auth.GetUserFromContext Sample.requestCookieOnly = (0, "", "", false) ∧
    (∀ next, Sample.service.Middleware Sample.wireAB (Sample.t0 + time.Second) next
      Sample.requestCookieOnly =
        next (auth.withIdentity Sample.requestCookieOnly
          { UserID := 7, Email := "alice@example.com", Name := "Alice" })) := by
  refine ⟨by decide, by decide, by decide, fun next => rfl, fun next => rfl, by decide, ?_⟩
  intro next
  exact auth.Middleware_of_valid Sample.wireAB Sample.service (Sample.t0 + time.Second)
    Sample.requestCookieOnly { UserID := 7, Email := "alice@example.com", Name := "Alice" }
    (by decide) (by decide) next

namespace strings

/-- A character sequence without the separator is one piece. -/
theorem splitChars_of_not_mem (sep : Char) (cs : List Char) (h : sep ∉ cs) :
    splitChars sep cs = [cs] := by
  induction cs with
  | nil => rfl
  | cons c cs ih =>
    have hc : c ≠ sep := fun e => h (e ▸ List.mem_cons_self c cs)
    have hcs : sep ∉ cs := fun e => h (List.mem_cons_of_mem c e)
    simp only [splitChars, ih hcs, if_neg hc]

/-- The header `Bearer` followed by one space and a text without a space splits in two. -/
theorem Split_bearer (token : String) (h : ' ' ∉ token.data) :
    Split ("Bearer " ++ token) ' ' = ["Bearer", token] := by
  unfold Split
  rw [String.data_append]
  show List.map String.mk
    (splitChars ' ' ('B' :: 'e' :: 'a' :: 'r' :: 'e' :: 'r' :: ' ' :: token.data)) = _
  simp only [splitChars, splitChars_of_not_mem ' ' token.data h]
  simp

end strings

/-- C17 (as amended). The middlewares of service.go, `Middleware` and `OptionalMiddleware`,
take the token from the auth_token cookie first; the middlewares of middleware.go,
`AuthMiddleware` and `OptionalAuthMiddleware`, read the Authorization header only. Whatever
its cookies, a request without Authorization header is answered 401 "Authorization header
required" by `AuthMiddleware` and passes `OptionalAuthMiddleware` unchanged; a request whose
header is not `Bearer`, one space and a text without a space is answered 401 "Invalid
authorization header format" and passes unchanged; a request whose header carries a token
that `ValidateJWT` refuses is answered 401 "Invalid token" and passes unchanged; a request
whose header carries a token that validates runs the rest of the chain with the identity of
that token under user_id, user_email and user_name, through both. -/
theorem auth.AuthMiddleware_header_only (w : jwt.Wire) (s : auth.Service) (now : Int)
    (c : gin.Context) :
    (∀ token claims, c.Cookie "auth_token" = .ok token → token ≠ "" →
      s.ValidateJWT w now token = .ok claims →
      ∀ next, s.Middleware w now next c = next (auth.withIdentity c claims) ∧
        s.OptionalMiddleware w now next c = next (auth.withIdentity c claims)) ∧
    (c.GetHeader "Authorization" = "" →
      ∀ next, s.AuthMiddleware w now next c =
          (c.JSON 401 [("error", "Authorization header required")]).Abort ∧
        s.OptionalAuthMiddleware w now next c = next c) ∧
    (c.GetHeader "Authorization" ≠ "" →
      (∀ token, strings.Split (c.GetHeader "Authorization") ' ' ≠ ["Bearer", token]) →
      ∀ next, s.AuthMiddleware w now next c =
          (c.JSON 401 [("error", "Invalid authorization header format")]).Abort ∧
        s.OptionalAuthMiddleware w now next c = next c) ∧
    (∀ token, ' ' ∉ token.data →
      c.GetHeader "Authorization" = "Bearer " ++ token →
      (∀ e, s.ValidateJWT w now token = .error e →
        ∀ next, s.AuthMiddleware w now next c =
            (c.JSON 401 [("error", "Invalid token")]).Abort ∧
          s.OptionalAuthMiddleware w now next c = next c) ∧
      (∀ claims, s.ValidateJWT w now token = .ok claims →
        ∀ next, s.AuthMiddleware w now next c =
            next (((c.Set "user_id" (.int claims.UserID)).Set "user_email"
              (.string claims.Email)).Set "user_name" (.string claims.Name)) ∧
          s.OptionalAuthMiddleware w now next c =
            next (((c.Set "user_id" (.int claims.UserID)).Set "user_email"
              (.string claims.Email)).Set "user_name" (.string claims.Name)))) := by
  refine ⟨?_, ?_, ?_, ?_⟩
  · intro token claims hc hne hv next
    have ht := auth.getTokenFromRequest_cookie s c token hc hne
    exact ⟨auth.Middleware_of_valid w s now c claims (by rw [ht]; exact hne)
        (by rw [ht]; exact hv) next,
      auth.OptionalMiddleware_of_valid w s now c claims (by rw [ht]; exact hne)
        (by rw [ht]; exact hv) next⟩
  · intro hh next
    simp [auth.Service.AuthMiddleware, auth.Service.OptionalAuthMiddleware, hh,
      http.StatusUnauthorized]
  · intro hh hsplit next
    constructor
    · simp only [auth.Service.AuthMiddleware, if_neg hh]
      split
      · rename_i bearer token hs
        by_cases hb : bearer = "Bearer"
        · exact absurd (hb ▸ hs) (hsplit token)
        · simp [hb, http.StatusUnauthorized]
      · rfl
    · simp only [auth.Service.OptionalAuthMiddleware]
      rw [if_pos hh]
      split
      · rename_i bearer token hs
        by_cases hb : bearer = "Bearer"
        · exact absurd (hb ▸ hs) (hsplit token)
        · simp [hb]
      · rfl
  · intro token hsp hh
    have hsplit := strings.Split_bearer token hsp
    have hne1 : "Bearer " ++ token ≠ "" := by
      intro h
      have := congrArg String.data h
      simp at this
    constructor
    · intro e hv next
      simp [auth.Service.AuthMiddleware, auth.Service.OptionalAuthMiddleware, hne1, hh, hsplit,
        hv, http.StatusUnauthorized]
    · intro claims hv next
      simp [auth.Service.AuthMiddleware, auth.Service.OptionalAuthMiddleware, hne1, hh, hsplit,
        hv]

/-! ## Lemmas: reading a profile -/

namespace json

/-- A member that does not address a field leaves the field as it is. -/
theorem userInfoMember_get_of_ne (acc : auth.GoogleUserInfo × Bool) (m : String × Value)
    (field : UserInfoField) (h : userInfoField m.1 ≠ some field) :
    field.get (userInfoMember acc m).1 = field.get acc.1 := by
  simp only [userInfoMember]
  cases hf : userInfoField m.1 with
  | none => rfl
  | some f0 =>
    have hne : f0 ≠ field := fun h0 => h (by rw [hf, h0])
    cases hv : m.2 with
    | string v => cases f0 <;> cases field <;> first | rfl | exact absurd rfl hne
    | _ => rfl

/-- A string member stores its value in the field it addresses. -/
theorem userInfoMember_get_of_eq (acc : auth.GoogleUserInfo × Bool) (k v : String)
    (field : UserInfoField) (h : userInfoField k = some field) :
    field.get (userInfoMember acc (k, .string v)).1 = v := by
  simp only [userInfoMember, h]
  cases field <;> rfl

theorem foldl_userInfoMember_get_of_ne (members : List (String × Value))
    (acc : auth.GoogleUserInfo × Bool) (field : UserInfoField)
    (h : ∀ m ∈ members, userInfoField m.1 ≠ some field) :
    field.get (members.foldl userInfoMember acc).1 = field.get acc.1 := by
  induction members generalizing acc with
  | nil => rfl
  | cons m t ih =>
    simp only [List.foldl_cons]
    rw [ih _ (fun m1 hm1 => h m1 (List.mem_cons_of_mem _ hm1))]
    exact userInfoMember_get_of_ne acc m field (h m (List.mem_cons_self _ _))

/-- A member name addresses the field whose tag it is in lower case. -/
theorem toLower_of_userInfoField (k : String) (field : UserInfoField)
    (h : userInfoField k = some field) :
    lowerASCII k = field.tag := by
  simp only [userInfoField] at h
  split_ifs at h <;> cases h <;> assumption

/-- Members that address the same field have the same name ignoring case. -/
theorem toLower_eq_of_userInfoField (k1 k2 : String) (field : UserInfoField)
    (h1 : userInfoField k1 = some field) (h2 : userInfoField k2 = some field) :
    lowerASCII k1 = lowerASCII k2 := by
  rw [toLower_of_userInfoField k1 field h1, toLower_of_userInfoField k2 field h2]

/-- In an object whose member names are distinct ignoring case, a string member decides the
field it addresses. -/
theorem foldl_userInfoMember_get (members : List (String × Value))
    (acc : auth.GoogleUserInfo × Bool) (field : UserInfoField) (k v : String)
    (hkeys : (members.map (fun m => json.lowerASCII m.1)).Nodup)
    (hmem : (k, Value.string v) ∈ members) (hk : userInfoField k = some field) :
    field.get (members.foldl userInfoMember acc).1 = v := by
  induction members generalizing acc with
  | nil => cases hmem
  | cons m t ih =>
    simp only [List.map_cons, List.nodup_cons] at hkeys
    simp only [List.foldl_cons]
    rcases List.mem_cons.mp hmem with rfl | ht
    · rw [foldl_userInfoMember_get_of_ne t _ field]
      · exact userInfoMember_get_of_eq acc k v field hk
      · intro m1 hm1 hf1
        apply hkeys.1
        have := toLower_eq_of_userInfoField k m1.1 field hk hf1
        simp only [this]
        exact List.mem_map_of_mem (fun m => lowerASCII m.1) hm1
    · exact ih _ hkeys.2 ht

end json

/-- A profile read off an object whose member names are distinct ignoring case carries the
string members id, email, name and picture of the object. -/
theorem UnmarshalUserInfo_fields (readJSON : String → Option json.Value) (body : String)
    (members : List (String × json.Value)) (info : auth.GoogleUserInfo)
    (hread : readJSON body = some (.object members))
    (hok : json.UnmarshalUserInfo readJSON body = .ok info)
    (hkeys : (members.map (fun m => json.lowerASCII m.1)).Nodup) (v : String) :
    ((("id", json.Value.string v) ∈ members → info.ID = v) ∧
     (("email", json.Value.string v) ∈ members → info.Email = v) ∧
     (("name", json.Value.string v) ∈ members → info.Name = v) ∧
     (("picture", json.Value.string v) ∈ members → info.Picture = v)) := by
  simp only [json.UnmarshalUserInfo, hread] at hok
  split at hok
  · cases hok
  · cases hok
    refine ⟨fun h => ?_, fun h => ?_, fun h => ?_, fun h => ?_⟩
    · exact json.foldl_userInfoMember_get members _ .id "id" v hkeys h (by decide)
    · exact json.foldl_userInfoMember_get members _ .email "email" v hkeys h (by decide)
    · exact json.foldl_userInfoMember_get members _ .name "name" v hkeys h (by decide)
    · exact json.foldl_userInfoMember_get members _ .picture "picture" v hkeys h (by decide)

namespace json

/-- The last element of a list with one more element in front. -/
theorem getLast_cons_getD (v : String) (l : List String) (x : String) :
    ((v :: l).getLast?).getD x = (l.getLast?).getD v := by
  cases l with
  | nil => rfl
  | cons a l =>
    rw [List.getLast?_cons_cons]
    cases h : (a :: l).getLast? with
    | none => simp at h
    | some y => rfl

/-- After the members of an object were stored, a field holds the last string member that
addresses it, or what it held before. -/
theorem foldl_userInfoMember_last (members : List (String × Value))
    (acc : auth.GoogleUserInfo × Bool) (field : UserInfoField) :
    field.get (members.foldl userInfoMember acc).1 =
      ((members.filterMap (fun m =>
        if userInfoField m.1 = some field then
          match m.2 with
          | .string v => some v
          | _ => none
        else none)).getLast?).getD (field.get acc.1) := by
  induction members generalizing acc with
  | nil => rfl
  | cons m ms ih =>
    rw [List.foldl_cons, ih]
    by_cases hf : userInfoField m.1 = some field
    · cases hv : m.2 with
      | string v =>
        have hm : m = (m.1, Value.string v) := by rw [← hv]
        rw [List.filterMap_cons]
        simp only [hf, if_true, hv]
        rw [getLast_cons_getD, hm, userInfoMember_get_of_eq acc m.1 v field hf]
      | null =>
        rw [List.filterMap_cons]
        simp only [hf, if_true, hv]
        simp [userInfoMember, hf, hv]
      | bool b =>
        rw [List.filterMap_cons]
        simp only [hf, if_true, hv]
        simp [userInfoMember, hf, hv]
      | number n =>
        rw [List.filterMap_cons]
        simp only [hf, if_true, hv]
        simp [userInfoMember, hf, hv]
      | array xs =>
        rw [List.filterMap_cons]
        simp only [hf, if_true, hv]
        simp [userInfoMember, hf, hv]
      | object fs =>
        rw [List.filterMap_cons]
        simp only [hf, if_true, hv]
        simp [userInfoMember, hf, hv]
    · rw [List.filterMap_cons]
      simp only [hf, if_false]
      rw [userInfoMember_get_of_ne acc m field hf]

end json

/-- A profile read off an object carries, in each field, the last string member of the object
that addresses the field. -/
theorem UnmarshalUserInfo_last (readJSON : String → Option json.Value) (body : String)
    (members : List (String × json.Value)) (info : auth.GoogleUserInfo)
    (hread : readJSON body = some (.object members))
    (hok : json.UnmarshalUserInfo readJSON body = .ok info) (field : json.UserInfoField) :
    field.get info = json.lastString field members := by
  simp only [json.UnmarshalUserInfo, hread] at hok
  split at hok
  · cases hok
  · cases hok
    rw [json.foldl_userInfoMember_last members _ field]
    unfold json.lastString
    cases field <;> rfl

/-- C20 (as amended). Exchange failure modes: `ExchangeCodeForToken` returns an error and no
profile whenever the code-for-token exchange fails, `client.Get` returns no response, the body
cannot be read, or the body cannot be decoded as a profile; in every other case, whatever the
status code of the response, it returns the decoding of the body, and it returns a profile in
no other case. For a body that is a JSON object the ID, Email, Name and Picture of the profile
are the last string members of the object named id, email, name and picture ignoring case
(the empty string when there is none), hence the members id, email, name and picture when no
two member names are equal ignoring case; for the body `null` they are empty. The call sends
the token exchange once and the profile request at most once, and nothing else. -/
theorem auth.exchange_failure_modes (s : auth.Service) (p : oauth2.Provider)
    (readJSON : String → Option json.Value) (code : String) :
    ((∃ e, p.exchange code = .error e) →
      s.ExchangeCodeForToken p readJSON code =
        (.error (.msg "failed to exchange code for token"), [.tokenExchange code])) ∧
    (∀ token, p.exchange code = .ok token → (∃ e, p.get token = .error e) →
      s.ExchangeCodeForToken p readJSON code =
        (.error (.msg "failed to get user info"),
          [.tokenExchange code, .profileRequest token])) ∧
    (∀ token resp, p.exchange code = .ok token → p.get token = .ok resp →
      (∃ e, resp.Body = .error e) →
      s.ExchangeCodeForToken p readJSON code =
        (.error (.msg "failed to read response body"),
          [.tokenExchange code, .profileRequest token])) ∧
    (∀ token resp body, p.exchange code = .ok token → p.get token = .ok resp →
      resp.Body = .ok body → (∃ e, json.UnmarshalUserInfo readJSON body = .error e) →
      s.ExchangeCodeForToken p readJSON code =
        (.error (.msg "failed to unmarshal user info"),
          [.tokenExchange code, .profileRequest token])) ∧
    (∀ token resp body info, p.exchange code = .ok token → p.get token = .ok resp →
      resp.Body = .ok body → json.UnmarshalUserInfo readJSON body = .ok info →
      s.ExchangeCodeForToken p readJSON code =
        (.ok info, [.tokenExchange code, .profileRequest token])) ∧
    (∀ info, (s.ExchangeCodeForToken p readJSON code).1 = .ok info →
      ∃ token resp body, p.exchange code = .ok token ∧ p.get token = .ok resp ∧
        resp.Body = .ok body ∧ json.UnmarshalUserInfo readJSON body = .ok info ∧
        (readJSON body = some .null →
          info = { ID := "", Email := "", Name := "", Picture := "" }) ∧
        ∀ members, readJSON body = some (.object members) →
          (info.ID = json.lastString .id members ∧
            info.Email = json.lastString .email members ∧
            info.Name = json.lastString .name members ∧
            info.Picture = json.lastString .picture members) ∧
          ((members.map (fun m => json.lowerASCII m.1)).Nodup →
            ∀ v, (("id", json.Value.string v) ∈ members → info.ID = v) ∧
              (("email", json.Value.string v) ∈ members → info.Email = v) ∧
              (("name", json.Value.string v) ∈ members → info.Name = v) ∧
              (("picture", json.Value.string v) ∈ members → info.Picture = v))) ∧
    ((s.ExchangeCodeForToken p readJSON code).2 = [.tokenExchange code] ∨
      ∃ token, p.exchange code = .ok token ∧
        (s.ExchangeCodeForToken p readJSON code).2 =
          [.tokenExchange code, .profileRequest token]) := by
  refine ⟨?_, ?_, ?_, ?_, ?_, ?_, ?_⟩
  · rintro ⟨e, he⟩
    simp only [auth.Service.ExchangeCodeForToken, he]
  · rintro token ht ⟨e, he⟩
    simp only [auth.Service.ExchangeCodeForToken, ht, he]
  · rintro token resp ht hg ⟨e, he⟩
    simp only [auth.Service.ExchangeCodeForToken, ht, hg, he]
  · rintro token resp body ht hg hb ⟨e, he⟩
    simp only [auth.Service.ExchangeCodeForToken, ht, hg, hb, he]
  · rintro token resp body info ht hg hb hu
    simp only [auth.Service.ExchangeCodeForToken, ht, hg, hb, hu]
  · intro info hok
    cases ht : p.exchange code with
    | error e => simp [auth.Service.ExchangeCodeForToken, ht] at hok
    | ok token =>
      cases hg : p.get token with
      | error e => simp [auth.Service.ExchangeCodeForToken, ht, hg] at hok
      | ok resp =>
        cases hb : resp.Body with
        | error e => simp [auth.Service.ExchangeCodeForToken, ht, hg, hb] at hok
        | ok body =>
          cases hu : json.UnmarshalUserInfo readJSON body with
          | error e => simp [auth.Service.ExchangeCodeForToken, ht, hg, hb, hu] at hok
          | ok info1 =>
            simp only [auth.Service.ExchangeCodeForToken, ht, hg, hb, hu,
              Except.ok.injEq] at hok
            subst hok
            refine ⟨token, resp, body, rfl, hg, hb, hu, ?_, ?_⟩
            · intro hnull
              simp only [json.UnmarshalUserInfo, hnull, Except.ok.injEq] at hu
              exact hu.symm
            · intro members hread
              exact ⟨⟨UnmarshalUserInfo_last readJSON body members info1 hread hu .id,
                  UnmarshalUserInfo_last readJSON body members info1 hread hu .email,
                  UnmarshalUserInfo_last readJSON body members info1 hread hu .name,
                  UnmarshalUserInfo_last readJSON body members info1 hread hu .picture⟩,
                fun hkeys v =>
                  UnmarshalUserInfo_fields readJSON body members info1 hread hu hkeys v⟩
  · cases ht : p.exchange code with
    | error e =>
      left
      simp only [auth.Service.ExchangeCodeForToken, ht]
    | ok token =>
      right
      refine ⟨token, rfl, ?_⟩
      simp only [auth.Service.ExchangeCodeForToken, ht]
      split
      · rfl
      · split
        · rfl
        · split <;> rfl

/-- Counterexample to C20 as stated: the provider refuses the profile request with the status
401 and an error object as body; `ExchangeCodeForToken` does not look at the status, decodes
the body and returns a profile with four empty fields and no error. And for the body with the
members id "a" and ID "b" the profile's ID is "b", not the member id of the body. -/
theorem auth.exchange_returns_profile_on_error_status :
    Sample.providerDenied.get "at" = .ok { StatusCode := 401, Body := .ok "denied" } ∧
    Sample.service.ExchangeCodeForToken Sample.providerDenied Sample.readJSONDenied "code" =
      (.ok { ID := "", Email := "", Name := "", Picture := "" },
        [.tokenExchange "code", .profileRequest "at"]) ∧
    Sample.service.ExchangeCodeForToken Sample.providerDenied Sample.readJSONDenied "code2" =
      (.ok { ID := "b", Email := "", Name := "", Picture := "" },
        [.tokenExchange "code2", .profileRequest "at2"]) := by
  refine ⟨by decide, by decide, by decide⟩

namespace time

/-- The seconds of a whole number of seconds, converted to an integer, are that number. -/
theorem toInt_Seconds_whole (n : Int) (h : n.natAbs < 2 ^ 53) :
    (Seconds (n * Second)).toInt = n := by
  have h1 : Int.tdiv (n * Second) Second = n := Int.mul_tdiv_cancel n (by decide)
  have h2 : Int.tmod (n * Second) Second = 0 := Int.mul_tmod_left n Second
  have h0 : Float64.ofInt 0 = { mant := 0, exp := 0 } := by decide
  have hadd : Float64.add { mant := n, exp := 0 } { mant := 0, exp := 0 } =
      { mant := n, exp := 0 } := by
    simp [Float64.add, Float64.scale, Float64.ofInt_of_lt n h]
  unfold Seconds
  rw [h1, h2, h0, Float64.ofInt_of_lt n h]
  have hdiv : Float64.div { mant := 0, exp := 0 } (Float64.ofInt 1000000000) =
      { mant := 0, exp := 0 } := by
    simp [Float64.div]
  rw [hdiv, hadd]
  have ht : ({ mant := n, exp := 0 } : Float64).trunc = n := by simp [Float64.trunc]
  have hn : (2 : Nat) ^ 53 = 9007199254740992 := by norm_num
  unfold Float64.toInt
  rw [ht, if_pos (by omega)]

end time

/-- C15 (as amended). Successful login response: for every callback request with a non-empty
code for which the code exchange and `CreateOrUpdateUser` succeed, `GenerateJWT` succeeds and
`GoogleCallback` sets the cookie auth_token with path "/", empty domain, HttpOnly set, Secure
unset and max-age `int(lifetime.Seconds())`, and redirects with 302 to /dashboard, and does
nothing else to the response; that max-age is the configured lifetime in seconds when the
lifetime is a whole number of seconds; and when the ID of the user returned by
`CreateOrUpdateUser` is at most 2^53 in absolute value (the expiry second within 2^53 of the
epoch, the serialisation reading back what it wrote), the cookie value passes `ValidateJWT` at
every time before the token's expiry second and yields the ID, Email and Name of that user. -/
theorem handlers.login_success (h : handlers.AuthHandler) (w : jwt.Wire)
    (p : oauth2.Provider) (readJSON : String → Option json.Value) (db db1 : sql.DB)
    (f : sql.Faults) (clock : handlers.Clock) (code : String) (info : auth.GoogleUserInfo)
    (requests : List oauth2.Request) (user : auth.User)
    (hcode : code ≠ "")
    (hexchange : h.authSvc.ExchangeCodeForToken p readJSON code = (.ok info, requests))
    (hresolve : h.authSvc.CreateOrUpdateUser db f clock.dbNow clock.now1 clock.now2 info =
      (db1, .ok user)) :
    ∃ token, h.authSvc.GenerateJWT w clock.now3 clock.now4 user = .ok token ∧
      h.GoogleCallback w p readJSON db f clock code =
        { effects := [.SetCookie "auth_token" token (time.Seconds h.JWTExpiresIn).toInt "/" ""
                        false true,
                      .Redirect 302 "/dashboard"],
          db := db1,
          steps := [.ExchangeCodeForToken, .CreateOrUpdateUser, .GenerateJWT],
          requests := requests } ∧
      (∀ n : Int, h.JWTExpiresIn = n * time.Second → n.natAbs < 2 ^ 53 →
        (time.Seconds h.JWTExpiresIn).toInt = n) ∧
      (user.ID.natAbs ≤ 2 ^ 53 →
        (auth.unixSeconds (clock.now3 + h.authSvc.jwtExpiresIn)).natAbs ≤ 2 ^ 53 →
        w.ReadsBack auth.hs256Header (h.authSvc.issuedClaims clock.now3 clock.now4 user)
          (w.hmac .SHA256 h.authSvc.jwtSecret
            (w.signingString auth.hs256Header
              (h.authSvc.issuedClaims clock.now3 clock.now4 user))) →
        ∀ now, now < auth.unixSeconds (clock.now3 + h.authSvc.jwtExpiresIn) * time.Second →
          h.authSvc.ValidateJWT w now token =
            .ok { UserID := user.ID, Email := user.Email, Name := user.Name }) := by
  refine ⟨_, auth.GenerateJWT_eq w h.authSvc clock.now3 clock.now4 user, ?_, ?_, ?_⟩
  · simp only [handlers.AuthHandler.GoogleCallback, if_neg hcode, hexchange, hresolve,
      auth.GenerateJWT_eq]
    rfl
  · intro n hn hlt
    rw [hn]
    exact time.toInt_Seconds_whole n hlt
  · intro hid hexp hw now hnow
    rw [auth.ValidateJWT_issued w h.authSvc clock.now3 clock.now4 now user hexp hw,
      if_pos (Or.inr hnow), Float64.toInt_ofInt _ hid]

/-- Witness of C15: the callback with the code "code" creates the row of carol, sets the
cookie with max-age 3600, the lifetime of one hour, and redirects; the cookie value validates
to carol one second later. -/
theorem handlers.login_success_witness :
    ∃ token, Sample.service.GenerateJWT (Sample.wireFor Sample.t0 (Sample.carolUser 9))
        Sample.t0 Sample.t0 (Sample.carolUser 9) = .ok token ∧
      Sample.handler.GoogleCallback (Sample.wireFor Sample.t0 (Sample.carolUser 9))
          Sample.provider Sample.readJSON Sample.db sql.noFaults Sample.clock "code" =
        { effects := [.SetCookie "auth_token" token 3600 "/" "" false true,
                      .Redirect 302 "/dashboard"],
          db := Sample.dbCarol 100,
          steps := [.ExchangeCodeForToken, .CreateOrUpdateUser, .GenerateJWT],
          requests := [.tokenExchange "code", .profileRequest "at"] } ∧
      (time.Seconds Sample.handler.JWTExpiresIn).toInt = 3600 ∧
      Sample.service.ValidateJWT (Sample.wireFor Sample.t0 (Sample.carolUser 9))
          (Sample.t0 + time.Second) token =
        .ok { UserID := 9, Email := "carol@example.com", Name := "Carol" } := by
  obtain ⟨token, hgen, hcallback, hwhole, hvalid⟩ :=
    handlers.login_success Sample.handler (Sample.wireFor Sample.t0 (Sample.carolUser 9))
      Sample.provider Sample.readJSON Sample.db (Sample.dbCarol 100) sql.noFaults Sample.clock
      "code" Sample.carolInfo [.tokenExchange "code", .profileRequest "at"]
      (Sample.carolUser 9) (by decide) (by decide) (by decide)
  refine ⟨token, hgen, ?_, hwhole 3600 (by decide) (by decide),
    hvalid (by decide) (by decide) (by rfl) (Sample.t0 + time.Second) (by decide)⟩
  rw [hcallback, hwhole 3600 (by decide) (by decide)]

/-- Counterexample to C15 as stated: on a table whose counter stands at 2^53 the callback
creates the user with ID 2^53 + 1, sets the cookie and redirects, and the cookie value passes
`ValidateJWT` but yields the ID 2^53, not the ID of the user. The max-age is the rounded sum
of float64 and not always the lifetime cut to whole seconds: the lifetime
16777216.999999999 s, which has 16777216 whole seconds, gives the max-age 16777217. -/
theorem handlers.login_cookie_loses_large_id :
    Sample.service.CreateOrUpdateUser Sample.dbBig sql.noFaults 100 101 102 Sample.carolInfo =
      ({ users := [{ ID := 9007199254740993, GoogleID := "g-9", Email := "carol@example.com",
                     Name := "Carol", Picture := "c.png", CreatedAt := 100,
                     UpdatedAt := 100 }],
         seq := 9007199254740993 },
       .ok (Sample.carolUser 9007199254740993)) ∧
    (Sample.handler.GoogleCallback
        (Sample.wireFor Sample.t0 (Sample.carolUser 9007199254740993))
        Sample.provider Sample.readJSON Sample.dbBig sql.noFaults Sample.clock "code").effects =
      [.SetCookie "auth_token" "h.c.mac(k,h.c)" 3600 "/" "" false true,
       .Redirect 302 "/dashboard"] ∧
    (Sample.wireFor Sample.t0 (Sample.carolUser 9007199254740993)).ReadsBack auth.hs256Header
      (Sample.service.issuedClaims Sample.t0 Sample.t0 (Sample.carolUser 9007199254740993))
      "mac(k,h.c)" ∧
    Sample.service.ValidateJWT (Sample.wireFor Sample.t0 (Sample.carolUser 9007199254740993))
        (Sample.t0 + time.Second) "h.c.mac(k,h.c)" =
      .ok { UserID := 9007199254740992, Email := "carol@example.com", Name := "Carol" } ∧
    Int.tdiv Sample.handlerLong.JWTExpiresIn time.Second = 16777216 ∧
    (Sample.handlerLong.GoogleCallback (Sample.wireFor Sample.t0 (Sample.carolUser 9))
        Sample.provider Sample.readJSON Sample.db sql.noFaults Sample.clock "code").effects =
      [.SetCookie "auth_token" "h.c.mac(k,h.c)" 16777217 "/" "" false true,
       .Redirect 302 "/dashboard"] :=
  ⟨by decide, by decide, by rfl, by decide, by decide, by decide⟩

/-- C16. Failed login is surfaced: for every callback request, when the code is empty
`GoogleCallback` answers 400 and calls no collaborator; when the code exchange,
`CreateOrUpdateUser` or `GenerateJWT` returns an error it answers 500, having called the steps
up to the failing one and none after it; in all these cases the one JSON answer is all it does
to the response (no cookie, no redirect); in every run each of the three steps is called at
most once, in the order exchange, resolve, issue; and a cookie or redirect appears only when
all three succeeded. -/
theorem handlers.login_failure (h : handlers.AuthHandler) (w : jwt.Wire)
    (p : oauth2.Provider) (readJSON : String → Option json.Value) (db : sql.DB)
    (f : sql.Faults) (clock : handlers.Clock) (code : String) :
    (code = "" →
      h.GoogleCallback w p readJSON db f clock code =
        { effects := [.JSON 400 [("error", "Authorization code not provided")]],
          db := db, steps := [], requests := [] }) ∧
    (code ≠ "" → ∀ e requests,
      h.authSvc.ExchangeCodeForToken p readJSON code = (.error e, requests) →
      h.GoogleCallback w p readJSON db f clock code =
        { effects := [.JSON 500 [("error", "Failed to get user info")]],
          db := db, steps := [.ExchangeCodeForToken], requests := requests }) ∧
    (code ≠ "" → ∀ info requests db1 e,
      h.authSvc.ExchangeCodeForToken p readJSON code = (.ok info, requests) →
      h.authSvc.CreateOrUpdateUser db f clock.dbNow clock.now1 clock.now2 info =
        (db1, .error e) →
      h.GoogleCallback w p readJSON db f clock code =
        { effects := [.JSON 500 [("error", "Failed to create/update user")]],
          db := db1, steps := [.ExchangeCodeForToken, .CreateOrUpdateUser],
          requests := requests }) ∧
    (code ≠ "" → ∀ info requests db1 user e,
      h.authSvc.ExchangeCodeForToken p readJSON code = (.ok info, requests) →
      h.authSvc.CreateOrUpdateUser db f clock.dbNow clock.now1 clock.now2 info =
        (db1, .ok user) →
      h.authSvc.GenerateJWT w clock.now3 clock.now4 user = .error e →
      h.GoogleCallback w p readJSON db f clock code =
        { effects := [.JSON 500 [("error", "Failed to generate token")]],
          db := db1, steps := [.ExchangeCodeForToken, .CreateOrUpdateUser, .GenerateJWT],
          requests := requests }) ∧
    ((h.GoogleCallback w p readJSON db f clock code).steps.Nodup ∧
      (h.GoogleCallback w p readJSON db f clock code).steps <+:
        [.ExchangeCodeForToken, .CreateOrUpdateUser, .GenerateJWT]) ∧
    ((∃ status obj, (h.GoogleCallback w p readJSON db f clock code).effects =
        [.JSON status obj]) ∨
      (code ≠ "" ∧ ∃ info requests db1 user token,
        h.authSvc.ExchangeCodeForToken p readJSON code = (.ok info, requests) ∧
        h.authSvc.CreateOrUpdateUser db f clock.dbNow clock.now1 clock.now2 info =
          (db1, .ok user) ∧
        h.authSvc.GenerateJWT w clock.now3 clock.now4 user = .ok token)) := by
  refine ⟨?_, ?_, ?_, ?_, ?_, ?_⟩
  · intro hc
    simp only [handlers.AuthHandler.GoogleCallback, if_pos hc]
    rfl
  · intro hc e requests hex
    simp only [handlers.AuthHandler.GoogleCallback, if_neg hc, hex]
    rfl
  · intro hc info requests db1 e hex hres
    simp only [handlers.AuthHandler.GoogleCallback, if_neg hc, hex, hres]
    rfl
  · intro hc info requests db1 user e hex hres hgen
    simp only [handlers.AuthHandler.GoogleCallback, if_neg hc, hex, hres, hgen]
    rfl
  · simp only [handlers.AuthHandler.GoogleCallback]
    split
    · exact ⟨List.nodup_nil, List.nil_prefix⟩
    · split
      · exact ⟨by simp, by simp⟩
      · split
        · exact ⟨by simp, by simp⟩
        · split <;> exact ⟨by simp, by simp⟩
  · by_cases hc : code = ""
    · left
      exact ⟨400, [("error", "Authorization code not provided")], by
        simp only [handlers.AuthHandler.GoogleCallback, if_pos hc]; rfl⟩
    · rcases hex : h.authSvc.ExchangeCodeForToken p readJSON code with ⟨r, requests⟩
      cases r with
      | error e =>
        left
        exact ⟨500, [("error", "Failed to get user info")], by
          simp only [handlers.AuthHandler.GoogleCallback, if_neg hc, hex]; rfl⟩
      | ok info =>
        rcases hres : h.authSvc.CreateOrUpdateUser db f clock.dbNow clock.now1 clock.now2 info
          with ⟨db1, r1⟩
        cases r1 with
        | error e =>
          left
          exact ⟨500, [("error", "Failed to create/update user")], by
            simp only [handlers.AuthHandler.GoogleCallback, if_neg hc, hex, hres]; rfl⟩
        | ok user =>
          right
          exact ⟨hc, info, requests, db1, user, _, rfl, hres,
            auth.GenerateJWT_eq w h.authSvc clock.now3 clock.now4 user⟩

/-- C18 (as amended). Tamper detection: for every token `GenerateJWT` returns and every string
that the parser does not read at all, or reads with the issued signature and a signing text
whose keyed hash under the secret is not that signature (no collision), or reads with the
issued signing text and header and a signature other than the issued one, `ValidateJWT`
returns an error and no claims, at every time. A change that leaves signing text and decoded
signature as they were is not covered. -/
theorem auth.tamper_detection (w : jwt.Wire) (s : auth.Service) (now1 now2 now : Int)
    (user : auth.User) (altered : String)
    (hcases : w.decode altered = none ∨
      ∃ parts, w.decode altered = some parts ∧
        ((parts.signature =
            some (w.hmac .SHA256 s.jwtSecret
              (w.signingString auth.hs256Header (s.issuedClaims now1 now2 user))) ∧
          ∀ h, w.hmac h s.jwtSecret parts.signingString ≠
            w.hmac .SHA256 s.jwtSecret
              (w.signingString auth.hs256Header (s.issuedClaims now1 now2 user))) ∨
         (parts.signingString =
            w.signingString auth.hs256Header (s.issuedClaims now1 now2 user) ∧
          parts.header = json.decodedMap auth.hs256Header ∧
          parts.signature ≠
            some (w.hmac .SHA256 s.jwtSecret
              (w.signingString auth.hs256Header (s.issuedClaims now1 now2 user)))))) :
    ∃ token, s.GenerateJWT w now1 now2 user = .ok token ∧
      ∃ e, s.ValidateJWT w now altered = .error e := by
  refine ⟨_, auth.GenerateJWT_eq w s now1 now2 user, ?_⟩
  cases hv : s.ValidateJWT w now altered with
  | error e => exact ⟨e, rfl⟩
  | ok claims =>
    exfalso
    simp only [auth.Service.ValidateJWT] at hv
    cases hp : jwt.Parse w now altered s.keyFunc with
    | error e => simp [hp] at hv
    | ok token =>
      clear hv
      rcases hcases with hnone | ⟨parts, hdec, hcase⟩
      · simp [jwt.Parse, jwt.ParseUnverified, hnone] at hp
      · simp only [jwt.Parse, jwt.ParseUnverified, hdec] at hp
        split at hp
        · cases hp
        · rename_i tok parts1 heq
          split at heq
          · rename_i alg halg
            split at heq
            · cases heq
            · rename_i method hmethod
              simp only [Except.ok.injEq, Prod.mk.injEq] at heq
              obtain ⟨htok, hparts⟩ := heq
              subst htok; subst hparts
              split at hp
              · cases hp
              · rename_i sig hsig
                split at hp
                · cases hp
                · rename_i key hkey
                  have hkeyeq : key = s.jwtSecret ∧ ∃ h, method = .HMAC h := by
                    simp only [auth.Service.keyFunc] at hkey
                    cases method with
                    | HMAC h =>
                      simp [jwt.SigningMethod.isHMAC] at hkey
                      exact ⟨hkey.symm, h, rfl⟩
                    | _ => simp [jwt.SigningMethod.isHMAC] at hkey
                  obtain ⟨hk, h, hm⟩ := hkeyeq
                  subst hk; subst hm
                  split at hp
                  · cases hp
                  · rename_i hver
                    simp only [jwt.SigningMethod.Verify] at hver
                    split at hver
                    · rename_i hmac_eq
                      rcases hcase with ⟨hsame, hnocoll⟩ | ⟨htext, hheader, hdiff⟩
                      · rw [hsame] at hsig
                        cases hsig
                        exact hnocoll h hmac_eq
                      · rw [hheader] at halg
                        rw [auth.lookup_alg_hs256] at halg
                        cases halg
                        rw [auth.GetSigningMethod_hs256] at hmethod
                        cases hmethod
                        apply hdiff
                        rw [hsig, ← hmac_eq, htext]
                    · cases hver
          · cases heq

/-- Witness of C18: the string read with another signing text and the issued signature is
rejected. -/
theorem auth.tamper_detection_witness :
    ∃ token, Sample.service.GenerateJWT Sample.wireTampered Sample.t0 Sample.t0 Sample.alice =
        .ok token ∧
      ∃ e, Sample.service.ValidateJWT Sample.wireTampered (Sample.t0 + time.Second)
        "h.x.mac(k,h.c)" = .error e :=
  auth.tamper_detection Sample.wireTampered Sample.service Sample.t0 Sample.t0
    (Sample.t0 + time.Second) Sample.alice "h.x.mac(k,h.c)"
    (Or.inr ⟨{ header := json.decodedMap auth.hs256Header,
               claims := json.decodedMap (Sample.service.issuedClaims Sample.t0 Sample.t0
                 Sample.bob),
               signingString := "h.x",
               signature := some "mac(k,h.c)" }, by rfl,
      Or.inl ⟨by rfl, by intro h; cases h <;> decide⟩⟩)

/-- Counterexample to C18 as stated: with the compact serialisation, whose signature segment
is base64url decoded without the check of the unused low bits, the token issued for alice and
the string that differs from it in the last character only (4 replaced by 5) both pass
`ValidateJWT` and yield the claims of alice. -/
theorem auth.tampered_last_character_accepted :
    Sample.service.GenerateJWT Sample.compactWire Sample.t0 Sample.t0 Sample.alice =
      .ok "h.c.azpoLmMuLi4uLi4uLi4uLi4uLi4uLi4uLi4uLi4uLi4" ∧
    Sample.compactWire.ReadsBack auth.hs256Header
      (Sample.service.issuedClaims Sample.t0 Sample.t0 Sample.alice)
      (Sample.mac32 "k" "h.c") ∧
    "h.c.azpoLmMuLi4uLi4uLi4uLi4uLi4uLi4uLi4uLi4uLi5".length =
      "h.c.azpoLmMuLi4uLi4uLi4uLi4uLi4uLi4uLi4uLi4uLi4".length ∧
    ((List.zip "h.c.azpoLmMuLi4uLi4uLi4uLi4uLi4uLi4uLi4uLi4uLi5".data
        "h.c.azpoLmMuLi4uLi4uLi4uLi4uLi4uLi4uLi4uLi4uLi4".data).filter
      (fun cc => cc.1 ≠ cc.2)).length = 1 ∧
    Sample.service.ValidateJWT Sample.compactWire (Sample.t0 + time.Second)
        "h.c.azpoLmMuLi4uLi4uLi4uLi4uLi4uLi4uLi4uLi4uLi5" =
      .ok { UserID := 7, Email := "alice@example.com", Name := "Alice" } :=
  ⟨by decide, by rfl, by decide, by decide, by decide⟩

/-! ## Lemmas: interleavings -/

namespace auth

/-- A call that runs on its own, its two storage statements one after the other, is
`CreateOrUpdateUser`. -/
theorem advance_alone (s : Service) (info : GoogleUserInfo) (t : Tick) (db : sql.DB) :
    s.advance info t (s.advance info t db .start).1 (s.advance info t db .start).2 =
      ((s.CreateOrUpdateUser db t.faults t.dbNow t.now1 t.now2 info).1,
        .finished (s.CreateOrUpdateUser db t.faults t.dbNow t.now1 t.now2 info).2) := by
  cases hq : db.queryUser t.faults info.ID info.Email with
  | error e =>
    by_cases he : e = .errNoRows
    · subst he
      cases hi : db.insertUser t.faults t.dbNow info.ID info.Email info.Name info.Picture with
      | error e1 => simp [Service.advance, Service.CreateOrUpdateUser, hq, hi]
      | ok r =>
        obtain ⟨db1, id⟩ := r
        cases hl : t.faults.lastInsertId <;>
          simp [Service.advance, Service.CreateOrUpdateUser, hq, hi, hl]
    · cases e <;>
        first
          | exact absurd rfl he
          | simp [Service.advance, Service.CreateOrUpdateUser, hq]
  | ok user =>
    cases hu : db.updateUser t.faults t.dbNow info.Name info.Picture user.ID <;>
      simp [Service.advance, Service.CreateOrUpdateUser, hq, hu]

theorem NoRow_find (db : sql.DB) (info : GoogleUserInfo) (h : NoRow db info) :
    db.users.find? (fun r => r.GoogleID == info.ID || r.Email == info.Email) = none := by
  rw [List.find?_eq_none]
  intro r hr
  have := h r hr
  simp [this.1, this.2]

theorem OneRow_find (db : sql.DB) (info : GoogleUserInfo) (h : OneRow db info) :
    ∃ row, db.users.find? (fun r => r.GoogleID == info.ID || r.Email == info.Email)
      = some row := by
  obtain ⟨pre, row, hu, _, hg, _⟩ := h
  have hsome : (db.users.find?
      (fun r => r.GoogleID == info.ID || r.Email == info.Email)).isSome = true := by
    rw [List.find?_isSome]
    exact ⟨row, by rw [hu]; simp, by simp [hg]⟩
  exact Option.isSome_iff_exists.mp hsome

theorem OneRow_any (db : sql.DB) (info : GoogleUserInfo) (h : OneRow db info) :
    db.users.any (fun r => r.GoogleID == info.ID || r.Email == info.Email) = true := by
  obtain ⟨pre, row, hu, _, hg, _⟩ := h
  rw [List.any_eq_true]
  exact ⟨row, by rw [hu]; simp, by simp [hg]⟩

theorem OneRow_map (db : sql.DB) (info : GoogleUserInfo) (g : User → User) (seq : Int)
    (h : OneRow db info) (hg : ∀ r, (g r).GoogleID = r.GoogleID)
    (he : ∀ r, (g r).Email = r.Email) :
    OneRow { users := db.users.map g, seq := seq } info := by
  obtain ⟨pre, row, hu, hpre, hrg, hre⟩ := h
  refine ⟨pre.map g, g row, by simp [hu], ?_, by rw [hg, hrg], by rw [he, hre]⟩
  intro r hr
  obtain ⟨r0, hr0, rfl⟩ := List.mem_map.mp hr
  rw [hg, he]
  exact hpre r0 hr0

theorem countGoogleID_NoRow (db : sql.DB) (info : GoogleUserInfo) (h : NoRow db info) :
    countGoogleID db info.ID = 0 := by
  simp only [countGoogleID, List.length_eq_zero, List.filter_eq_nil_iff]
  intro r hr
  simp [(h r hr).1]

theorem countGoogleID_OneRow (db : sql.DB) (info : GoogleUserInfo) (h : OneRow db info) :
    countGoogleID db info.ID = 1 := by
  obtain ⟨pre, row, hu, hpre, hrg, _⟩ := h
  have h0 : pre.filter (fun r => decide (r.GoogleID = info.ID)) = [] := by
    rw [List.filter_eq_nil_iff]
    intro r hr
    simp [(hpre r hr).1]
  simp [countGoogleID, hu, List.filter_append, h0, hrg]

end auth

namespace auth

/-- One storage statement keeps the invariant, as far as the database and the call that
executes it are concerned. -/
theorem advance_Consistent (s : Service) (info : GoogleUserInfo) (t : Tick) (db : sql.DB)
    (p : Progress) (hf : t.faults = sql.noFaults)
    (hdb : NoRow db info ∨ OneRow db info) (hp : p.pastLookup = true → OneRow db info) :
    (NoRow (s.advance info t db p).1 info ∨ OneRow (s.advance info t db p).1 info) ∧
    ((s.advance info t db p).2.pastLookup = true → OneRow (s.advance info t db p).1 info) ∧
    (OneRow db info → OneRow (s.advance info t db p).1 info) := by
  have hq : t.faults.query = none := by rw [hf]; rfl
  have hi : t.faults.insert = none := by rw [hf]; rfl
  have hl : t.faults.lastInsertId = none := by rw [hf]; rfl
  have hu : t.faults.update = none := by rw [hf]; rfl
  cases p with
  | start =>
    rcases hdb with hno | hone
    · have hfind := NoRow_find db info hno
      simp [Service.advance, sql.DB.queryUser, hq, hfind, Progress.pastLookup, hno]
    · obtain ⟨row, hfind⟩ := OneRow_find db info hone
      simp [Service.advance, sql.DB.queryUser, hq, hfind, Progress.pastLookup, hone]
  | inserting =>
    rcases hdb with hno | hone
    · have hfind := NoRow_find db info hno
      have hins := insertUser_eq db t.faults t.dbNow info.ID info.Email info.Name info.Picture
        hi hfind
      have hnew : OneRow
          { users := db.users ++ [{ ID := db.nextID, GoogleID := info.ID, Email := info.Email,
                                    Name := info.Name, Picture := info.Picture,
                                    CreatedAt := t.dbNow, UpdatedAt := t.dbNow }],
            seq := db.nextID } info :=
        ⟨db.users, _, rfl, hno, rfl, rfl⟩
      simp [Service.advance, hins, hl, hnew]
    · have hany := OneRow_any db info hone
      simp [Service.advance, sql.DB.insertUser, hi, hany, hone]
  | updating user =>
    have hone := hp rfl
    have hmap : OneRow
        { users := db.users.map (fun r =>
            if r.ID = user.ID then
              { r with Name := info.Name, Picture := info.Picture, UpdatedAt := t.dbNow }
            else r), seq := db.seq } info := by
      apply OneRow_map db info _ db.seq hone
      · intro r; split <;> rfl
      · intro r; split <;> rfl
    simp [Service.advance, sql.DB.updateUser, hu, hmap]
  | finished result =>
    have hone := hp rfl
    simp [Service.advance, hone]

theorem step_Consistent (s : Service) (info : GoogleUserInfo) (st : Concurrent) (t : Tick)
    (hf : t.faults = sql.noFaults) (h : st.Consistent info) :
    (s.step info st t).Consistent info := by
  simp only [Service.step]
  cases hget : st.calls.get? t.call with
  | none => exact h
  | some p =>
    have hpmem : p ∈ st.calls := List.get?_mem hget
    obtain ⟨h1, h2, h3⟩ := advance_Consistent s info t st.db p hf h.1 (h.2 p hpmem)
    refine ⟨h1, ?_⟩
    intro q hq hpast
    rcases List.mem_or_eq_of_mem_set hq with hold | hnew
    · exact h3 (h.2 q hold hpast)
    · subst hnew
      exact h2 hpast

theorem step_length (s : Service) (info : GoogleUserInfo) (st : Concurrent) (t : Tick) :
    (s.step info st t).calls.length = st.calls.length := by
  simp only [Service.step]
  cases hget : st.calls.get? t.call with
  | none => rfl
  | some p => simp

theorem interleave_Consistent (s : Service) (info : GoogleUserInfo) (schedule : List Tick)
    (st : Concurrent) (hf : ∀ t ∈ schedule, t.faults = sql.noFaults)
    (h : st.Consistent info) :
    (s.interleave info st schedule).Consistent info ∧
    (s.interleave info st schedule).calls.length = st.calls.length := by
  induction schedule generalizing st with
  | nil => exact ⟨h, rfl⟩
  | cons t rest ih =>
    simp only [Service.interleave, List.foldl_cons]
    have hstep := step_Consistent s info st t (hf t (List.mem_cons_self _ _)) h
    have := ih (s.step info st t) (fun t1 ht1 => hf t1 (List.mem_cons_of_mem _ ht1)) hstep
    simp only [Service.interleave] at this
    exact ⟨this.1, by rw [this.2, step_length]⟩

end auth

/-- C19. Concurrent resolution: for every N >= 1 and every profile whose google_id and email
are not yet stored, N calls of `CreateOrUpdateUser` with that profile, interleaved in any
order at their storage statements (each statement atomic, no storage failure other than the
rejection of a duplicate), never leave more than one user row for that google_id, and leave
exactly one once all calls have returned. -/
theorem auth.concurrent_resolution (s : auth.Service) (db : sql.DB)
    (info : auth.GoogleUserInfo) (N : Nat) (schedule : List auth.Tick)
    (hN : 1 ≤ N)
    (hnew : ∀ r ∈ db.users, r.GoogleID ≠ info.ID ∧ r.Email ≠ info.Email)
    (hfaults : ∀ t ∈ schedule, t.faults = sql.noFaults) :
    auth.countGoogleID
      (s.interleave info { db := db, calls := List.replicate N .start } schedule).db
      info.ID ≤ 1 ∧
    ((∀ p ∈ (s.interleave info { db := db, calls := List.replicate N .start }
        schedule).calls, p.isFinished = true) →
      auth.countGoogleID
        (s.interleave info { db := db, calls := List.replicate N .start } schedule).db
        info.ID = 1) := by
  have h0 : ({ db := db, calls := List.replicate N .start } : auth.Concurrent).Consistent
      info := by
    refine ⟨Or.inl hnew, ?_⟩
    intro p hp hpast
    rw [List.mem_replicate] at hp
    rw [hp.2] at hpast
    cases hpast
  obtain ⟨hcons, hlen⟩ := auth.interleave_Consistent s info schedule _ hfaults h0
  constructor
  · rcases hcons.1 with hno | hone
    · rw [auth.countGoogleID_NoRow _ info hno]
      exact Nat.zero_le 1
    · rw [auth.countGoogleID_OneRow _ info hone]
  · intro hdone
    have hpos : 0 < (s.interleave info { db := db, calls := List.replicate N .start }
        schedule).calls.length := by
      rw [hlen, List.length_replicate]
      exact hN
    obtain ⟨p, hp⟩ := List.exists_mem_of_length_pos hpos
    have hfin := hdone p hp
    have hpast : p.pastLookup = true := by
      cases p <;> simp_all [auth.Progress.isFinished, auth.Progress.pastLookup]
    exact auth.countGoogleID_OneRow _ info (hcons.2 p hp hpast)

/-- Witness of C19: two logins of carol whose lookups both find no row; the first insert adds
row 9, the second is rejected, and the table ends with one row for her google_id. -/
theorem auth.concurrent_resolution_witness :
    auth.countGoogleID
      (Sample.service.interleave Sample.carolInfo
        { db := Sample.db, calls := List.replicate 2 .start } Sample.schedule).db "g-9" ≤ 1 ∧
    auth.countGoogleID
      (Sample.service.interleave Sample.carolInfo
        { db := Sample.db, calls := List.replicate 2 .start } Sample.schedule).db "g-9" = 1 ∧
    (Sample.service.interleave Sample.carolInfo
      { db := Sample.db, calls := List.replicate 2 .start } Sample.schedule).calls =
      [.finished (.ok { ID := 9, GoogleID := "g-9", Email := "carol@example.com",
                        Name := "Carol", Picture := "c.png", CreatedAt := 121,
                        UpdatedAt := 122 }),
       .finished (.error (.msg "failed to create user"))] :=
  ⟨(auth.concurrent_resolution Sample.service Sample.db Sample.carolInfo 2 Sample.schedule
      (by decide) (by decide) (by decide)).1,
   (auth.concurrent_resolution Sample.service Sample.db Sample.carolInfo 2 Sample.schedule
      (by decide) (by decide) (by decide)).2 (by decide),
   by decide⟩

/-! ## Claims C21 to C23 -/

/-- C23. Configuration validation: `validateConfig` returns no error if and only if the
server port is in 1..65535 and, when `RequireAuth` is true, the JWT secret is neither empty
nor the default "your-secret-key" and both the Google client id and client secret are
non-empty; when `RequireAuth` is false the port alone decides. -/
theorem config.validateConfig_ok_iff (c : config.Config) :
    (config.validateConfig c = none ↔
      (1 ≤ c.Server.Port ∧ c.Server.Port ≤ 65535) ∧
      (c.Auth.RequireAuth = true →
        c.Auth.JWTSecret ≠ "" ∧ c.Auth.JWTSecret ≠ "your-secret-key" ∧
        c.Auth.GoogleClientID ≠ "" ∧ c.Auth.GoogleClientSecret ≠ "")) ∧
    (c.Auth.RequireAuth = false →
      (config.validateConfig c = none ↔ 1 ≤ c.Server.Port ∧ c.Server.Port ≤ 65535)) := by
  have hport : (c.Server.Port ≤ 0 ∨ c.Server.Port > 65535) ↔
      ¬ (1 ≤ c.Server.Port ∧ c.Server.Port ≤ 65535) := by omega
  constructor
  · unfold config.validateConfig
    by_cases hp : c.Server.Port ≤ 0 ∨ c.Server.Port > 65535
    · rw [if_pos hp]
      simp only [reduceCtorEq, false_iff, not_and]
      intro h
      exact absurd h (hport.mp hp)
    · rw [if_neg hp]
      have hp1 : 1 ≤ c.Server.Port ∧ c.Server.Port ≤ 65535 := by omega
      cases hr : c.Auth.RequireAuth
      · simp [hp1]
      · by_cases hs : c.Auth.JWTSecret = "" ∨ c.Auth.JWTSecret = "your-secret-key"
        · simp only [if_true, if_pos hs, reduceCtorEq, false_iff]
          rintro ⟨_, h⟩
          rcases hs with hs | hs
          · exact (h trivial).1 hs
          · exact (h trivial).2.1 hs
        · by_cases hg : c.Auth.GoogleClientID = "" ∨ c.Auth.GoogleClientSecret = ""
          · simp only [if_true, if_neg hs, if_pos hg, reduceCtorEq, false_iff]
            rintro ⟨_, h⟩
            rcases hg with hg | hg
            · exact (h trivial).2.2.1 hg
            · exact (h trivial).2.2.2 hg
          · simp only [if_true, if_neg hs, if_neg hg, true_iff]
            rw [not_or] at hs hg
            exact ⟨hp1, fun _ => ⟨hs.1, hs.2, hg.1, hg.2⟩⟩
  · intro hr
    unfold config.validateConfig
    by_cases hp : c.Server.Port ≤ 0 ∨ c.Server.Port > 65535
    · rw [if_pos hp]
      simp only [reduceCtorEq, false_iff]
      exact hport.mp hp
    · rw [if_neg hp, hr]
      simp only [Bool.false_eq_true, if_false, true_iff]
      omega

namespace auth

/-- The byte length of the seven characters `Bearer `. -/
theorem utf8Len_bearer : String.utf8Len "Bearer ".data = 7 := by decide

/-- The header test of `getTokenFromRequest`, read on the characters of the header: it holds
exactly for the headers made of `Bearer ` and at least one more character. -/
theorem bearer_test_iff (h : String) :
    (h ≠ "" ∧ h.utf8ByteSize > 7 ∧ h.take 7 = "Bearer ") ↔
      ∃ rest : String, rest ≠ "" ∧ h = "Bearer " ++ rest := by
  obtain ⟨l⟩ := h
  rw [String.take_eq, String.utf8ByteSize_mk]
  constructor
  · rintro ⟨_, hlen, htake⟩
    have htake1 : l.take 7 = "Bearer ".data := congrArg String.data htake
    have hl : l = "Bearer ".data ++ l.drop 7 := by
      rw [← htake1, List.take_append_drop]
    refine ⟨⟨l.drop 7⟩, ?_, ?_⟩
    · intro hnil
      have hnil1 : l.drop 7 = [] := congrArg String.data hnil
      rw [hl, String.utf8Len_append, utf8Len_bearer, hnil1] at hlen
      have h0 : String.utf8Len [] = 0 := rfl
      rw [h0] at hlen
      omega
    · apply String.ext
      rw [String.data_append]
      exact hl
  · rintro ⟨rest, hrest, hh⟩
    have hl : l = "Bearer ".data ++ rest.data := by
      rw [← String.data_append, ← hh]
    have hne : rest.data ≠ [] := fun hnil => hrest (String.ext hnil)
    obtain ⟨ch, cs, hcs⟩ := List.exists_cons_of_ne_nil hne
    refine ⟨?_, ?_, ?_⟩
    · intro hnil
      have := congrArg String.data hnil
      rw [hl] at this
      simp at this
    · rw [hl, String.utf8Len_append, utf8Len_bearer, hcs, String.utf8Len_cons]
      have := Char.utf8Size_pos ch
      omega
    · apply String.ext
      rw [hl]
      simp

/-- The same test with the length counted in characters. -/
theorem bearer_test_iff_length (h : String) :
    (h.length > 7 ∧ h.take 7 = "Bearer ") ↔
      ∃ rest : String, rest ≠ "" ∧ h = "Bearer " ++ rest := by
  obtain ⟨l⟩ := h
  rw [String.take_eq]
  constructor
  · rintro ⟨hlen, htake⟩
    have htake1 : l.take 7 = "Bearer ".data := congrArg String.data htake
    have hl : l = "Bearer ".data ++ l.drop 7 := by
      rw [← htake1, List.take_append_drop]
    refine ⟨⟨l.drop 7⟩, ?_, ?_⟩
    · intro hnil
      have hnil1 : l.drop 7 = [] := congrArg String.data hnil
      rw [List.drop_eq_nil_iff] at hnil1
      simp only [String.length] at hlen
      omega
    · apply String.ext
      rw [String.data_append]
      exact hl
  · rintro ⟨rest, hrest, hh⟩
    have hl : l = "Bearer ".data ++ rest.data := by
      rw [← String.data_append, ← hh]
    have hne : rest.data ≠ [] := fun hnil => hrest (String.ext hnil)
    obtain ⟨ch, cs, hcs⟩ := List.exists_cons_of_ne_nil hne
    refine ⟨?_, ?_⟩
    · simp only [String.length]
      rw [hl, hcs]
      simp
    · apply String.ext
      rw [hl]
      simp

/-- The text after `Bearer `. -/
theorem drop_bearer (rest : String) : ("Bearer " ++ rest).drop 7 = rest := by
  rw [String.drop_eq]
  apply String.ext
  simp

end auth

/-- C22. Complete definition of token extraction: `getTokenFromRequest` returns the value of
the auth_token cookie when `c.Cookie` reads it without error and it is not empty; otherwise,
when the Authorization header is longer than 7 characters and begins with `Bearer `, it
returns the header without those 7 characters, which is then not empty; otherwise it returns
the empty string. It returns the empty string exactly when the cookie is absent, unreadable
or empty and the header is not `Bearer ` followed by at least one character. -/
theorem auth.token_extraction (s : auth.Service) (c : gin.Context) :
    (∀ token, c.Cookie "auth_token" = .ok token → token ≠ "" →
      s.getTokenFromRequest c = token) ∧
    ((∀ token, c.Cookie "auth_token" = .ok token → token = "") →
      ((c.GetHeader "Authorization").length > 7 ∧
          (c.GetHeader "Authorization").take 7 = "Bearer " →
        s.getTokenFromRequest c = (c.GetHeader "Authorization").drop 7 ∧
        (c.GetHeader "Authorization").drop 7 ≠ "") ∧
      (¬ ((c.GetHeader "Authorization").length > 7 ∧
          (c.GetHeader "Authorization").take 7 = "Bearer ") →
        s.getTokenFromRequest c = "")) ∧
    (s.getTokenFromRequest c = "" ↔
      (∀ token, c.Cookie "auth_token" = .ok token → token = "") ∧
      ¬ ∃ rest : String, rest ≠ "" ∧ c.GetHeader "Authorization" = "Bearer " ++ rest) := by
  have hhdr : ∀ tok : Except Error String, (∀ token, tok = .ok token → token = "") →
      (match tok with
        | .ok token =>
          if token ≠ "" then token
          else if c.GetHeader "Authorization" ≠ "" ∧
              (c.GetHeader "Authorization").utf8ByteSize > 7 ∧
              (c.GetHeader "Authorization").take 7 = "Bearer " then
            (c.GetHeader "Authorization").drop 7 else ""
        | .error _ =>
          if c.GetHeader "Authorization" ≠ "" ∧
              (c.GetHeader "Authorization").utf8ByteSize > 7 ∧
              (c.GetHeader "Authorization").take 7 = "Bearer " then
            (c.GetHeader "Authorization").drop 7 else "") =
        if c.GetHeader "Authorization" ≠ "" ∧
              (c.GetHeader "Authorization").utf8ByteSize > 7 ∧
              (c.GetHeader "Authorization").take 7 = "Bearer " then
            (c.GetHeader "Authorization").drop 7 else "" := by
    intro tok htok
    cases tok with
    | error e => rfl
    | ok token => simp [htok token rfl]
  have hunusable : (∀ token, c.Cookie "auth_token" = .ok token → token = "") →
      s.getTokenFromRequest c =
        if c.GetHeader "Authorization" ≠ "" ∧
              (c.GetHeader "Authorization").utf8ByteSize > 7 ∧
              (c.GetHeader "Authorization").take 7 = "Bearer " then
            (c.GetHeader "Authorization").drop 7 else "" := fun h => hhdr _ h
  refine ⟨fun token hc hne => auth.getTokenFromRequest_cookie s c token hc hne, ?_, ?_⟩
  · intro hno
    rw [hunusable hno]
    constructor
    · intro hlen
      obtain ⟨rest, hrest, hh⟩ := (auth.bearer_test_iff_length _).mp hlen
      rw [if_pos ((auth.bearer_test_iff _).mpr ⟨rest, hrest, hh⟩), hh, auth.drop_bearer]
      exact ⟨rfl, hrest⟩
    · intro hlen
      rw [if_neg]
      intro htest
      exact hlen ((auth.bearer_test_iff_length _).mpr ((auth.bearer_test_iff _).mp htest))
  · constructor
    · intro hempty
      have hno : ∀ token, c.Cookie "auth_token" = .ok token → token = "" := by
        intro token hc
        by_contra hne
        rw [auth.getTokenFromRequest_cookie s c token hc hne] at hempty
        exact hne hempty
      refine ⟨hno, ?_⟩
      rintro ⟨rest, hrest, hh⟩
      rw [hunusable hno, if_pos ((auth.bearer_test_iff _).mpr ⟨rest, hrest, hh⟩), hh,
        auth.drop_bearer] at hempty
      exact hrest hempty
    · rintro ⟨hno, hnot⟩
      rw [hunusable hno, if_neg]
      intro htest
      exact hnot ((auth.bearer_test_iff _).mp htest)

/-! ### The authorization URL -/

namespace strings

/-- Every byte of the encoding of a character is below 256. -/
theorem utf8EncodeChar_lt (c : Char) : ∀ b ∈ utf8EncodeChar c, b < 256 := by
  have h := c.valid
  unfold UInt32.isValidChar Nat.isValidChar at h
  have h1 : c.toNat < 1114112 := by
    show c.val.toNat < 1114112
    omega
  intro b hb
  unfold utf8EncodeChar at hb
  split at hb
  · simp only [List.mem_singleton] at hb
    omega
  · split at hb
    · simp only [List.mem_cons, List.mem_singleton, List.not_mem_nil, or_false] at hb
      omega
    · split at hb
      · simp only [List.mem_cons, List.mem_singleton, List.not_mem_nil, or_false] at hb
        omega
      · simp only [List.mem_cons, List.mem_singleton, List.not_mem_nil, or_false] at hb
        omega

/-- Every byte of a Go string is below 256. -/
theorem bytes_lt (s : String) : ∀ b ∈ bytes s, b < 256 := by
  intro b hb
  unfold bytes at hb
  rw [List.mem_flatten] at hb
  obtain ⟨l, hl, hbl⟩ := hb
  rw [List.mem_map] at hl
  obtain ⟨c, _, rfl⟩ := hl
  exact utf8EncodeChar_lt c b hbl

/-- The bytes of a concatenation. -/
theorem bytes_append (s t : String) : bytes (s ++ t) = bytes s ++ bytes t := by
  unfold bytes
  rw [String.data_append, List.map_append, List.flatten_append]

/-- An ASCII character is its own encoding. -/
theorem utf8EncodeChar_ofNat (b : Nat) (h : b < 128) : utf8EncodeChar (Char.ofNat b) = [b] := by
  have hv : b.isValidChar := Or.inl (by omega)
  have hb : (Char.ofNat b).toNat = b := by
    unfold Char.ofNat
    rw [dif_pos hv]
    rfl
  unfold utf8EncodeChar
  rw [hb, if_pos h]

/-- The bytes of an ASCII text are the bytes it was made of. -/
theorem bytes_fromASCII (q : List Nat) (h : ∀ b ∈ q, b < 128) : bytes (fromASCII q) = q := by
  unfold bytes fromASCII
  induction q with
  | nil => rfl
  | cons b q ih =>
    simp only [List.map_cons, List.flatten_cons]
    rw [utf8EncodeChar_ofNat b (h b (List.mem_cons_self b q))]
    have := ih (fun x hx => h x (List.mem_cons_of_mem b hx))
    simp only at this
    rw [this]
    rfl

/-- A text without the separator is not cut. -/
theorem Cut_of_not_mem (sep : Nat) (a : List Nat) (h : sep ∉ a) : Cut sep a = (a, []) := by
  induction a with
  | nil => rfl
  | cons b a ih =>
    have hb : b ≠ sep := fun e => h (e ▸ List.mem_cons_self b a)
    have ha : sep ∉ a := fun e => h (List.mem_cons_of_mem b e)
    simp only [Cut, if_neg hb, ih ha, List.cons]

/-- The cut at the first separator. -/
theorem Cut_append (sep : Nat) (a b : List Nat) (h : sep ∉ a) :
    Cut sep (a ++ sep :: b) = (a, b) := by
  induction a with
  | nil => simp [Cut]
  | cons x a ih =>
    have hx : x ≠ sep := fun e => h (e ▸ List.mem_cons_self x a)
    have ha : sep ∉ a := fun e => h (List.mem_cons_of_mem x e)
    rw [List.cons_append]
    simp only [Cut, if_neg hx]
    rw [ih ha]

/-- A text without the separator is one piece. -/
theorem pieces_of_not_mem (sep : Nat) (a : List Nat) (h : sep ∉ a) : pieces sep a = [a] := by
  induction a with
  | nil => rfl
  | cons b a ih =>
    have hb : b ≠ sep := fun e => h (e ▸ List.mem_cons_self b a)
    have ha : sep ∉ a := fun e => h (List.mem_cons_of_mem b e)
    simp only [pieces, if_neg hb, ih ha]

/-- The first piece ends at the first separator. -/
theorem pieces_append (sep : Nat) (a b : List Nat) (h : sep ∉ a) :
    pieces sep (a ++ sep :: b) = a :: pieces sep b := by
  induction a with
  | nil => simp [pieces]
  | cons x a ih =>
    have hx : x ≠ sep := fun e => h (e ▸ List.mem_cons_self x a)
    have ha : sep ∉ a := fun e => h (List.mem_cons_of_mem x e)
    rw [List.cons_append]
    simp only [pieces, if_neg hx]
    rw [ih ha]

end strings

namespace url

/-- The uppercase digit of a value below 16 is a hexadecimal digit with that value. -/
theorem upperhex_spec (n : Nat) (h : n < 16) :
    ishex (upperhex n) = true ∧ unhex (upperhex n) = n ∧
      ((48 ≤ upperhex n ∧ upperhex n ≤ 57) ∨ (65 ≤ upperhex n ∧ upperhex n ≤ 70)) := by
  unfold ishex unhex upperhex
  by_cases h10 : n < 10
  · simp only [if_pos h10]
    refine ⟨by simp; omega, ?_, by omega⟩
    rw [if_pos (by omega)]
    omega
  · simp only [if_neg h10]
    refine ⟨by simp; omega, ?_, by omega⟩
    rw [if_neg (by omega), if_neg (by omega), if_pos (by omega)]
    omega

/-- A byte that is not escaped is a letter, a digit or one of `-` `_` `.` `~`. -/
theorem shouldEscape_false (c : Nat) (h : shouldEscape c = false) :
    (97 ≤ c ∧ c ≤ 122) ∨ (65 ≤ c ∧ c ≤ 90) ∨ (48 ≤ c ∧ c ≤ 57) ∨
      c = 45 ∨ c = 95 ∨ c = 46 ∨ c = 126 := by
  unfold shouldEscape at h
  by_cases h1 : (97 ≤ c ∧ c ≤ 122) ∨ (65 ≤ c ∧ c ≤ 90) ∨ (48 ≤ c ∧ c ≤ 57)
  · omega
  · rw [if_neg h1] at h
    by_cases h2 : c = 45 ∨ c = 95 ∨ c = 46 ∨ c = 126
    · omega
    · rw [if_neg h2] at h
      exact absurd h (by decide)

/-- The escaped text is ASCII without `#` (35), `&` (38), `;` (59), `=` (61) and `?` (63). -/
theorem QueryEscape_safe (s : List Nat) (hs : ∀ b ∈ s, b < 256) :
    ∀ b ∈ QueryEscape s, b < 128 ∧ b ≠ 35 ∧ b ≠ 38 ∧ b ≠ 59 ∧ b ≠ 61 ∧ b ≠ 63 := by
  induction s with
  | nil =>
    intro b hb
    simp [QueryEscape] at hb
  | cons c s ih =>
    have ih1 := ih (fun x hx => hs x (List.mem_cons_of_mem c hx))
    have hc : c < 256 := hs c (List.mem_cons_self c s)
    intro b hb
    unfold QueryEscape at hb
    by_cases h32 : c = 32
    · rw [if_pos h32, List.mem_cons] at hb
      rcases hb with hb | hb
      · omega
      · exact ih1 b hb
    · rw [if_neg h32] at hb
      cases hesc : shouldEscape c
      · rw [hesc] at hb
        simp only [Bool.false_eq_true, if_false, List.mem_cons] at hb
        rcases hb with hb | hb
        · have := shouldEscape_false c hesc
          omega
        · exact ih1 b hb
      · rw [hesc] at hb
        simp only [if_true, List.mem_cons] at hb
        have h1 := (upperhex_spec (c / 16) (by omega)).2.2
        have h2 := (upperhex_spec (c % 16) (by omega)).2.2
        rcases hb with hb | hb | hb | hb
        · omega
        · omega
        · omega
        · exact ih1 b hb

/-- Unescaping undoes escaping. -/
theorem QueryUnescape_QueryEscape (s : List Nat) (hs : ∀ b ∈ s, b < 256) :
    QueryUnescape (QueryEscape s) = .ok s := by
  induction s with
  | nil => rfl
  | cons c s ih =>
    have ih1 := ih (fun x hx => hs x (List.mem_cons_of_mem c hx))
    have hc : c < 256 := hs c (List.mem_cons_self c s)
    unfold QueryEscape
    by_cases h32 : c = 32
    · rw [if_pos h32]
      unfold QueryUnescape
      rw [if_neg (by decide), ih1, h32]
      rfl
    · rw [if_neg h32]
      cases hesc : shouldEscape c
      · simp only [Bool.false_eq_true, if_false]
        have hplain := shouldEscape_false c hesc
        unfold QueryUnescape
        rw [if_neg (by omega), ih1, if_neg (by omega)]
      · simp only [if_true]
        obtain ⟨h1, h2, _⟩ := upperhex_spec (c / 16) (by omega)
        obtain ⟨h3, h4, _⟩ := upperhex_spec (c % 16) (by omega)
        unfold QueryUnescape
        simp only [if_true, h1, h3, and_self, ih1, h2, h4]
        have : c / 16 * 16 + c % 16 = c := by omega
        rw [this]

end url

namespace url

/-- One written pair is read back as that pair. -/
theorem parsePiece_pair (acc : Values × Option Error) (k x : List Nat)
    (hk : ∀ b ∈ k, b < 256) (hx : ∀ b ∈ x, b < 256) :
    parsePiece acc (QueryEscape k ++ 61 :: QueryEscape x) = (acc.1.Add k x, acc.2) := by
  have hsk := QueryEscape_safe k hk
  have hsx := QueryEscape_safe x hx
  have h59 : 59 ∉ QueryEscape k ++ 61 :: QueryEscape x := by
    intro hmem
    rw [List.mem_append, List.mem_cons] at hmem
    rcases hmem with hmem | hmem | hmem
    · exact (hsk 59 hmem).2.2.2.1 rfl
    · exact absurd hmem (by decide)
    · exact (hsx 59 hmem).2.2.2.1 rfl
  have h61 : 61 ∉ QueryEscape k := fun hmem => (hsk 61 hmem).2.2.2.2.1 rfl
  have hne : QueryEscape k ++ 61 :: QueryEscape x ≠ [] := by simp
  unfold parsePiece
  rw [if_neg h59, if_neg hne, strings.Cut_append 61 _ _ h61]
  simp only [QueryUnescape_QueryEscape k hk, QueryUnescape_QueryEscape x hx]

/-- A written pair has no `&`. -/
theorem pair_no_amp (k x : List Nat) (hk : ∀ b ∈ k, b < 256) (hx : ∀ b ∈ x, b < 256) :
    38 ∉ QueryEscape k ++ 61 :: QueryEscape x := by
  intro hmem
  rw [List.mem_append, List.mem_cons] at hmem
  rcases hmem with hmem | hmem | hmem
  · exact (QueryEscape_safe k hk 38 hmem).2.2.1 rfl
  · exact absurd hmem (by decide)
  · exact (QueryEscape_safe x hx 38 hmem).2.2.1 rfl

/-- The loop of `parseQuery` on the text written for a list of pairs adds the pairs in
their order. -/
theorem foldl_parsePiece_encodePairs (kvs : List (List Nat × List Nat))
    (h : ∀ p ∈ kvs, (∀ b ∈ p.1, b < 256) ∧ (∀ b ∈ p.2, b < 256))
    (acc : Values × Option Error) :
    (strings.pieces 38 (encodePairs kvs)).foldl parsePiece acc =
      (kvs.foldl (fun (v : Values) p => v.Add p.1 p.2) acc.1, acc.2) := by
  induction kvs generalizing acc with
  | nil => simp [encodePairs, strings.pieces, parsePiece]
  | cons p tl ih =>
    obtain ⟨hk, hx⟩ := h p (List.mem_cons_self p tl)
    have htl := fun q hq => h q (List.mem_cons_of_mem p hq)
    cases tl with
    | nil =>
      simp only [encodePairs]
      rw [strings.pieces_of_not_mem 38 _ (pair_no_amp p.1 p.2 hk hx)]
      simp only [List.foldl_cons, List.foldl_nil]
      exact parsePiece_pair acc p.1 p.2 hk hx
    | cons q rest =>
      simp only [encodePairs]
      rw [strings.pieces_append 38 _ _ (pair_no_amp p.1 p.2 hk hx)]
      simp only [List.foldl_cons]
      rw [parsePiece_pair acc p.1 p.2 hk hx, ih htl]
      rfl

/-- The text written for a list of pairs is read back as those pairs, without error. -/
theorem ParseQuery_encodePairs (kvs : List (List Nat × List Nat))
    (h : ∀ p ∈ kvs, (∀ b ∈ p.1, b < 256) ∧ (∀ b ∈ p.2, b < 256)) :
    ParseQuery (encodePairs kvs) = (kvs.foldl (fun (v : Values) p => v.Add p.1 p.2) [], none) :=
  foldl_parsePiece_encodePairs kvs h ([], none)

/-- The text written for a list of pairs is ASCII without `#`. -/
theorem encodePairs_safe (kvs : List (List Nat × List Nat))
    (h : ∀ p ∈ kvs, (∀ b ∈ p.1, b < 256) ∧ (∀ b ∈ p.2, b < 256)) :
    ∀ b ∈ encodePairs kvs, b < 128 ∧ b ≠ 35 := by
  induction kvs with
  | nil =>
    intro b hb
    simp [encodePairs] at hb
  | cons p tl ih =>
    obtain ⟨hk, hx⟩ := h p (List.mem_cons_self p tl)
    have htl := fun q hq => h q (List.mem_cons_of_mem p hq)
    have hpair : ∀ b ∈ QueryEscape p.1 ++ 61 :: QueryEscape p.2, b < 128 ∧ b ≠ 35 := by
      intro b hb
      rw [List.mem_append, List.mem_cons] at hb
      rcases hb with hb | hb | hb
      · exact ⟨(QueryEscape_safe p.1 hk b hb).1, (QueryEscape_safe p.1 hk b hb).2.1⟩
      · omega
      · exact ⟨(QueryEscape_safe p.2 hx b hb).1, (QueryEscape_safe p.2 hx b hb).2.1⟩
    cases tl with
    | nil =>
      simp only [encodePairs]
      exact hpair
    | cons q rest =>
      intro b hb
      simp only [encodePairs] at hb
      rw [List.mem_append, List.mem_cons] at hb
      rcases hb with hb | hb | hb
      · exact hpair b hb
      · omega
      · exact ih htl b hb

/-- The bytes of the authorization endpoint of Google. -/
theorem bytes_EndpointAuthURL :
    strings.bytes google.EndpointAuthURL =
      [104, 116, 116, 112, 115, 58, 47, 47, 97, 99, 99, 111, 117, 110, 116, 115, 46, 103, 111,
       111, 103, 108, 101, 46, 99, 111, 109, 47, 111, 47, 111, 97, 117, 116, 104, 50, 47, 97,
       117, 116, 104] := by
  decide

/-- The query of the endpoint of Google followed by `?` and an ASCII text without `#` is
that text. -/
theorem RawQuery_endpoint (q : List Nat) (hq : ∀ b ∈ q, b < 128 ∧ b ≠ 35) :
    RawQuery (strings.bytes (google.EndpointAuthURL ++ "?" ++ strings.fromASCII q)) = q := by
  have hb : strings.bytes "?" = [63] := by decide
  rw [strings.bytes_append, strings.bytes_append, hb,
    strings.bytes_fromASCII q (fun b hb => (hq b hb).1), bytes_EndpointAuthURL]
  unfold RawQuery
  rw [strings.Cut_of_not_mem 35]
  · simp only [List.append_assoc, List.singleton_append]
    rw [strings.Cut_append 63 _ _ (by decide)]
  · intro hmem
    rw [List.mem_append, List.mem_append] at hmem
    rcases hmem with (hmem | hmem) | hmem
    · exact absurd hmem (by decide)
    · exact absurd hmem (by decide)
    · exact (hq 35 hmem).2 rfl

end url

namespace rand

/-- The slice is filled. -/
theorem Read_length (source : Nat → Nat) (n : Nat) : (Read source n).length = n := by
  simp [Read]

/-- The slice holds bytes. -/
theorem Read_lt (source : Nat → Nat) (n : Nat) : ∀ x ∈ Read source n, x < 256 := by
  intro x hx
  simp only [Read, List.mem_map] at hx
  obtain ⟨i, _, rfl⟩ := hx
  exact Nat.mod_lt _ (by decide)

end rand

namespace fmt

/-- Two digits are written per byte. -/
theorem hex_length (b : List Nat) : (hex b).length = 2 * b.length := by
  unfold hex
  simp only [String.length]
  induction b with
  | nil => rfl
  | cons x b ih =>
    simp only [List.map_cons, List.flatten_cons, List.length_append, List.length_cons,
      List.length_nil, ih]
    omega

/-- The digit of a value below 16 is one of 0-9, a-f. -/
theorem hexDigit_mem (n : Nat) (h : n < 16) : hexDigit n ∈ ldigits := by
  unfold hexDigit
  rw [List.getD_eq_getElem _ _ (by simpa [ldigits] using h)]
  exact List.getElem_mem _

/-- The text of a byte slice is made of the digits 0-9, a-f. -/
theorem hex_digits (b : List Nat) (hb : ∀ x ∈ b, x < 256) :
    ∀ ch ∈ (hex b).data, ch ∈ ldigits := by
  intro ch hch
  simp only [hex, List.mem_flatten, List.mem_map] at hch
  obtain ⟨l, ⟨x, hx, rfl⟩, hl⟩ := hch
  have := hb x hx
  simp only [List.mem_cons, List.mem_singleton, List.not_mem_nil, or_false] at hl
  rcases hl with rfl | rfl
  · exact hexDigit_mem _ (by omega)
  · exact hexDigit_mem _ (by omega)

end fmt

namespace oauth2

/-- The pairs written for the parameters of an authorization request of a configuration
with the two scopes of `NewService`, a state that is not empty and the option
`AccessTypeOffline`. -/
theorem authCodeValues_pairs (c : auth.OAuthConfig) (state : String) (hstate : state ≠ "")
    (hscopes : c.Scopes = ["https://www.googleapis.com/auth/userinfo.email",
                   "https://www.googleapis.com/auth/userinfo.profile"]) :
    (authCodeValues c state [AccessTypeOffline]).pairs =
      if c.RedirectURL ≠ "" then
        [(strings.bytes "access_type", strings.bytes "offline"),
         (strings.bytes "client_id", strings.bytes c.ClientID),
         (strings.bytes "redirect_uri", strings.bytes c.RedirectURL),
         (strings.bytes "response_type", strings.bytes "code"),
         (strings.bytes "scope", strings.bytes (" ".intercalate c.Scopes)),
         (strings.bytes "state", strings.bytes state)]
      else
        [(strings.bytes "access_type", strings.bytes "offline"),
         (strings.bytes "client_id", strings.bytes c.ClientID),
         (strings.bytes "response_type", strings.bytes "code"),
         (strings.bytes "scope", strings.bytes (" ".intercalate c.Scopes)),
         (strings.bytes "state", strings.bytes state)] := by
  have k1 : strings.bytes "response_type" =
      [114, 101, 115, 112, 111, 110, 115, 101, 95, 116, 121, 112, 101] := by decide
  have k2 : strings.bytes "client_id" = [99, 108, 105, 101, 110, 116, 95, 105, 100] := by decide
  have k3 : strings.bytes "redirect_uri" =
      [114, 101, 100, 105, 114, 101, 99, 116, 95, 117, 114, 105] := by decide
  have k4 : strings.bytes "scope" = [115, 99, 111, 112, 101] := by decide
  have k5 : strings.bytes "state" = [115, 116, 97, 116, 101] := by decide
  have k6 : strings.bytes "access_type" =
      [97, 99, 99, 101, 115, 115, 95, 116, 121, 112, 101] := by decide
  by_cases hr : c.RedirectURL = ""
  · simp [authCodeValues, AccessTypeOffline, url.Values.Set, url.Values.pairs, k1, k2, k3, k4,
      k5, k6, url.sortKeys, url.insertKey, url.less, hstate, hr, hscopes, List.lookup]
  · simp [authCodeValues, AccessTypeOffline, url.Values.Set, url.Values.pairs, k1, k2, k3, k4,
      k5, k6, url.sortKeys, url.insertKey, url.less, hstate, hr, hscopes, List.lookup]

end oauth2

namespace oauth2

/-- The parameters read from the URL made of the endpoint of Google and a written list of
pairs are those pairs. -/
theorem Query_endpoint_encodePairs (kvs : List (List Nat × List Nat))
    (h : ∀ p ∈ kvs, (∀ b ∈ p.1, b < 256) ∧ (∀ b ∈ p.2, b < 256)) :
    url.Query (google.EndpointAuthURL ++ "?" ++ strings.fromASCII (url.encodePairs kvs)) =
      (kvs.foldl (fun (v : url.Values) p => v.Add p.1 p.2) [], none) := by
  unfold url.Query
  rw [url.RawQuery_endpoint _ (url.encodePairs_safe kvs h), url.ParseQuery_encodePairs kvs h]

/-- The URL of an authorization request is the endpoint, `?` and the written parameters. -/
theorem AuthCodeURL_endpoint (c : auth.OAuthConfig) (state : String)
    (opts : List AuthCodeOption) :
    AuthCodeURL google.EndpointAuthURL c state opts =
      google.EndpointAuthURL ++ "?" ++
        strings.fromASCII (url.encodePairs (authCodeValues c state opts).pairs) := by
  unfold AuthCodeURL url.Values.Encode
  rw [if_neg (by decide)]

end oauth2

namespace auth

/-- The state is not empty. -/
theorem generateRandomState_ne (s : Service) (source : Nat → Nat) :
    s.generateRandomState source ≠ "" := by
  intro h
  have hl := fmt.hex_length (rand.Read source 32)
  rw [rand.Read_length] at hl
  unfold Service.generateRandomState at h
  rw [h] at hl
  exact absurd hl (by decide)

end auth

/-- C21 (as amended). Authorization URL contents: for every service made by `NewService`,
the URL `GetGoogleAuthURL` returns is the authorization endpoint of Google followed by a
query that is read without error and carries client_id equal to the configured client id,
redirect_uri equal to the configured redirect URL when that is not empty and no redirect_uri
when it is empty, the scope listing the userinfo.email and userinfo.profile scopes, and a
state that is the lowercase hexadecimal text of the 32 bytes read from crypto/rand: 64
characters from 0-9a-f. -/
theorem auth.auth_url_contents (jwtSecret jwtIssuer clientID clientSecret redirectURL : String)
    (jwtExpiresIn : Int) (source : Nat → Nat) :
    (∃ query : String,
      (auth.NewService jwtSecret jwtExpiresIn jwtIssuer clientID clientSecret
        redirectURL).GetGoogleAuthURL source =
          "https://accounts.google.com/o/oauth2/auth?" ++ query) ∧
    (url.Query ((auth.NewService jwtSecret jwtExpiresIn jwtIssuer clientID clientSecret
        redirectURL).GetGoogleAuthURL source)).2 = none ∧
    (url.Query ((auth.NewService jwtSecret jwtExpiresIn jwtIssuer clientID clientSecret
        redirectURL).GetGoogleAuthURL source)).1.lookup (strings.bytes "client_id") =
      some [strings.bytes clientID] ∧
    (redirectURL ≠ "" →
      (url.Query ((auth.NewService jwtSecret jwtExpiresIn jwtIssuer clientID clientSecret
          redirectURL).GetGoogleAuthURL source)).1.lookup (strings.bytes "redirect_uri") =
        some [strings.bytes redirectURL]) ∧
    (redirectURL = "" →
      (url.Query ((auth.NewService jwtSecret jwtExpiresIn jwtIssuer clientID clientSecret
          redirectURL).GetGoogleAuthURL source)).1.Has (strings.bytes "redirect_uri") = false) ∧
    (url.Query ((auth.NewService jwtSecret jwtExpiresIn jwtIssuer clientID clientSecret
        redirectURL).GetGoogleAuthURL source)).1.lookup (strings.bytes "scope") =
      some [strings.bytes ("https://www.googleapis.com/auth/userinfo.email" ++ " " ++
        "https://www.googleapis.com/auth/userinfo.profile")] ∧
    (url.Query ((auth.NewService jwtSecret jwtExpiresIn jwtIssuer clientID clientSecret
        redirectURL).GetGoogleAuthURL source)).1.lookup (strings.bytes "state") =
      some [strings.bytes (fmt.hex (rand.Read source 32))] ∧
    (rand.Read source 32).length = 32 ∧
    (fmt.hex (rand.Read source 32)).length = 64 ∧
    ∀ ch ∈ (fmt.hex (rand.Read source 32)).data, ch ∈ "0123456789abcdef".data := by
  have k1 : strings.bytes "response_type" =
      [114, 101, 115, 112, 111, 110, 115, 101, 95, 116, 121, 112, 101] := by decide
  have k2 : strings.bytes "client_id" = [99, 108, 105, 101, 110, 116, 95, 105, 100] := by decide
  have k3 : strings.bytes "redirect_uri" =
      [114, 101, 100, 105, 114, 101, 99, 116, 95, 117, 114, 105] := by decide
  have k4 : strings.bytes "scope" = [115, 99, 111, 112, 101] := by decide
  have k5 : strings.bytes "state" = [115, 116, 97, 116, 101] := by decide
  have k6 : strings.bytes "access_type" =
      [97, 99, 99, 101, 115, 115, 95, 116, 121, 112, 101] := by decide
  have hurl := oauth2.AuthCodeURL_endpoint
    (auth.NewService jwtSecret jwtExpiresIn jwtIssuer clientID clientSecret
      redirectURL).googleConfig
    (fmt.hex (rand.Read source 32)) [oauth2.AccessTypeOffline]
  have hpairs := oauth2.authCodeValues_pairs
    (auth.NewService jwtSecret jwtExpiresIn jwtIssuer clientID clientSecret
      redirectURL).googleConfig
    (fmt.hex (rand.Read source 32))
    (auth.generateRandomState_ne
      (auth.NewService jwtSecret jwtExpiresIn jwtIssuer clientID clientSecret redirectURL)
      source) rfl
  have hget : (auth.NewService jwtSecret jwtExpiresIn jwtIssuer clientID clientSecret
      redirectURL).GetGoogleAuthURL source =
        google.EndpointAuthURL ++ "?" ++ strings.fromASCII (url.encodePairs
          (oauth2.authCodeValues (auth.NewService jwtSecret jwtExpiresIn jwtIssuer clientID
            clientSecret redirectURL).googleConfig (fmt.hex (rand.Read source 32))
            [oauth2.AccessTypeOffline]).pairs) := hurl
  have hlen : (fmt.hex (rand.Read source 32)).length = 64 := by
    rw [fmt.hex_length, rand.Read_length]
  refine ⟨⟨strings.fromASCII (url.encodePairs
      (oauth2.authCodeValues (auth.NewService jwtSecret jwtExpiresIn jwtIssuer clientID
        clientSecret redirectURL).googleConfig (fmt.hex (rand.Read source 32))
        [oauth2.AccessTypeOffline]).pairs), ?_⟩, ?_⟩
  · rw [hget]
    rfl
  rw [hget, hpairs]
  by_cases hr : redirectURL = ""
  · have hne : ¬ ((auth.NewService jwtSecret jwtExpiresIn jwtIssuer clientID clientSecret
        redirectURL).googleConfig.RedirectURL ≠ "") := by
      simp [auth.NewService, hr]
    rw [if_neg hne, oauth2.Query_endpoint_encodePairs]
    · refine ⟨rfl, ?_, ?_, ?_, ?_, ?_, rand.Read_length source 32, hlen,
        fmt.hex_digits _ (rand.Read_lt source 32)⟩
      · simp [url.Values.Add, k1, k2, k3, k4, k5, k6, List.lookup, auth.NewService]
      · intro h
        exact absurd hr h
      · intro _
        simp [url.Values.Add, url.Values.Has, k1, k2, k3, k4, k5, k6, List.lookup]
      · simp [url.Values.Add, k1, k2, k3, k4, k5, k6, List.lookup, auth.NewService,
          String.intercalate, String.intercalate.go]
      · simp [url.Values.Add, k1, k2, k3, k4, k5, k6, List.lookup]
    · intro p hp
      simp only [List.mem_cons, List.mem_singleton, List.not_mem_nil, or_false] at hp
      rcases hp with rfl | rfl | rfl | rfl | rfl <;>
        exact ⟨strings.bytes_lt _, strings.bytes_lt _⟩
  · have hne : (auth.NewService jwtSecret jwtExpiresIn jwtIssuer clientID clientSecret
        redirectURL).googleConfig.RedirectURL ≠ "" := hr
    rw [if_pos hne, oauth2.Query_endpoint_encodePairs]
    · refine ⟨rfl, ?_, ?_, ?_, ?_, ?_, rand.Read_length source 32, hlen,
        fmt.hex_digits _ (rand.Read_lt source 32)⟩
      · simp [url.Values.Add, k1, k2, k3, k4, k5, k6, List.lookup, auth.NewService]
      · intro _
        simp [url.Values.Add, k1, k2, k3, k4, k5, k6, List.lookup, auth.NewService]
      · intro h
        exact absurd h hr
      · simp [url.Values.Add, k1, k2, k3, k4, k5, k6, List.lookup, auth.NewService,
          String.intercalate, String.intercalate.go]
      · simp [url.Values.Add, k1, k2, k3, k4, k5, k6, List.lookup]
    · intro p hp
      simp only [List.mem_cons, List.mem_singleton, List.not_mem_nil, or_false] at hp
      rcases hp with rfl | rfl | rfl | rfl | rfl | rfl <;>
        exact ⟨strings.bytes_lt _, strings.bytes_lt _⟩

/-- Counterexample to C21 as stated: the service made when GOOGLE_REDIRECT_URL is not set
(the configured redirect URL is the empty string, which `validateConfig` accepts) returns a
URL that carries no redirect_uri parameter. -/
theorem auth.auth_url_without_redirect_uri :
    Sample.serviceNoRedirect.googleConfig.RedirectURL = "" ∧
    Sample.serviceNoRedirect.GetGoogleAuthURL Sample.source =
      "https://accounts.google.com/o/oauth2/auth?access_type=offline&client_id=client" ++
      "&response_type=code&scope=https%3A%2F%2Fwww.googleapis.com%2Fauth%2Fuserinfo.email" ++
      "+https%3A%2F%2Fwww.googleapis.com%2Fauth%2Fuserinfo.profile" ++
      "&state=030a11181f262d343b424950575e656c737a81888f969da4abb2b9c0c7ced5dc" ∧
    (url.Query (Sample.serviceNoRedirect.GetGoogleAuthURL Sample.source)).1.Has
      (strings.bytes "redirect_uri") = false ∧
    (url.Query (Sample.serviceNoRedirect.GetGoogleAuthURL Sample.source)).1.map Prod.fst =
      [strings.bytes "access_type", strings.bytes "client_id", strings.bytes "response_type",
       strings.bytes "scope", strings.bytes "state"] := by
  refine ⟨rfl, ?_, ?_, ?_⟩
  · set_option maxRecDepth 100000 in decide
  · set_option maxRecDepth 100000 in decide
  · set_option maxRecDepth 100000 in decide
